import Mathlib

/-!
# Signal flow graph opcodes

A shallow embedding of `Opcodes/signalflowgraph.cpp` (with the records of
`H/csoundCore.h` it uses) and theorems about it.

Conventions of the embedding

* `MYFLT` is modelled by exact rational arithmetic.
* A pointer to an opcode instance (`Outletk *`, `Inleta *`, ...) is an address `Ref`;
  the instance behind an address is read through a memory function.
* A C array reached through a pointer (`MYFLT *asignal`, `p[PMAX+1]`) is a function
  from indices to values.
* `std::map<std::string, V>` is a finite partial function `String → Option V`;
  `m[k]` inserts a default-constructed value when `k` is absent.
* The outer `std::map<CSOUND *, ...>` of every global is a total function of the
  engine address: `operator[]` default-constructs the entry, and the code never
  observes whether an outer entry exists.
* The address of a registry bucket (`&koutlets`, a `std::vector` living inside a map
  node) is modelled as the identifier keying that bucket; reading through the address
  is the lookup of the identifier in the registry.
* A C string (`char *strarg`, a resolved string argument) is a `String`, the empty
  string standing for a null pointer.
* Collaborators of the engine (`GetKsmps`, `new`, `hfgens`, `strarg2name`) are
  parameters: the value or function they answer with.
* `std::map<EVTBLK, int>`, whose comparator is not a strict weak ordering, is the
  red-black tree of libstdc++ with its pointers; the cache of an engine is kept as the
  list of the assignments made on it since it was cleared.
* A call that reads through a null pointer or outside allocated memory, or that does
  not leave a loop, has no result: `none`, or a named outcome of its own.
-/

namespace Csound

/-! ## Scalars, constants and records of `csoundCore.h` -/

/-- The sample type `MYFLT`, over exact arithmetic. -/
abbrev MYFLT := ℚ

/-- The address of an engine, `CSOUND *`. -/
abbrev CSOUND := Nat

/-- The address of an opcode instance or of a heap object. -/
abbrev Ref := Nat

/-- Status `OK` of `csoundCore.h`. -/
def OK : Int := 0

/-- Status `NOTOK` of `csoundCore.h`, returned by `InitError`. -/
def NOTOK : Int := -1

/-- Constant `PMAX`. -/
def PMAX : Nat := 1000

/-- Constant `VARGMAX`. -/
def VARGMAX : Nat := 1001

/-- Marker `SSTRCOD` of a p-field that carries a string. -/
def SSTRCOD : MYFLT := 3945467

/-- The part of `INSDS` (a voice) the opcodes read: the name of its instrument
template (`((INSTRTXT *) nxti->optext)->insname`), the active flag and `p1`. -/
structure INSDS where
  insname : String
  actflg : Int
  p1 : MYFLT

/-- Record `EVTBLK`: the data of one score event. `strarg` is the C string behind the
pointer, the empty string for a null pointer; `pcnt` is a count of p-fields. -/
structure EVTBLK where
  strarg : String
  opcod : Char
  pcnt : Nat
  p2orig : MYFLT
  p3orig : MYFLT
  p : Nat → MYFLT

/-- Record `FUNC`, of which only the table number is used. -/
structure FUNC where
  fno : Int
  deriving DecidableEq

/-- Record `AUXCH` with the frame memory seen as an array of `float`. -/
structure AUXCH where
  size : Nat
  auxp : Option (Nat → MYFLT)

/-- Record `PVSDAT` (declared in `pstream.h`), with the fields the opcodes use. -/
structure PVSDAT where
  N : Int
  sliding : Int
  NB : Int
  overlap : Int
  winsize : Int
  wintype : Int
  format : Int
  framecount : Nat
  frame : AUXCH

/-! ## Containers -/

/-- A `std::map<std::string, V>`. -/
abbrev StdMap (V : Type) := String → Option V

/-- The map after `clear()`. -/
def StdMap.clear {V : Type} : StdMap V := fun _ => none

/-- The vector read through `m[k]`: empty when `k` has no entry. -/
def StdMap.value {α : Type} (m : StdMap (List α)) (k : String) : List α :=
  (m k).getD []

/-- The map after evaluating `m[k]`: an empty vector is inserted when `k` has no entry. -/
def StdMap.touch {α : Type} (m : StdMap (List α)) (k : String) : StdMap (List α) :=
  fun k' => if k' = k then some (m.value k) else m k'

/-- The map after the vector behind `m[k]` has been written. -/
def StdMap.assign {α : Type} (m : StdMap (List α)) (k : String) (v : List α) :
    StdMap (List α) :=
  fun k' => if k' = k then some v else m k'

/-- Writing the entry of one engine in a global keyed by `CSOUND *`. -/
def setFor {α : Type} (f : CSOUND → α) (csound : CSOUND) (v : α) : CSOUND → α :=
  fun c => if c = csound then v else f c

/-- The idiom `if (std::find(v.begin(), v.end(), x) == v.end()) v.push_back(x);`. -/
def pushBackIfAbsent {α : Type} [DecidableEq α] (v : List α) (x : α) : List α :=
  if x ∈ v then v else v ++ [x]

/-- The idiom of the inlets,
`if (std::find(v.begin(), v.end(), x) != v.end()) v.push_back(x);`. -/
def pushBackIfPresent {α : Type} [DecidableEq α] (v : List α) (x : α) : List α :=
  if x ∈ v then v ++ [x] else v

/-! ## The global registries -/

/-- The global variables of `signalflowgraph.cpp`, each keyed by the engine. -/
structure Globals where
  aoutletsForCsoundsForSourceOutletIds : CSOUND → StdMap (List Ref)
  koutletsForCsoundsForSourceOutletIds : CSOUND → StdMap (List Ref)
  foutletsForCsoundsForSourceOutletIds : CSOUND → StdMap (List Ref)
  ainletsForCsoundsForSinkInletIds : CSOUND → StdMap (List Ref)
  kinletsForCsoundsForSinkInletIds : CSOUND → StdMap (List Ref)
  finletsForCsoundsForSinkInletIds : CSOUND → StdMap (List Ref)
  connectionsForCsounds : CSOUND → StdMap (List String)
  functionTablesForCsoundsForEvtblks : CSOUND → List (EVTBLK × Int)
  aoutletVectorsForCsounds : CSOUND → List Ref
  koutletVectorsForCsounds : CSOUND → List Ref
  foutletVectorsForCsounds : CSOUND → List Ref
  stdStringsForCsounds : CSOUND → List String

/-- The globals at program start: every map is empty. -/
def Globals.initial : Globals where
  aoutletsForCsoundsForSourceOutletIds := fun _ => StdMap.clear
  koutletsForCsoundsForSourceOutletIds := fun _ => StdMap.clear
  foutletsForCsoundsForSourceOutletIds := fun _ => StdMap.clear
  ainletsForCsoundsForSinkInletIds := fun _ => StdMap.clear
  kinletsForCsoundsForSinkInletIds := fun _ => StdMap.clear
  finletsForCsoundsForSinkInletIds := fun _ => StdMap.clear
  connectionsForCsounds := fun _ => StdMap.clear
  functionTablesForCsoundsForEvtblks := fun _ => []
  aoutletVectorsForCsounds := fun _ => []
  koutletVectorsForCsounds := fun _ => []
  foutletVectorsForCsounds := fun _ => []
  stdStringsForCsounds := fun _ => []

/-! ## `signalflowgraph` -/

/-- `SignalFlowGraph::init`: clears the registries, the connections and the table
cache of the current engine. -/
def SignalFlowGraph.init (g : Globals) (csound : CSOUND) : Int × Globals :=
  (OK,
   { g with
     aoutletsForCsoundsForSourceOutletIds :=
       setFor g.aoutletsForCsoundsForSourceOutletIds csound StdMap.clear
     koutletsForCsoundsForSourceOutletIds :=
       setFor g.koutletsForCsoundsForSourceOutletIds csound StdMap.clear
     foutletsForCsoundsForSourceOutletIds :=
       setFor g.foutletsForCsoundsForSourceOutletIds csound StdMap.clear
     ainletsForCsoundsForSinkInletIds :=
       setFor g.ainletsForCsoundsForSinkInletIds csound StdMap.clear
     kinletsForCsoundsForSinkInletIds :=
       setFor g.kinletsForCsoundsForSinkInletIds csound StdMap.clear
     finletsForCsoundsForSinkInletIds :=
       setFor g.finletsForCsoundsForSinkInletIds csound StdMap.clear
     connectionsForCsounds := setFor g.connectionsForCsounds csound StdMap.clear
     functionTablesForCsoundsForEvtblks :=
       setFor g.functionTablesForCsoundsForEvtblks csound [] })

/-! ## Outlets -/

/-- Opcode `outleta`; `Sname` is the string `strarg2name` resolves the argument to. -/
structure Outleta where
  insdshead : INSDS
  asignal : Nat → MYFLT
  Sname : String
  sourceOutletId : String

/-- Opcode `outletk`. -/
structure Outletk where
  insdshead : INSDS
  ksignal : MYFLT
  Sname : String
  sourceOutletId : String

/-- Opcode `outletf`. -/
structure Outletf where
  insdshead : INSDS
  fsignal : PVSDAT
  Sname : String
  sourceOutletId : String

/-- `Outleta::init` for the instance at address `self`. -/
def Outleta.init (g : Globals) (csound : CSOUND) (self : Ref) (this : Outleta) :
    Int × Globals × Outleta :=
  let sourceOutletId_ := this.insdshead.insname ++ ":" ++ this.Sname
  let aoutlets := (g.aoutletsForCsoundsForSourceOutletIds csound).value sourceOutletId_
  let g1 := { g with
    aoutletsForCsoundsForSourceOutletIds :=
      setFor g.aoutletsForCsoundsForSourceOutletIds csound
        ((g.aoutletsForCsoundsForSourceOutletIds csound).assign sourceOutletId_
          (pushBackIfAbsent aoutlets self)) }
  let g2 := { g1 with
    stdStringsForCsounds :=
      setFor g1.stdStringsForCsounds csound
        (g1.stdStringsForCsounds csound ++ [sourceOutletId_]) }
  (OK, g2, { this with sourceOutletId := sourceOutletId_ })

/-- `Outletk::init` for the instance at address `self`. -/
def Outletk.init (g : Globals) (csound : CSOUND) (self : Ref) (this : Outletk) :
    Int × Globals × Outletk :=
  let sourceOutletId_ := this.insdshead.insname ++ ":" ++ this.Sname
  let koutlets := (g.koutletsForCsoundsForSourceOutletIds csound).value sourceOutletId_
  let g1 := { g with
    koutletsForCsoundsForSourceOutletIds :=
      setFor g.koutletsForCsoundsForSourceOutletIds csound
        ((g.koutletsForCsoundsForSourceOutletIds csound).assign sourceOutletId_
          (pushBackIfAbsent koutlets self)) }
  let g2 := { g1 with
    stdStringsForCsounds :=
      setFor g1.stdStringsForCsounds csound
        (g1.stdStringsForCsounds csound ++ [sourceOutletId_]) }
  (OK, g2, { this with sourceOutletId := sourceOutletId_ })

/-- `Outletf::init` for the instance at address `self`. -/
def Outletf.init (g : Globals) (csound : CSOUND) (self : Ref) (this : Outletf) :
    Int × Globals × Outletf :=
  let sourceOutletId_ := this.insdshead.insname ++ ":" ++ this.Sname
  let foutlets := (g.foutletsForCsoundsForSourceOutletIds csound).value sourceOutletId_
  let g1 := { g with
    foutletsForCsoundsForSourceOutletIds :=
      setFor g.foutletsForCsoundsForSourceOutletIds csound
        ((g.foutletsForCsoundsForSourceOutletIds csound).assign sourceOutletId_
          (pushBackIfAbsent foutlets self)) }
  let g2 := { g1 with
    stdStringsForCsounds :=
      setFor g1.stdStringsForCsounds csound
        (g1.stdStringsForCsounds csound ++ [sourceOutletId_]) }
  (OK, g2, { this with sourceOutletId := sourceOutletId_ })

/-! ## Inlets -/

/-- The loop of the inlets over the declared source identifiers: each
`outlets[sourceOutletId]` is evaluated (which creates the bucket when absent) and the
address of the bucket is pushed on `sourceOutlets` when `std::find` does NOT return
`end()`, that is when the bucket is already in `sourceOutlets`. -/
def bindSourceOutlets (outlets : StdMap (List Ref)) (sourceOutlets : List String)
    (sourceOutletIds : List String) : StdMap (List Ref) × List String :=
  sourceOutletIds.foldl
    (fun st sourceOutletId =>
      (st.1.touch sourceOutletId, pushBackIfPresent st.2 sourceOutletId))
    (outlets, sourceOutlets)

/-- The assignment `a[i] = v` on an array. -/
def writeAt (a : Nat → MYFLT) (i : Nat) (v : MYFLT) : Nat → MYFLT :=
  fun j => if j = i then v else a j

/-- Opcode `inleta`. `sourceOutlets` is the vector behind the pointer of that name
(the bound buckets, each named by its identifier) and `sourceOutletsPtr` the
pointer itself. -/
structure Inleta where
  insdshead : INSDS
  Sname : String
  asignal : Nat → MYFLT
  sinkInletId : String
  sourceOutlets : List String
  sourceOutletsPtr : Ref
  ksmps : Nat

/-- `Inleta::init` for the instance at address `self`; `GetKsmps` is what
`csound->GetKsmps(csound)` returns and `fresh` the address `new` returns. -/
def Inleta.init (g : Globals) (csound : CSOUND) (GetKsmps : Nat) (fresh : Ref)
    (self : Ref) (this : Inleta) : Int × Globals × Inleta :=
  let this1 := { this with ksmps := GetKsmps }
  let registered := this1.sourceOutletsPtr ∈ g.aoutletVectorsForCsounds csound
  let this2 :=
    if registered then this1
    else { this1 with sourceOutletsPtr := fresh, sourceOutlets := [] }
  let g1 :=
    if registered then g
    else { g with
      aoutletVectorsForCsounds :=
        setFor g.aoutletVectorsForCsounds csound
          (g.aoutletVectorsForCsounds csound ++ [fresh]) }
  let sinkInletId_ := this2.insdshead.insname ++ ":" ++ this2.Sname
  let ainlets := (g1.ainletsForCsoundsForSinkInletIds csound).value sinkInletId_
  let g2 := { g1 with
    ainletsForCsoundsForSinkInletIds :=
      setFor g1.ainletsForCsoundsForSinkInletIds csound
        ((g1.ainletsForCsoundsForSinkInletIds csound).assign sinkInletId_
          (pushBackIfAbsent ainlets self)) }
  let sourceOutletIds := (g2.connectionsForCsounds csound).value sinkInletId_
  let g3 := { g2 with
    connectionsForCsounds :=
      setFor g2.connectionsForCsounds csound
        ((g2.connectionsForCsounds csound).touch sinkInletId_) }
  let bound := bindSourceOutlets (g3.aoutletsForCsoundsForSourceOutletIds csound)
    this2.sourceOutlets sourceOutletIds
  let g4 := { g3 with
    aoutletsForCsoundsForSourceOutletIds :=
      setFor g3.aoutletsForCsoundsForSourceOutletIds csound bound.1 }
  let g5 := { g4 with
    stdStringsForCsounds :=
      setFor g4.stdStringsForCsounds csound
        (g4.stdStringsForCsounds csound ++ [sinkInletId_]) }
  (OK, g5, { this2 with sourceOutlets := bound.2, sinkInletId := sinkInletId_ })

/-- Opcode `inletk`. `sourceOutlets` is the vector behind the pointer of that name
(the bound buckets, each named by its identifier) and `sourceOutletsPtr` the
pointer itself. -/
structure Inletk where
  insdshead : INSDS
  Sname : String
  ksignal : MYFLT
  sinkInletId : String
  sourceOutlets : List String
  sourceOutletsPtr : Ref
  ksmps : Nat

/-- `Inletk::init` for the instance at address `self`; `GetKsmps` is what
`csound->GetKsmps(csound)` returns and `fresh` the address `new` returns. -/
def Inletk.init (g : Globals) (csound : CSOUND) (GetKsmps : Nat) (fresh : Ref)
    (self : Ref) (this : Inletk) : Int × Globals × Inletk :=
  let this1 := { this with ksmps := GetKsmps }
  let registered := this1.sourceOutletsPtr ∈ g.koutletVectorsForCsounds csound
  let this2 :=
    if registered then this1
    else { this1 with sourceOutletsPtr := fresh, sourceOutlets := [] }
  let g1 :=
    if registered then g
    else { g with
      koutletVectorsForCsounds :=
        setFor g.koutletVectorsForCsounds csound
          (g.koutletVectorsForCsounds csound ++ [fresh]) }
  let sinkInletId_ := this2.insdshead.insname ++ ":" ++ this2.Sname
  let kinlets := (g1.kinletsForCsoundsForSinkInletIds csound).value sinkInletId_
  let g2 := { g1 with
    kinletsForCsoundsForSinkInletIds :=
      setFor g1.kinletsForCsoundsForSinkInletIds csound
        ((g1.kinletsForCsoundsForSinkInletIds csound).assign sinkInletId_
          (pushBackIfAbsent kinlets self)) }
  let sourceOutletIds := (g2.connectionsForCsounds csound).value sinkInletId_
  let g3 := { g2 with
    connectionsForCsounds :=
      setFor g2.connectionsForCsounds csound
        ((g2.connectionsForCsounds csound).touch sinkInletId_) }
  let bound := bindSourceOutlets (g3.koutletsForCsoundsForSourceOutletIds csound)
    this2.sourceOutlets sourceOutletIds
  let g4 := { g3 with
    koutletsForCsoundsForSourceOutletIds :=
      setFor g3.koutletsForCsoundsForSourceOutletIds csound bound.1 }
  let g5 := { g4 with
    stdStringsForCsounds :=
      setFor g4.stdStringsForCsounds csound
        (g4.stdStringsForCsounds csound ++ [sinkInletId_]) }
  (OK, g5, { this2 with sourceOutlets := bound.2, sinkInletId := sinkInletId_ })

/-- Opcode `inletf`. `sourceOutlets` is the vector behind the pointer of that name
(the bound buckets, each named by its identifier) and `sourceOutletsPtr` the
pointer itself. -/
structure Inletf where
  insdshead : INSDS
  Sname : String
  fsignal : PVSDAT
  sinkInletId : String
  sourceOutlets : List String
  sourceOutletsPtr : Ref
  ksmps : Nat
  lastframe : Int
  fsignalInitialized : Bool

/-- `Inletf::init` for the instance at address `self`; `GetKsmps` is what
`csound->GetKsmps(csound)` returns and `fresh` the address `new` returns. -/
def Inletf.init (g : Globals) (csound : CSOUND) (GetKsmps : Nat) (fresh : Ref)
    (self : Ref) (this : Inletf) : Int × Globals × Inletf :=
  let this1 := { this with ksmps := GetKsmps, lastframe := 0, fsignalInitialized := false }
  let registered := this1.sourceOutletsPtr ∈ g.foutletVectorsForCsounds csound
  let this2 :=
    if registered then this1
    else { this1 with sourceOutletsPtr := fresh, sourceOutlets := [] }
  let g1 :=
    if registered then g
    else { g with
      foutletVectorsForCsounds :=
        setFor g.foutletVectorsForCsounds csound
          (g.foutletVectorsForCsounds csound ++ [fresh]) }
  let sinkInletId_ := this2.insdshead.insname ++ ":" ++ this2.Sname
  let finlets := (g1.finletsForCsoundsForSinkInletIds csound).value sinkInletId_
  let g2 := { g1 with
    finletsForCsoundsForSinkInletIds :=
      setFor g1.finletsForCsoundsForSinkInletIds csound
        ((g1.finletsForCsoundsForSinkInletIds csound).assign sinkInletId_
          (pushBackIfAbsent finlets self)) }
  let sourceOutletIds := (g2.connectionsForCsounds csound).value sinkInletId_
  let g3 := { g2 with
    connectionsForCsounds :=
      setFor g2.connectionsForCsounds csound
        ((g2.connectionsForCsounds csound).touch sinkInletId_) }
  let bound := bindSourceOutlets (g3.foutletsForCsoundsForSourceOutletIds csound)
    this2.sourceOutlets sourceOutletIds
  let g4 := { g3 with
    foutletsForCsoundsForSourceOutletIds :=
      setFor g3.foutletsForCsoundsForSourceOutletIds csound bound.1 }
  let g5 := { g4 with
    stdStringsForCsounds :=
      setFor g4.stdStringsForCsounds csound
        (g4.stdStringsForCsounds csound ++ [sinkInletId_]) }
  (OK, g5, { this2 with sourceOutlets := bound.2, sinkInletId := sinkInletId_ })

/-- `Inleta::audio`: zero the sink buffer, then add the buffer of every active outlet
of every bound bucket. `mem` reads the outlet instance behind an address; the sink
buffer is taken not to overlap a source buffer. -/
def Inleta.audio (g : Globals) (csound : CSOUND) (mem : Ref → Outleta) (this : Inleta) :
    Int × Inleta :=
  let zeroed :=
    (List.range this.ksmps).foldl (fun asignal signalI => writeAt asignal signalI 0)
      this.asignal
  let summed :=
    this.sourceOutlets.foldl
      (fun asignal bucket =>
        ((g.aoutletsForCsoundsForSourceOutletIds csound).value bucket).foldl
          (fun asignal instanceI =>
            let sourceOutlet := mem instanceI
            if sourceOutlet.insdshead.actflg ≠ 0 then
              (List.range this.ksmps).foldl
                (fun asignal signalI =>
                  writeAt asignal signalI
                    (asignal signalI + sourceOutlet.asignal signalI))
                asignal
            else asignal)
          asignal)
      zeroed
  (OK, { this with asignal := summed })

/-- `Inletk::kontrol`: zero the sink value, then add the value of every active outlet
of every bound bucket. `mem` reads the outlet instance behind an address. -/
def Inletk.kontrol (g : Globals) (csound : CSOUND) (mem : Ref → Outletk) (this : Inletk) :
    Int × Inletk :=
  let summed :=
    this.sourceOutlets.foldl
      (fun ksignal bucket =>
        ((g.koutletsForCsoundsForSourceOutletIds csound).value bucket).foldl
          (fun ksignal instanceI =>
            let sourceOutlet := mem instanceI
            if sourceOutlet.insdshead.actflg ≠ 0 then ksignal + sourceOutlet.ksignal
            else ksignal)
          ksignal)
      (0 : MYFLT)
  (OK, { this with ksignal := summed })

/-! ## `inletf`: the audio cycle -/

/-- Modelled from the spec: `PVS_AMP_FREQ`, the first of the two recognised analysis
formats. The constant is declared in `pstream.h`, which is not among the sources. -/
def PVS_AMP_FREQ : Int := 0

/-- Modelled from the spec: `PVS_AMP_PHASE`, the second of the two recognised analysis
formats. The constant is declared in `pstream.h`, which is not among the sources. -/
def PVS_AMP_PHASE : Int := 1

/-- The size `sizeof(float)`. -/
def sizeofFloat : Nat := 4

/-- How a call of `Inletf::audio` ends: it returns a status, with the memory of the
outlets and the inlet as it leaves them; or it never leaves a loop; or it reads
through a null frame pointer or outside the memory of a frame (undefined
behaviour). -/
inductive AudioOutcome where
  | returned (status : Int) (mem : Ref → Outletf) (this : Inletf)
  | diverges
  | fault

/-- The end of one pass through the body of the instance loop of `Inletf::audio`: the
loop goes on with the next instance, or the call ends. -/
inductive AudioStep where
  | next (mem : Ref → Outletf) (this : Inletf)
  | stop (outcome : AudioOutcome)

/-- The conversion of an `int` to `size_t` (64 bits): the value modulo `2^64`. -/
def toSizeT (x : Int) : Nat :=
  (x % 18446744073709551616).toNat

/-- The count of the `float`s that the memory of a frame holds. -/
def AUXCH.floats (a : AUXCH) : Nat :=
  a.size / sizeofFloat

/-- The lazy initialisation of the sink from the frame signal `source` of an active
outlet (build without `OLPC`): the inlet afterwards, and whether the format test
`!(fsignal->format == PVS_AMP_FREQ) || (fsignal->format == PVS_AMP_PHASE)` sends the
call to `InitError`. `sizeofMYFLT` is `sizeof(MYFLT)`, `AuxAlloc` what the allocating
collaborator leaves in the frame for a byte count (a `long`), and `this.ksmps` stands
for `csound->ksmps`. The two size tests compare as `size_t`. The warning about a shared
signal is not modelled. -/
def Inletf.lazyInit (sizeofMYFLT : Nat) (AuxAlloc : Int → AUXCH → AUXCH) (source : PVSDAT)
    (this : Inletf) : Inletf × Bool :=
  let N : Int := source.N
  let f0 : PVSDAT := { this.fsignal with sliding := 0 }
  let f1 : PVSDAT :=
    if source.sliding ≠ 0 then
      let frame : AUXCH :=
        if f0.frame.auxp.isNone ∨
            toSizeT (f0.frame.size : Int) <
              toSizeT ((sizeofMYFLT : Int) * (this.ksmps : Int) * (N + 2)) then
          AuxAlloc ((N + 2) * (sizeofMYFLT : Int) * (this.ksmps : Int)) f0.frame
        else f0.frame
      { f0 with frame := frame, NB := source.NB, sliding := 1 }
    else if f0.frame.auxp.isNone ∨
        toSizeT (f0.frame.size : Int) < toSizeT ((sizeofFloat : Int) * (N + 2)) then
      { f0 with frame := AuxAlloc ((N + 2) * (sizeofFloat : Int)) f0.frame }
    else f0
  let f2 : PVSDAT := { f1 with
    N := N, overlap := source.overlap, winsize := source.winsize,
    wintype := source.wintype, format := source.format, framecount := 1 }
  let this1 : Inletf := { this with fsignal := f2, lastframe := 0 }
  if ¬ (f2.format = PVS_AMP_FREQ) ∨ f2.format = PVS_AMP_PHASE then (this1, true)
  else ({ this1 with fsignalInitialized := true }, false)

/-- The bin loop `for (size_t binI = 0, binN = fsignal->N + 2; binI < binN; binI += 2)`
with its body `if (source[binI] > sink[binI]) { source[binI] = sink[binI];
source[binI + 1] = sink[binI + 1]; }`: the source frame afterwards, `none` when the
loop reads or writes outside one of the two frames, which hold `sinkFloats` and
`sourceFloats` floats. The bound `binN` is the `int` `N + 2` converted to `size_t`. -/
def Inletf.mergeBins (N : Int) (sinkFloats sourceFloats : Nat) (sink source : Nat → MYFLT) :
    Option (Nat → MYFLT) :=
  ((List.range (toSizeT (N + 2))).filter (fun binI => binI % 2 = 0)).foldlM
    (fun source binI =>
      if binI < sinkFloats ∧ binI < sourceFloats then
        if source binI > sink binI then
          if binI + 1 < sinkFloats ∧ binI + 1 < sourceFloats then
            some (writeAt (writeAt source binI (sink binI)) (binI + 1) (sink (binI + 1)))
          else none
        else some source
      else none)
    source

/-- The body of the instance loop of `Inletf::audio` for the outlet at address
`instanceI`, as the build without `OLPC` parses it: the closing brace before `else`
(line 570) ends the block of `if (sourceOutlet->h.insdshead->actflg)`, so the lazy
initialisation and the sliding loop run for an active outlet and the block after
`else` runs for an outlet that is not active. The inner sliding loop
`for (binI = 0, binN = fsignal->NB; binI < binN; i++)` never changes `binI`: once
entered it is never left; it reads the real parts of the first `CMPLX` of the two
frames, and copies that `CMPLX` when the one of the source is greater. -/
def Inletf.visit (sizeofMYFLT : Nat) (AuxAlloc : Int → AUXCH → AUXCH)
    (mem : Ref → Outletf) (this : Inletf) (instanceI : Ref) : AudioStep :=
  let sourceOutlet := mem instanceI
  if sourceOutlet.insdshead.actflg ≠ 0 then
    let initialised :=
      if this.fsignalInitialized then (this, false)
      else Inletf.lazyInit sizeofMYFLT AuxAlloc sourceOutlet.fsignal this
    if initialised.2 then AudioStep.stop (AudioOutcome.returned NOTOK mem initialised.1)
    else if initialised.1.fsignal.sliding ≠ 0 then
      if initialised.1.ksmps = 0 ∨ initialised.1.fsignal.NB = 0 then
        AudioStep.next mem initialised.1
      else
        match initialised.1.fsignal.frame.auxp, sourceOutlet.fsignal.frame.auxp with
        | some sinkFrame, some sourceFrame =>
          if initialised.1.fsignal.frame.size < sizeofMYFLT ∨
              sourceOutlet.fsignal.frame.size < sizeofMYFLT then
            AudioStep.stop AudioOutcome.fault
          else if sourceFrame 0 > sinkFrame 0 ∧
              (initialised.1.fsignal.frame.size < 2 * sizeofMYFLT ∨
                sourceOutlet.fsignal.frame.size < 2 * sizeofMYFLT) then
            AudioStep.stop AudioOutcome.fault
          else AudioStep.stop AudioOutcome.diverges
        | _, _ => AudioStep.stop AudioOutcome.fault
    else AudioStep.next mem initialised.1
  else if this.lastframe < (this.fsignal.framecount : Int) then
    let counted := { this with
      fsignal := { this.fsignal with framecount := sourceOutlet.fsignal.framecount }
      lastframe := (sourceOutlet.fsignal.framecount : Int) }
    if toSizeT (this.fsignal.N + 2) = 0 then AudioStep.next mem counted
    else
      match this.fsignal.frame.auxp, sourceOutlet.fsignal.frame.auxp with
      | some sink, some source =>
        match Inletf.mergeBins this.fsignal.N this.fsignal.frame.floats
            sourceOutlet.fsignal.frame.floats sink source with
        | some merged =>
          let written : Outletf := { sourceOutlet with
            fsignal := { sourceOutlet.fsignal with
              frame := { sourceOutlet.fsignal.frame with auxp := some merged } } }
          AudioStep.next (fun r => if r = instanceI then written else mem r) counted
        | none => AudioStep.stop AudioOutcome.fault
      | _, _ => AudioStep.stop AudioOutcome.fault
  else AudioStep.next mem this

/-- The two nested loops of `Inletf::audio` over the instances of the bound buckets,
in order, and the final `return OK`. -/
def Inletf.audioLoop (sizeofMYFLT : Nat) (AuxAlloc : Int → AUXCH → AUXCH) :
    List Ref → (Ref → Outletf) → Inletf → AudioOutcome
  | [], mem, this => AudioOutcome.returned OK mem this
  | instanceI :: rest, mem, this =>
    match Inletf.visit sizeofMYFLT AuxAlloc mem this instanceI with
    | AudioStep.next mem1 this1 => Inletf.audioLoop sizeofMYFLT AuxAlloc rest mem1 this1
    | AudioStep.stop outcome => outcome

/-- `Inletf::audio` (build without `OLPC`). `mem` is the memory of the outlet
instances, which the call may write; the frame signal of the inlet is taken not to be
the frame signal of an outlet. -/
def Inletf.audio (g : Globals) (csound : CSOUND) (sizeofMYFLT : Nat)
    (AuxAlloc : Int → AUXCH → AUXCH) (mem : Ref → Outletf) (this : Inletf) :
    AudioOutcome :=
  Inletf.audioLoop sizeofMYFLT AuxAlloc
    (this.sourceOutlets.flatMap
      (fun bucket => (g.foutletsForCsoundsForSourceOutletIds csound).value bucket))
    mem this

/-- The inner loop of the sliding branch of `Inletf::audio`,
`for (size_t binI = 0, binN = fsignal->NB; binI < binN; i++)` with the body
`if (sourceFrame[binI].re > sinkFrame[binI].re) sinkFrame[binI] = sourceFrame[binI];`,
run for at most `fuel` tests of its condition: `some sink` when the loop is left
with the sink frame `sink`, `none` when it is not left within `fuel` tests. The frames
are arrays of `CMPLX`, the entry `k` being the two numbers at `2 * k` and `2 * k + 1`;
`offset` is `fsignal->NB * frameI`, and `i` is the local `int i`, which the loop
increments in place of `binI` (its overflow is not modelled). -/
def Inletf.slidingBins (binN offset : Nat) (source : Nat → MYFLT) :
    Nat → Nat → Int → (Nat → MYFLT) → Option (Nat → MYFLT)
  | 0, _, _, _ => none
  | fuel + 1, binI, i, sink =>
    if binI < binN then
      Inletf.slidingBins binN offset source fuel binI (i + 1)
        (if source (2 * (offset + binI)) > sink (2 * (offset + binI)) then
          writeAt (writeAt sink (2 * (offset + binI)) (source (2 * (offset + binI))))
            (2 * (offset + binI) + 1) (source (2 * (offset + binI) + 1))
        else sink)
    else some sink

/-! ## `connect` -/

/-- Opcode `connect`, its four arguments resolved to strings. -/
structure Connect where
  Source : String
  Soutlet : String
  Sink : String
  Sinlet : String

/-- `Connect::init`. -/
def Connect.init (g : Globals) (csound : CSOUND) (this : Connect) : Int × Globals :=
  let sourceOutletId := this.Source ++ ":" ++ this.Soutlet
  let sinkInletId := this.Sink ++ ":" ++ this.Sinlet
  (OK,
   { g with
     connectionsForCsounds :=
       setFor g.connectionsForCsounds csound
         ((g.connectionsForCsounds csound).assign sinkInletId
           ((g.connectionsForCsounds csound).value sinkInletId ++ [sourceOutletId])) })

/-! ## Table request keys and the table cache -/

/-- The loop of `operator<` over the p-fields `i`, `i + 1`, ... with `remaining`
iterations left: `some r` when the loop returns `r`, `none` when it runs to its end.
`strcmp(a.strarg, b.strarg) < 0` is the order of the two strings. -/
def EVTBLK.ltLoop (a b : EVTBLK) : Nat → Nat → Option Bool
  | 0, _ => none
  | remaining + 1, i =>
    if a.p i = SSTRCOD ∧ b.p i = SSTRCOD then
      if a.strarg < b.strarg then some true
      else if b.strarg < a.strarg then some false
      else EVTBLK.ltLoop a b remaining (i + 1)
    else if a.p i = SSTRCOD then some true
    else if b.p i = SSTRCOD then some false
    else if a.p i < b.p i then some true
    else EVTBLK.ltLoop a b remaining (i + 1)

/-- The comparator `operator<(const EVTBLK &, const EVTBLK &)`. -/
def EVTBLK.lt (a b : EVTBLK) : Bool :=
  if a.opcod < b.opcod then true
  else
    match EVTBLK.ltLoop a b (min a.pcnt b.pcnt) 0 with
    | some r => r
    | none =>
      if a.pcnt < b.pcnt then true
      else if a.pcnt > b.pcnt then false
      else false

/-- Two keys are equivalent for a `std::map` when neither is ordered before the other. -/
def EVTBLK.equiv (a b : EVTBLK) : Bool :=
  !(EVTBLK.lt a b) && !(EVTBLK.lt b a)

/-! ## The table cache: the tree of `std::map<EVTBLK, int>`

The cache is a `std::map` ordered by `operator<` on `EVTBLK`. That comparator is not a
strict weak ordering, so the answers of the map are those of the tree code of the
library and not those of an ordered dictionary. The definitions below follow the
red-black tree of libstdc++ (`bits/stl_tree.h`, `tree.cc`) pointer by pointer: the
members `find`, `lower_bound` and `operator[]` with `_M_emplace_hint_unique`,
`_M_get_insert_hint_unique_pos`, `_M_get_insert_unique_pos`, `_M_insert_node`,
`_Rb_tree_insert_and_rebalance`, the rotations, and the steps of the iterators. A
result `none` says that the code reads a null pointer or the key of the header
(undefined behaviour), or that a loop has not ended within the bound on its steps. -/

/-- A pointer to a node base of the tree of a `std::map`: null, the header of the tree
(the node `end()` stands on) or the node allocated as number `i`. -/
inductive NodePtr where
  | null
  | header
  | node (i : Nat)
  deriving DecidableEq

/-- A node of the tree (`_Rb_tree_node`): colour, parent, children, key and value. -/
structure RbNode (K : Type) where
  red : Bool
  parent : NodePtr
  left : NodePtr
  right : NodePtr
  key : K
  value : Int

/-- The tree of a `std::map<K, int>` (`_Rb_tree_impl`): the header, whose parent is the
root, whose left child is the leftmost node and whose right child is the rightmost
node (both the header itself in an empty tree), the count of the nodes, and the
memory of the nodes, the node `i` being the entry `i`. -/
structure RbTree (K : Type) where
  headerRed : Bool
  root : NodePtr
  leftmost : NodePtr
  rightmost : NodePtr
  count : Nat
  nodes : List (RbNode K)

/-- The tree of a new or cleared map. -/
def RbTree.empty {K : Type} : RbTree K :=
  { headerRed := true, root := NodePtr.null, leftmost := NodePtr.header,
    rightmost := NodePtr.header, count := 0, nodes := [] }

/-- The field `_M_color == _S_red` of `x`; `none` for a null pointer. -/
def RbTree.isRed {K : Type} (t : RbTree K) : NodePtr → Option Bool
  | NodePtr.null => none
  | NodePtr.header => some t.headerRed
  | NodePtr.node i => (t.nodes.get? i).map (fun n => n.red)

/-- The field `_M_parent` of `x`. -/
def RbTree.parentOf {K : Type} (t : RbTree K) : NodePtr → Option NodePtr
  | NodePtr.null => none
  | NodePtr.header => some t.root
  | NodePtr.node i => (t.nodes.get? i).map (fun n => n.parent)

/-- The field `_M_left` of `x`. -/
def RbTree.leftOf {K : Type} (t : RbTree K) : NodePtr → Option NodePtr
  | NodePtr.null => none
  | NodePtr.header => some t.leftmost
  | NodePtr.node i => (t.nodes.get? i).map (fun n => n.left)

/-- The field `_M_right` of `x`. -/
def RbTree.rightOf {K : Type} (t : RbTree K) : NodePtr → Option NodePtr
  | NodePtr.null => none
  | NodePtr.header => some t.rightmost
  | NodePtr.node i => (t.nodes.get? i).map (fun n => n.right)

/-- The key `_S_key(x)` of a node; `none` for a null pointer and for the header, which
holds no key. -/
def RbTree.keyOf {K : Type} (t : RbTree K) : NodePtr → Option K
  | NodePtr.node i => (t.nodes.get? i).map (fun n => n.key)
  | _ => none

/-- The value of a node. -/
def RbTree.valueOf {K : Type} (t : RbTree K) : NodePtr → Option Int
  | NodePtr.node i => (t.nodes.get? i).map (fun n => n.value)
  | _ => none

/-- The memory after an update of the node `i`. -/
def RbTree.modify {K : Type} (t : RbTree K) (i : Nat) (f : RbNode K → RbNode K) :
    Option (RbTree K) :=
  (t.nodes.get? i).map (fun n => { t with nodes := t.nodes.set i (f n) })

/-- The assignment `x->_M_color = red`. -/
def RbTree.setRed {K : Type} (t : RbTree K) (x : NodePtr) (red : Bool) : Option (RbTree K) :=
  match x with
  | NodePtr.null => none
  | NodePtr.header => some { t with headerRed := red }
  | NodePtr.node i => t.modify i (fun n => { n with red := red })

/-- The assignment `x->_M_parent = p`. -/
def RbTree.setParent {K : Type} (t : RbTree K) (x p : NodePtr) : Option (RbTree K) :=
  match x with
  | NodePtr.null => none
  | NodePtr.header => some { t with root := p }
  | NodePtr.node i => t.modify i (fun n => { n with parent := p })

/-- The assignment `x->_M_left = p`. -/
def RbTree.setLeft {K : Type} (t : RbTree K) (x p : NodePtr) : Option (RbTree K) :=
  match x with
  | NodePtr.null => none
  | NodePtr.header => some { t with leftmost := p }
  | NodePtr.node i => t.modify i (fun n => { n with left := p })

/-- The assignment `x->_M_right = p`. -/
def RbTree.setRight {K : Type} (t : RbTree K) (x p : NodePtr) : Option (RbTree K) :=
  match x with
  | NodePtr.null => none
  | NodePtr.header => some { t with rightmost := p }
  | NodePtr.node i => t.modify i (fun n => { n with right := p })

/-- The loop of `_M_lower_bound(x, y, k)`:
`while (x != 0) if (!comp(key(x), k)) y = x, x = left(x); else x = right(x);`. -/
def RbTree.lowerBoundLoop {K : Type} (lt : K → K → Bool) (t : RbTree K) (k : K) :
    Nat → NodePtr → NodePtr → Option NodePtr
  | 0, _, _ => none
  | fuel + 1, x, y =>
    if x = NodePtr.null then some y
    else do
      let kx ← t.keyOf x
      if !(lt kx k) then RbTree.lowerBoundLoop lt t k fuel (← t.leftOf x) x
      else RbTree.lowerBoundLoop lt t k fuel (← t.rightOf x) y

/-- The bound on the steps of a loop of the tree code: no loop follows the pointers
of a tree for more steps than the tree has nodes, the header counted, and one more. -/
def RbTree.fuel {K : Type} (t : RbTree K) : Nat := t.nodes.length + 2

/-- The member `lower_bound(k)`: `_M_lower_bound(_M_begin(), _M_end(), k)`. -/
def RbTree.lowerBound {K : Type} (lt : K → K → Bool) (t : RbTree K) (k : K) : Option NodePtr :=
  RbTree.lowerBoundLoop lt t k t.fuel t.root NodePtr.header

/-- The member `find(k)`: `j = lower_bound(k)`, then
`(j == end() || comp(k, key(j))) ? end() : j`. -/
def RbTree.find {K : Type} (lt : K → K → Bool) (t : RbTree K) (k : K) : Option NodePtr := do
  let j ← RbTree.lowerBound lt t k
  if j = NodePtr.header then some NodePtr.header
  else
    let kj ← t.keyOf j
    if lt k kj then some NodePtr.header else some j

/-- The loop `while (y->_M_right != 0) y = y->_M_right;`. -/
def RbTree.descendRight {K : Type} (t : RbTree K) : Nat → NodePtr → Option NodePtr
  | 0, _ => none
  | fuel + 1, y => do
    let r ← t.rightOf y
    if r = NodePtr.null then some y else RbTree.descendRight t fuel r

/-- The loop `while (x->_M_left != 0) x = x->_M_left;`. -/
def RbTree.descendLeft {K : Type} (t : RbTree K) : Nat → NodePtr → Option NodePtr
  | 0, _ => none
  | fuel + 1, x => do
    let l ← t.leftOf x
    if l = NodePtr.null then some x else RbTree.descendLeft t fuel l

/-- The loop `while (x == y->_M_left) { x = y; y = y->_M_parent; }` of the decrement:
the final `(x, y)`. -/
def RbTree.ascendFromLeft {K : Type} (t : RbTree K) :
    Nat → NodePtr → NodePtr → Option (NodePtr × NodePtr)
  | 0, _, _ => none
  | fuel + 1, x, y => do
    let l ← t.leftOf y
    if x = l then RbTree.ascendFromLeft t fuel y (← t.parentOf y) else some (x, y)

/-- The loop `while (x == y->_M_right) { x = y; y = y->_M_parent; }` of the increment:
the final `(x, y)`. -/
def RbTree.ascendFromRight {K : Type} (t : RbTree K) :
    Nat → NodePtr → NodePtr → Option (NodePtr × NodePtr)
  | 0, _, _ => none
  | fuel + 1, x, y => do
    let r ← t.rightOf y
    if x = r then RbTree.ascendFromRight t fuel y (← t.parentOf y) else some (x, y)

/-- The function `_Rb_tree_decrement(x)` behind `--it`. -/
def RbTree.decrement {K : Type} (t : RbTree K) (x : NodePtr) : Option NodePtr := do
  let red ← t.isRed x
  let headerCase ←
    if red then do
      let p ← t.parentOf x
      let pp ← t.parentOf p
      some (decide (pp = x))
    else some false
  if headerCase then t.rightOf x
  else
    let l ← t.leftOf x
    if l ≠ NodePtr.null then RbTree.descendRight t t.fuel l
    else
      let r ← RbTree.ascendFromLeft t t.fuel x (← t.parentOf x)
      some r.2

/-- The function `_Rb_tree_increment(x)` behind `++it`. -/
def RbTree.increment {K : Type} (t : RbTree K) (x : NodePtr) : Option NodePtr := do
  let r ← t.rightOf x
  if r ≠ NodePtr.null then RbTree.descendLeft t t.fuel r
  else
    let xy ← RbTree.ascendFromRight t t.fuel x (← t.parentOf x)
    if (← t.rightOf xy.1) ≠ xy.2 then some xy.2 else some xy.1

/-- The loop of `_M_get_insert_unique_pos(k)`:
`while (x != 0) { y = x; comp = comp(k, key(x)); x = comp ? left(x) : right(x); }`,
giving the final `y` and `comp`. -/
def RbTree.insertPosLoop {K : Type} (lt : K → K → Bool) (t : RbTree K) (k : K) :
    Nat → NodePtr → NodePtr → Bool → Option (NodePtr × Bool)
  | 0, _, _, _ => none
  | fuel + 1, x, y, comp =>
    if x = NodePtr.null then some (y, comp)
    else do
      let kx ← t.keyOf x
      let c := lt k kx
      RbTree.insertPosLoop lt t k fuel (← if c then t.leftOf x else t.rightOf x) x c

/-- The member `_M_get_insert_unique_pos(k)`: the pair `(x, p)`; a null `p` says that
the node `x` holds an equivalent key, else the new node goes below `p`. -/
def RbTree.getInsertUniquePos {K : Type} (lt : K → K → Bool) (t : RbTree K) (k : K) :
    Option (NodePtr × NodePtr) := do
  let yc ← RbTree.insertPosLoop lt t k t.fuel t.root NodePtr.header true
  let y := yc.1
  let j ←
    if yc.2 then
      if y = t.leftmost then some none else (RbTree.decrement t y).map some
    else some (some y)
  match j with
  | none => some (NodePtr.null, y)
  | some j =>
    let kj ← t.keyOf j
    if lt kj k then some (NodePtr.null, y) else some (j, NodePtr.null)

/-- The member `_M_get_insert_hint_unique_pos(pos, k)`. -/
def RbTree.getInsertHintUniquePos {K : Type} (lt : K → K → Bool) (t : RbTree K)
    (pos : NodePtr) (k : K) : Option (NodePtr × NodePtr) := do
  if pos = NodePtr.header then
    if t.count > 0 then
      let kr ← t.keyOf t.rightmost
      if lt kr k then some (NodePtr.null, t.rightmost)
      else RbTree.getInsertUniquePos lt t k
    else RbTree.getInsertUniquePos lt t k
  else
    let kp ← t.keyOf pos
    if lt k kp then
      if pos = t.leftmost then some (t.leftmost, t.leftmost)
      else
        let before ← RbTree.decrement t pos
        let kb ← t.keyOf before
        if lt kb k then
          if (← t.rightOf before) = NodePtr.null then some (NodePtr.null, before)
          else some (pos, pos)
        else RbTree.getInsertUniquePos lt t k
    else if lt kp k then
      if pos = t.rightmost then some (NodePtr.null, t.rightmost)
      else
        let after ← RbTree.increment t pos
        let ka ← t.keyOf after
        if lt k ka then
          if (← t.rightOf pos) = NodePtr.null then some (NodePtr.null, pos)
          else some (after, after)
        else RbTree.getInsertUniquePos lt t k
    else some (pos, NodePtr.null)

/-- The function `local_Rb_tree_rotate_left(x, root)`. -/
def RbTree.rotateLeft {K : Type} (t : RbTree K) (x : NodePtr) : Option (RbTree K) := do
  let y ← t.rightOf x
  let yl ← t.leftOf y
  let t ← t.setRight x yl
  let t ← if yl ≠ NodePtr.null then t.setParent yl x else some t
  let xp ← t.parentOf x
  let t ← t.setParent y xp
  let t ←
    if x = t.root then some { t with root := y }
    else if x = (← t.leftOf xp) then t.setLeft xp y
    else t.setRight xp y
  let t ← t.setLeft y x
  t.setParent x y

/-- The function `local_Rb_tree_rotate_right(x, root)`. -/
def RbTree.rotateRight {K : Type} (t : RbTree K) (x : NodePtr) : Option (RbTree K) := do
  let y ← t.leftOf x
  let yr ← t.rightOf y
  let t ← t.setLeft x yr
  let t ← if yr ≠ NodePtr.null then t.setParent yr x else some t
  let xp ← t.parentOf x
  let t ← t.setParent y xp
  let t ←
    if x = t.root then some { t with root := y }
    else if x = (← t.rightOf xp) then t.setRight xp y
    else t.setLeft xp y
  let t ← t.setRight y x
  t.setParent x y

/-- The loop `while (x != root && x->_M_parent->_M_color == _S_red)` of
`_Rb_tree_insert_and_rebalance`. -/
def RbTree.rebalanceLoop {K : Type} : Nat → RbTree K → NodePtr → Option (RbTree K)
  | 0, _, _ => none
  | fuel + 1, t, x =>
    if x = t.root then some t
    else do
      let xp ← t.parentOf x
      if !(← t.isRed xp) then some t
      else
        let xpp ← t.parentOf xp
        if xp = (← t.leftOf xpp) then
          let y ← t.rightOf xpp
          if y ≠ NodePtr.null ∧ (← if y = NodePtr.null then some false else t.isRed y) then
            let t ← t.setRed xp false
            let t ← t.setRed y false
            let t ← t.setRed xpp true
            RbTree.rebalanceLoop fuel t xpp
          else
            let tx ←
              if x = (← t.rightOf xp) then (t.rotateLeft xp).map (fun t => (t, xp))
              else some (t, x)
            let t := tx.1
            let x := tx.2
            let t ← t.setRed (← t.parentOf x) false
            let t ← t.setRed xpp true
            let t ← t.rotateRight xpp
            RbTree.rebalanceLoop fuel t x
        else
          let y ← t.leftOf xpp
          if y ≠ NodePtr.null ∧ (← if y = NodePtr.null then some false else t.isRed y) then
            let t ← t.setRed xp false
            let t ← t.setRed y false
            let t ← t.setRed xpp true
            RbTree.rebalanceLoop fuel t xpp
          else
            let tx ←
              if x = (← t.leftOf xp) then (t.rotateRight xp).map (fun t => (t, xp))
              else some (t, x)
            let t := tx.1
            let x := tx.2
            let t ← t.setRed (← t.parentOf x) false
            let t ← t.setRed xpp true
            let t ← t.rotateLeft xpp
            RbTree.rebalanceLoop fuel t x

/-- The function `_Rb_tree_insert_and_rebalance(insert_left, x, p, header)` for the
node `x` just allocated. -/
def RbTree.insertAndRebalance {K : Type} (t : RbTree K) (insertLeft : Bool)
    (x p : NodePtr) : Option (RbTree K) := do
  let t ← t.setParent x p
  let t ← t.setLeft x NodePtr.null
  let t ← t.setRight x NodePtr.null
  let t ← t.setRed x true
  let t ←
    if insertLeft then do
      let t ← t.setLeft p x
      if p = NodePtr.header then some { t with root := x, rightmost := x }
      else if p = t.leftmost then some { t with leftmost := x }
      else some t
    else do
      let t ← t.setRight p x
      if p = t.rightmost then some { t with rightmost := x } else some t
  let t ← RbTree.rebalanceLoop t.fuel t x
  t.setRed t.root false

/-- The member `_M_insert_node(x, p, z)` for a new node `z` with the key `k`. -/
def RbTree.insertNode {K : Type} (lt : K → K → Bool) (t : RbTree K) (x p : NodePtr) (k : K) :
    Option (RbTree K × NodePtr) := do
  let insertLeft ←
    if x ≠ NodePtr.null ∨ p = NodePtr.header then some true
    else (t.keyOf p).map (fun kp => lt k kp)
  let z := NodePtr.node t.nodes.length
  let t1 : RbTree K := { t with
    nodes := t.nodes ++ [{ red := false, parent := NodePtr.null, left := NodePtr.null,
                           right := NodePtr.null, key := k, value := 0 }] }
  let t2 ← t1.insertAndRebalance insertLeft z p
  some ({ t2 with count := t2.count + 1 }, z)

/-- The member `_M_emplace_hint_unique(pos, k)`: the tree and the node with the key. -/
def RbTree.emplaceHintUnique {K : Type} (lt : K → K → Bool) (t : RbTree K) (pos : NodePtr)
    (k : K) : Option (RbTree K × NodePtr) := do
  let res ← RbTree.getInsertHintUniquePos lt t pos k
  if res.2 ≠ NodePtr.null then RbTree.insertNode lt t res.1 res.2 k
  else some (t, res.1)

/-- The assignment `map[k] = v`: `operator[]`, which is `i = lower_bound(k)`, then
`if (i == end() || comp(k, (*i).first)) i = _M_emplace_hint_unique(i, k)`, and the
store into `(*i).second`. -/
def RbTree.assign {K : Type} (lt : K → K → Bool) (t : RbTree K) (k : K) (v : Int) :
    Option (RbTree K) := do
  let i ← RbTree.lowerBound lt t k
  let insert ←
    if i = NodePtr.header then some true else (t.keyOf i).map (fun ki => lt k ki)
  let ti ← if insert then RbTree.emplaceHintUnique lt t i k else some (t, i)
  match ti.2 with
  | NodePtr.node n => ti.1.modify n (fun node => { node with value := v })
  | _ => none

/-- The conversion of a `long` to the `int` stored in the map (`FUNC::fno` is a `long`,
the mapped type is `int`): the value modulo `2^32` in the range of `int`. -/
def narrowInt (x : Int) : Int :=
  (x + 2147483648) % 4294967296 - 2147483648

/-- The tree of the cache after the assignments `m[key] = value` listed in `m`, made
in that order on an empty map; `none` when one of them runs into undefined
behaviour. The cache of an engine is kept as this list: the code changes the map only
by `clear()` and by the assignment of `FtGenOnce::init`. -/
def cacheTree (m : List (EVTBLK × Int)) : Option (RbTree EVTBLK) :=
  m.foldlM (fun t entry => RbTree.assign EVTBLK.lt t entry.1 entry.2) RbTree.empty

/-- Whether the assignments behind the cache stay clear of undefined behaviour. -/
def cacheDefined (m : List (EVTBLK × Int)) : Bool :=
  (cacheTree m).isSome

/-- `std::map<EVTBLK, int>::find` on the cache: the key and the value of the node that
`find` answers, `none` for `end()`. On a cache whose tree is not defined the model
answers `none`. A hit reads `map[evtblk]`, which stands on the node that `find`
answers, because `operator[]` starts with the same `lower_bound`. -/
def findEvtblk (m : List (EVTBLK × Int)) (k : EVTBLK) : Option (EVTBLK × Int) :=
  match cacheTree m with
  | none => none
  | some t =>
    match RbTree.find EVTBLK.lt t k with
    | some (NodePtr.node i) => (t.nodes.get? i).map (fun n => (n.key, n.value))
    | _ => none

/-- The cache after `m[k] = v`. -/
def assignEvtblk (m : List (EVTBLK × Int)) (k : EVTBLK) (v : Int) : List (EVTBLK × Int) :=
  m ++ [(k, v)]

/-- The assignment `evtblk.p[i] = v`. -/
def EVTBLK.setP (e : EVTBLK) (i : Nat) (v : MYFLT) : EVTBLK :=
  { e with p := writeAt e.p i v }

/-- The record after `std::memset(&evtblk, 0, sizeof(EVTBLK))`. A null `strarg` is the
empty string: the comparator reads `strarg` only where a p-field carries `SSTRCOD`. -/
def EVTBLK.zero : EVTBLK where
  strarg := ""
  opcod := Char.ofNat 0
  pcnt := 0
  p2orig := 0
  p3orig := 0
  p := fun _ => 0

/-- The conversion `(int) x` of a `MYFLT`: truncation toward zero. -/
def truncToInt (x : MYFLT) : Int :=
  if 0 ≤ x then Rat.floor x else -Rat.floor (-x)

/-! ## `ftgenonce` -/

/-- Opcode `ftgenonce`. `smask` is what `GetInputArgSMask` returns, `p5` the number
behind the fifth argument and `p5string` the string behind it (`(char *) p5`);
`argums` are the variadic arguments, so that `GetInputArgCnt` is `5 + argums.length`
(at most `VARGMAX + 5`, which `(int16)` leaves unchanged). -/
structure FtGenOnce where
  ifno : MYFLT
  p1 : MYFLT
  p2 : MYFLT
  p3 : MYFLT
  p4 : MYFLT
  p5 : MYFLT
  p5string : String
  argums : List MYFLT
  smask : Nat

/-- What `FtGenOnce::init` leaves behind: its status, the globals, the opcode with its
output `ifno`, and the requests passed to the collaborator `hfgens`, in order. -/
structure FtGenOnceResult where
  status : Int
  g : Globals
  this : FtGenOnce
  hfgensCalls : List EVTBLK

/-- The request key `FtGenOnce::init` builds before the string check: the fixed fields
`p[0]` to `p[4]`. -/
def FtGenOnce.fixedFields (this : FtGenOnce) : EVTBLK :=
  let e0 := { EVTBLK.zero with opcod := 'f', strarg := "" }
  let e1 := (e0.setP 0 0).setP 1 this.p1
  let e2 := { e1.setP 2 0 with p2orig := 0 }
  let e3 := { e2.setP 3 (-1) with p3orig := -1 }
  e3.setP 4 this.p4

/-- The string check of `FtGenOnce::init`: `none` when it returns the initialization
error "ftgen string arg not allowed", else the key with `p[5]` set. -/
def FtGenOnce.withP5 (this : FtGenOnce) (e : EVTBLK) : Option EVTBLK :=
  if this.smask ≠ 0 then
    let n := truncToInt (e.p 4)
    let e1 := e.setP 5 SSTRCOD
    let n1 := if n < 0 then -n else n
    if n1 = 1 ∨ n1 = 23 ∨ n1 = 28 ∨ n1 = 43 then
      some { e1 with strarg := this.p5string }
    else none
  else some (e.setP 5 this.p5)

/-- The copy loop `for (pfieldI = 6; pfieldI < evtblk.pcnt; pfieldI++)
evtblk.p[pfieldI] = *argums[pfieldI - 5];` after `pcnt` has been set. -/
def FtGenOnce.copyArgums (this : FtGenOnce) (e : EVTBLK) : EVTBLK :=
  let e1 := { e with pcnt := 5 + this.argums.length }
  (List.range' 6 (e1.pcnt - 6)).foldl
    (fun evtblk pfieldI => evtblk.setP pfieldI (this.argums.getD (pfieldI - 5) 0))
    e1

/-- The request key of `FtGenOnce::init`, `none` when the string check fails. -/
def FtGenOnce.key (this : FtGenOnce) : Option EVTBLK :=
  (FtGenOnce.withP5 this (FtGenOnce.fixedFields this)).map (FtGenOnce.copyArgums this)

/-- `FtGenOnce::init`. `hfgens` is the table-generation collaborator: its status and
the table it stores through `&func` (`none` for a null pointer). The messages are not
modelled; the message after a generation with status 0 reads `func->fno` also when
`func` is null, a case the model ends with `OK` and an unchanged cache. The output
`ifno` of a miss is the `long` `func->fno`, the cache keeps it as an `int`, and the
output of a hit is that `int`. -/
def FtGenOnce.init (g : Globals) (csound : CSOUND) (hfgens : EVTBLK → Int × Option FUNC)
    (this : FtGenOnce) : FtGenOnceResult :=
  let this0 := { this with ifno := 0 }
  match FtGenOnce.key this0 with
  | none => { status := NOTOK, g := g, this := this0, hfgensCalls := [] }
  | some evtblk =>
    match findEvtblk (g.functionTablesForCsoundsForEvtblks csound) evtblk with
    | none =>
      let r := hfgens evtblk
      if r.1 ≠ 0 then
        { status := NOTOK, g := g, this := this0, hfgensCalls := [evtblk] }
      else
        match r.2 with
        | some func =>
          { status := OK
            g := { g with
              functionTablesForCsoundsForEvtblks :=
                setFor g.functionTablesForCsoundsForEvtblks csound
                  (assignEvtblk (g.functionTablesForCsoundsForEvtblks csound) evtblk
                    (narrowInt func.fno)) }
            this := { this0 with ifno := (func.fno : MYFLT) }
            hfgensCalls := [evtblk] }
        | none => { status := OK, g := g, this := this0, hfgensCalls := [evtblk] }
    | some entry =>
      { status := OK, g := g, this := { this0 with ifno := (entry.2 : MYFLT) }
        hfgensCalls := [] }

/-! ## `alwayson` -/

/-- Opcode `alwayson`. `Sinstrument` is the string behind the first argument,
`argums i` the number behind the pointer in the slot `argums[i]`, `none` when the
slot holds no pointer that can be read (the engine sets the slots of the supplied
arguments; in zeroed opcode memory the slots past them are null), `smask` and
`inputArgCnt` what `GetInputArgSMask` and `GetInputArgCnt` return (the count is at
most `VARGMAX + 1`, which `(int16)` leaves unchanged) and `evtblk` the record kept in
the opcode. -/
structure AlwaysOn where
  insdshead : INSDS
  Sinstrument : String
  argums : Nat → Option MYFLT
  smask : Nat
  inputArgCnt : Nat
  evtblk : EVTBLK

/-- What a call of `AlwaysOn::init` that returns leaves behind: its status, the opcode
with its record, and the calls of the collaborator `insert_score_event`, each with the
record and the time passed to it. -/
structure AlwaysOnResult where
  status : Int
  this : AlwaysOn
  insertCalls : List (EVTBLK × MYFLT)

/-- The record of `AlwaysOn::init` before the copy of the extra arguments: type,
string, `p[0]` to `p[3]` and, under a string mask, the marker in `p[1]`. -/
def AlwaysOn.fixedFields (this : AlwaysOn) : EVTBLK :=
  let e0 := { this.evtblk with opcod := 'i', strarg := "" }
  let e1 := (e0.setP 0 0).setP 1 this.insdshead.p1
  let e2 := { e1.setP 2 0 with p2orig := 0 }
  let e3 := { e2.setP 3 (-1) with p3orig := -1 }
  if this.smask ≠ 0 then { e3.setP 1 SSTRCOD with strarg := this.Sinstrument }
  else e3

/-- The copy loop `for (fpI = 4, argumsI = 0; argumsI < n; fpI++, argumsI++)
evtblk.p[fpI] = *argums[argumsI];` with `n = GetInputArgCnt(this)`, after `pcnt` has
been set to `n`: `none` when the loop reads through a slot that cannot be read. -/
def AlwaysOn.copyArgums (this : AlwaysOn) (e : EVTBLK) : Option EVTBLK :=
  let n := this.inputArgCnt
  let e1 := { e with pcnt := n }
  (List.range n).foldlM
    (fun evtblk argumsI =>
      (this.argums argumsI).map (fun v => evtblk.setP (4 + argumsI) v))
    e1

/-- `AlwaysOn::init`: `none` when the copy loop reads through a slot that cannot be
read, so that the call does not return. `insert_score_event` is the event-insertion
collaborator: the status it answers for a record and a time. The status is not read by
the code. -/
def AlwaysOn.init (insert_score_event : EVTBLK → MYFLT → Int) (this : AlwaysOn) :
    Option AlwaysOnResult :=
  (AlwaysOn.copyArgums this (AlwaysOn.fixedFields this)).map (fun evtblk =>
    let _ignored := insert_score_event evtblk 0
    { status := OK, this := { this with evtblk := evtblk }, insertCalls := [(evtblk, 0)] })

/-! ## Module teardown -/

/-- `csoundModuleDestroy`: clears every global of the engine; the vectors of the inlets
are deleted before their list is cleared. -/
def csoundModuleDestroy (g : Globals) (csound : CSOUND) : Int × Globals :=
  (0,
   { aoutletsForCsoundsForSourceOutletIds :=
       setFor g.aoutletsForCsoundsForSourceOutletIds csound StdMap.clear
     koutletsForCsoundsForSourceOutletIds :=
       setFor g.koutletsForCsoundsForSourceOutletIds csound StdMap.clear
     foutletsForCsoundsForSourceOutletIds :=
       setFor g.foutletsForCsoundsForSourceOutletIds csound StdMap.clear
     ainletsForCsoundsForSinkInletIds :=
       setFor g.ainletsForCsoundsForSinkInletIds csound StdMap.clear
     kinletsForCsoundsForSinkInletIds :=
       setFor g.kinletsForCsoundsForSinkInletIds csound StdMap.clear
     finletsForCsoundsForSinkInletIds :=
       setFor g.finletsForCsoundsForSinkInletIds csound StdMap.clear
     connectionsForCsounds := setFor g.connectionsForCsounds csound StdMap.clear
     functionTablesForCsoundsForEvtblks :=
       setFor g.functionTablesForCsoundsForEvtblks csound []
     aoutletVectorsForCsounds := setFor g.aoutletVectorsForCsounds csound []
     koutletVectorsForCsounds := setFor g.koutletVectorsForCsounds csound []
     foutletVectorsForCsounds := setFor g.foutletVectorsForCsounds csound []
     stdStringsForCsounds := setFor g.stdStringsForCsounds csound [] })

/-! ## Runs of the opcodes -/

/-- One call of an init function (or of the module teardown) with its arguments. -/
inductive Op where
  | signalflowgraph (csound : CSOUND)
  | outleta (csound : CSOUND) (self : Ref) (this : Outleta)
  | outletk (csound : CSOUND) (self : Ref) (this : Outletk)
  | outletf (csound : CSOUND) (self : Ref) (this : Outletf)
  | inleta (csound : CSOUND) (GetKsmps : Nat) (fresh self : Ref) (this : Inleta)
  | inletk (csound : CSOUND) (GetKsmps : Nat) (fresh self : Ref) (this : Inletk)
  | inletf (csound : CSOUND) (GetKsmps : Nat) (fresh self : Ref) (this : Inletf)
  | connect (csound : CSOUND) (this : Connect)
  | ftgenonce (csound : CSOUND) (hfgens : EVTBLK → Int × Option FUNC) (this : FtGenOnce)
  | moduleDestroy (csound : CSOUND)

/-- The globals after one call. -/
def Op.apply (g : Globals) : Op → Globals
  | .signalflowgraph csound => (SignalFlowGraph.init g csound).2
  | .outleta csound self this => (Outleta.init g csound self this).2.1
  | .outletk csound self this => (Outletk.init g csound self this).2.1
  | .outletf csound self this => (Outletf.init g csound self this).2.1
  | .inleta csound GetKsmps fresh self this =>
    (Inleta.init g csound GetKsmps fresh self this).2.1
  | .inletk csound GetKsmps fresh self this =>
    (Inletk.init g csound GetKsmps fresh self this).2.1
  | .inletf csound GetKsmps fresh self this =>
    (Inletf.init g csound GetKsmps fresh self this).2.1
  | .connect csound this => (Connect.init g csound this).2
  | .ftgenonce csound hfgens this => (FtGenOnce.init g csound hfgens this).g
  | .moduleDestroy csound => (csoundModuleDestroy g csound).2

/-- The globals after a sequence of calls. -/
def run (g : Globals) (ops : List Op) : Globals :=
  ops.foldl Op.apply g

/-- Whether a call clears registries: `signalflowgraph` or the module teardown. -/
def Op.clears : Op → Bool
  | .signalflowgraph _ => true
  | .moduleDestroy _ => true
  | _ => false

/-! ## Specification-side definitions -/

/-- The canonical identifier `owner:port`. -/
def portId (owner port : String) : String :=
  owner ++ ":" ++ port

/-- The outlet references an inlet reads in one cycle: the contents of its bound
buckets, in order, with multiplicity. -/
def boundInstances (outlets : StdMap (List Ref)) (sourceOutlets : List String) :
    List Ref :=
  sourceOutlets.flatMap (fun bucket => outlets.value bucket)

/-- The distinct elements of a list in order of first occurrence. -/
def firstOccurrences : List Ref → List Ref
  | [] => []
  | r :: rest => r :: (firstOccurrences rest).filter (fun x => x ≠ r)

/-- The three rate classes of ports. -/
inductive Rate where
  | a
  | k
  | f
  deriving DecidableEq

/-- The outlet registry of a rate class. -/
def Globals.outlets (g : Globals) : Rate → CSOUND → StdMap (List Ref)
  | .a => g.aoutletsForCsoundsForSourceOutletIds
  | .k => g.koutletsForCsoundsForSourceOutletIds
  | .f => g.foutletsForCsoundsForSourceOutletIds

/-- The contents of the outlet bucket of identifier `I` in engine `csound`. -/
def Globals.bucket (g : Globals) (r : Rate) (csound : CSOUND) (I : String) : List Ref :=
  (g.outlets r csound).value I

/-- The outlet reference a call registers under identifier `I` of engine `csound` in
the outlet registry of rate `r`, if the call is such a registration. -/
def Op.registers (r : Rate) (csound : CSOUND) (I : String) : Op → Option Ref
  | .outleta c self this =>
    if r = Rate.a ∧ c = csound ∧ portId this.insdshead.insname this.Sname = I then
      some self
    else none
  | .outletk c self this =>
    if r = Rate.k ∧ c = csound ∧ portId this.insdshead.insname this.Sname = I then
      some self
    else none
  | .outletf c self this =>
    if r = Rate.f ∧ c = csound ∧ portId this.insdshead.insname this.Sname = I then
      some self
    else none
  | _ => none

/-- The outlet references registered under identifier `I` of engine `csound` at rate
`r` by a sequence of calls, in the order of the calls. -/
def registrations (r : Rate) (csound : CSOUND) (I : String) (ops : List Op) : List Ref :=
  ops.filterMap (Op.registers r csound I)

/-- The sum the scalar aggregation is specified to produce: the current values of the
outlets in `refs` whose voice is active. -/
def activeSumK (mem : Ref → Outletk) (refs : List Ref) : MYFLT :=
  ((refs.filter (fun r => (mem r).insdshead.actflg ≠ 0)).map
    (fun r => (mem r).ksignal)).sum

/-- The sum the block aggregation is specified to produce at sample `j`: sample `j` of
the buffers of the outlets in `refs` whose voice is active. -/
def activeSumA (mem : Ref → Outleta) (refs : List Ref) (j : Nat) : MYFLT :=
  ((refs.filter (fun r => (mem r).insdshead.actflg ≠ 0)).map
    (fun r => (mem r).asignal j)).sum

/-- Two `ftgenonce` requests with the same arguments. -/
def FtGenOnce.sameRequest (a b : FtGenOnce) : Prop :=
  a.p1 = b.p1 ∧ a.p2 = b.p2 ∧ a.p3 = b.p3 ∧ a.p4 = b.p4 ∧ a.p5 = b.p5 ∧
    a.p5string = b.p5string ∧ a.argums = b.argums ∧ a.smask = b.smask

/-- The engine a call is executed for. -/
def Op.engine : Op → CSOUND
  | .signalflowgraph csound => csound
  | .outleta csound _ _ => csound
  | .outletk csound _ _ => csound
  | .outletf csound _ _ => csound
  | .inleta csound _ _ _ _ => csound
  | .inletk csound _ _ _ _ => csound
  | .inletf csound _ _ _ _ => csound
  | .connect csound _ => csound
  | .ftgenonce csound _ _ => csound
  | .moduleDestroy csound => csound

/-- The status a call of `Inletf::audio` returns, if it returns. -/
def AudioOutcome.status : AudioOutcome → Option Int
  | .returned status _ _ => some status
  | _ => none

/-- The inlet as a call of `Inletf::audio` leaves it, if it returns. -/
def AudioOutcome.inlet : AudioOutcome → Option Inletf
  | .returned _ _ this => some this
  | _ => none

/-- The outlet at address `r` as a call of `Inletf::audio` leaves it, if it returns. -/
def AudioOutcome.outlet (r : Ref) : AudioOutcome → Option Outletf
  | .returned _ mem _ => some (mem r)
  | _ => none

/-- The value at index `i` of the frame memory of a frame signal, if allocated. -/
def PVSDAT.bin (f : PVSDAT) (i : Nat) : Option MYFLT :=
  f.frame.auxp.map (fun a => a i)

/-- Whether a call of `Inletf::audio` never leaves a loop. -/
def AudioOutcome.diverged : AudioOutcome → Bool
  | AudioOutcome.diverges => true
  | _ => false

/-- The bin count, the window parameters and the format tag of a frame signal: `N`,
`overlap`, `winsize`, `wintype` and `format`. -/
def PVSDAT.shape (f : PVSDAT) : Int × Int × Int × Int × Int :=
  (f.N, f.overlap, f.winsize, f.wintype, f.format)

/-- The comparison `a < b` of the keys that `FtGenOnce::init` builds for the requests
`x` and `y`; `none` when one of the requests fails the string check. -/
def FtGenOnce.keyLt (x y : FtGenOnce) : Option Bool :=
  (FtGenOnce.key x).bind (fun a => (FtGenOnce.key y).map (fun b => EVTBLK.lt a b))

/-! ## Instances as the engine allocates them -/

/-- A voice of instrument `insname` that is performing. -/
def activeVoice (insname : String) : INSDS :=
  { insname := insname, actflg := 1, p1 := 1 }

/-- A new `outleta` of a performing voice, writing the buffer `asignal`. -/
def newOutleta (insname Sname : String) (asignal : Nat → MYFLT) : Outleta :=
  { insdshead := activeVoice insname, Sname := Sname, asignal := asignal,
    sourceOutletId := "" }

/-- A new `outletk` of a performing voice, writing the value `ksignal`. -/
def newOutletk (insname Sname : String) (ksignal : MYFLT) : Outletk :=
  { insdshead := activeVoice insname, Sname := Sname, ksignal := ksignal,
    sourceOutletId := "" }

/-- A new `inleta`: zeroed state, sink buffer with the contents `asignal`. -/
def newInleta (insname Sname : String) (asignal : Nat → MYFLT) : Inleta :=
  { insdshead := activeVoice insname, Sname := Sname, asignal := asignal,
    sinkInletId := "", sourceOutlets := [], sourceOutletsPtr := 0, ksmps := 0 }

/-- A new `inletk`: zeroed state. -/
def newInletk (insname Sname : String) : Inletk :=
  { insdshead := activeVoice insname, Sname := Sname, ksignal := 0,
    sinkInletId := "", sourceOutlets := [], sourceOutletsPtr := 0, ksmps := 0 }

/-- The frame signal of zeroed opcode memory. -/
def PVSDAT.zero : PVSDAT :=
  { N := 0, sliding := 0, NB := 0, overlap := 0, winsize := 0, wintype := 0,
    format := 0, framecount := 0, frame := { size := 0, auxp := none } }

/-- A new `inletf`: zeroed state. -/
def newInletf (insname Sname : String) : Inletf :=
  { insdshead := activeVoice insname, Sname := Sname, fsignal := PVSDAT.zero,
    sinkInletId := "", sourceOutlets := [], sourceOutletsPtr := 0, ksmps := 0,
    lastframe := 0, fsignalInitialized := false }

/-- A new `alwayson` called from a performing voice with the given `p1`, in zeroed
opcode memory: the extra arguments `extras` are supplied, the slots past them are
null, and the record kept in the opcode is zeroed. -/
def newAlwaysOn (insname : String) (p1 : MYFLT) (Sinstrument : String) (smask : Nat)
    (extras : List MYFLT) : AlwaysOn :=
  { insdshead := { insname := insname, actflg := 1, p1 := p1 }
    Sinstrument := Sinstrument
    argums := fun i => extras.get? i
    smask := smask
    inputArgCnt := 1 + extras.length
    evtblk := EVTBLK.zero }

/-- An `alwayson` as `newAlwaysOn`, in opcode memory whose slots past the supplied
arguments point to readable memory holding the number `beyond`. -/
def newAlwaysOnReadable (insname : String) (p1 : MYFLT) (Sinstrument : String)
    (smask : Nat) (extras : List MYFLT) (beyond : MYFLT) : AlwaysOn :=
  { newAlwaysOn insname p1 Sinstrument smask extras with
    argums := fun i => some (extras.getD i beyond) }

/-- An allocating collaborator that answers zeroed memory of the requested size. -/
def zeroAlloc (nbytes : Int) (_ : AUXCH) : AUXCH :=
  { size := nbytes.toNat, auxp := some (fun _ => 0) }

/-- A non-sliding frame signal of `N + 2` floats with the given format, frame counter
and frame memory. -/
def framesOf (N : Int) (format : Int) (framecount : Nat) (frame : Nat → MYFLT) : PVSDAT :=
  { N := N, sliding := 0, NB := 0, overlap := 1, winsize := 2, wintype := 0,
    format := format, framecount := framecount
    frame := { size := (N + 2).toNat * sizeofFloat, auxp := some frame } }

/-- An `outletf` of a voice with the given active flag, writing the frame signal
`fsignal`. -/
def newOutletf (insname Sname : String) (actflg : Int) (fsignal : PVSDAT) : Outletf :=
  { insdshead := { insname := insname, actflg := actflg, p1 := 1 }, Sname := Sname,
    fsignal := fsignal, sourceOutletId := "" }

/-- An `inletf` of instrument `C` named `in` after its lazy initialisation: the given
bound buckets, frame signal and last-merged counter. -/
def boundInletf (sourceOutlets : List String) (fsignal : PVSDAT) (lastframe : Int) :
    Inletf :=
  { newInletf "C" "in" with
    sourceOutlets := sourceOutlets, fsignal := fsignal, lastframe := lastframe,
    fsignalInitialized := true }

/-- A sliding frame signal in the format `PVS_AMP_FREQ` with `NB` bins a frame and
zeroed, allocated frame memory. -/
def slidingFramesOf (NB : Int) : PVSDAT :=
  { N := 0, sliding := 1, NB := NB, overlap := 1, winsize := 2, wintype := 0,
    format := PVS_AMP_FREQ, framecount := 1
    frame := { size := 64, auxp := some (fun _ => 0) } }

/-! ## Lemmas on the containers -/

@[simp]
theorem setFor_same {α : Type} (f : CSOUND → α) (csound : CSOUND) (v : α) :
    setFor f csound v csound = v := by
  simp [setFor]

theorem setFor_other {α : Type} (f : CSOUND → α) (csound c : CSOUND) (v : α)
    (h : c ≠ csound) : setFor f csound v c = f c := by
  simp [setFor, h]

@[simp]
theorem value_clear {α : Type} (k : String) :
    (StdMap.clear : StdMap (List α)).value k = [] := rfl

@[simp]
theorem value_touch {α : Type} (m : StdMap (List α)) (k k' : String) :
    (m.touch k).value k' = m.value k' := by
  unfold StdMap.touch StdMap.value
  by_cases h : k' = k
  · subst h; simp
  · simp [h]

@[simp]
theorem value_assign_same {α : Type} (m : StdMap (List α)) (k : String)
    (v : List α) : (m.assign k v).value k = v := by
  simp [StdMap.assign, StdMap.value]

theorem value_assign_other {α : Type} (m : StdMap (List α)) (k k' : String)
    (v : List α) (h : k' ≠ k) : (m.assign k v).value k' = m.value k' := by
  simp [StdMap.assign, StdMap.value, h]

theorem bindSourceOutlets_value (ids : List String) (outlets : StdMap (List Ref))
    (so : List String) (k : String) :
    (bindSourceOutlets outlets so ids).1.value k = outlets.value k := by
  unfold bindSourceOutlets
  induction ids generalizing outlets so with
  | nil => rfl
  | cons id rest ih =>
    simp only [List.foldl_cons]
    rw [ih]
    simp

theorem outleta_init_bucket (g : Globals) (csound : CSOUND) (self : Ref) (this : Outleta)
    (r : Rate) (c : CSOUND) (I : String) :
    (Outleta.init g csound self this).2.1.bucket r c I =
      if r = Rate.a ∧ csound = c ∧ portId this.insdshead.insname this.Sname = I then
        pushBackIfAbsent (g.bucket r c I) self
      else g.bucket r c I := by
  cases r <;> simp only [Outleta.init, Globals.bucket, Globals.outlets, portId] <;>
    try simp
  by_cases hc : c = csound
  · subst hc
    by_cases hI : this.insdshead.insname ++ ":" ++ this.Sname = I
    · subst hI; simp
    · have hI' : I ≠ this.insdshead.insname ++ ":" ++ this.Sname := fun h => hI h.symm
      simp [hI, value_assign_other _ _ _ _ hI']
  · have hc' : ¬ csound = c := fun h => hc h.symm
    simp [hc', setFor_other _ _ _ _ hc]

theorem inleta_init_bucket (g : Globals) (csound : CSOUND) (GetKsmps : Nat)
    (fresh self : Ref) (this : Inleta) (r : Rate) (c : CSOUND) (I : String) :
    (Inleta.init g csound GetKsmps fresh self this).2.1.bucket r c I = g.bucket r c I := by
  by_cases hr : this.sourceOutletsPtr ∈ g.aoutletVectorsForCsounds csound <;>
    cases r <;> simp only [Inleta.init, Globals.bucket, Globals.outlets, hr] <;>
    try simp
  all_goals
    by_cases hc : c = csound
    · subst hc; simp [bindSourceOutlets_value]
    · simp [setFor_other _ _ _ _ hc]

theorem outletk_init_bucket (g : Globals) (csound : CSOUND) (self : Ref) (this : Outletk)
    (r : Rate) (c : CSOUND) (I : String) :
    (Outletk.init g csound self this).2.1.bucket r c I =
      if r = Rate.k ∧ csound = c ∧ portId this.insdshead.insname this.Sname = I then
        pushBackIfAbsent (g.bucket r c I) self
      else g.bucket r c I := by
  cases r <;> simp only [Outletk.init, Globals.bucket, Globals.outlets, portId] <;>
    try simp
  by_cases hc : c = csound
  · subst hc
    by_cases hI : this.insdshead.insname ++ ":" ++ this.Sname = I
    · subst hI; simp
    · have hI' : I ≠ this.insdshead.insname ++ ":" ++ this.Sname := fun h => hI h.symm
      simp [hI, value_assign_other _ _ _ _ hI']
  · have hc' : ¬ csound = c := fun h => hc h.symm
    simp [hc', setFor_other _ _ _ _ hc]

theorem inletk_init_bucket (g : Globals) (csound : CSOUND) (GetKsmps : Nat)
    (fresh self : Ref) (this : Inletk) (r : Rate) (c : CSOUND) (I : String) :
    (Inletk.init g csound GetKsmps fresh self this).2.1.bucket r c I = g.bucket r c I := by
  by_cases hr : this.sourceOutletsPtr ∈ g.koutletVectorsForCsounds csound <;>
    cases r <;> simp only [Inletk.init, Globals.bucket, Globals.outlets, hr] <;>
    try simp
  all_goals
    by_cases hc : c = csound
    · subst hc; simp [bindSourceOutlets_value]
    · simp [setFor_other _ _ _ _ hc]

theorem outletf_init_bucket (g : Globals) (csound : CSOUND) (self : Ref) (this : Outletf)
    (r : Rate) (c : CSOUND) (I : String) :
    (Outletf.init g csound self this).2.1.bucket r c I =
      if r = Rate.f ∧ csound = c ∧ portId this.insdshead.insname this.Sname = I then
        pushBackIfAbsent (g.bucket r c I) self
      else g.bucket r c I := by
  cases r <;> simp only [Outletf.init, Globals.bucket, Globals.outlets, portId] <;>
    try simp
  by_cases hc : c = csound
  · subst hc
    by_cases hI : this.insdshead.insname ++ ":" ++ this.Sname = I
    · subst hI; simp
    · have hI' : I ≠ this.insdshead.insname ++ ":" ++ this.Sname := fun h => hI h.symm
      simp [hI, value_assign_other _ _ _ _ hI']
  · have hc' : ¬ csound = c := fun h => hc h.symm
    simp [hc', setFor_other _ _ _ _ hc]

theorem inletf_init_bucket (g : Globals) (csound : CSOUND) (GetKsmps : Nat)
    (fresh self : Ref) (this : Inletf) (r : Rate) (c : CSOUND) (I : String) :
    (Inletf.init g csound GetKsmps fresh self this).2.1.bucket r c I = g.bucket r c I := by
  by_cases hr : this.sourceOutletsPtr ∈ g.foutletVectorsForCsounds csound <;>
    cases r <;> simp only [Inletf.init, Globals.bucket, Globals.outlets, hr] <;>
    try simp
  all_goals
    by_cases hc : c = csound
    · subst hc; simp [bindSourceOutlets_value]
    · simp [setFor_other _ _ _ _ hc]

theorem connect_init_bucket (g : Globals) (csound : CSOUND) (this : Connect)
    (r : Rate) (c : CSOUND) (I : String) :
    (Connect.init g csound this).2.bucket r c I = g.bucket r c I := by
  cases r <;> rfl

theorem ftgenonce_init_bucket (g : Globals) (csound : CSOUND)
    (hfgens : EVTBLK → Int × Option FUNC) (this : FtGenOnce)
    (r : Rate) (c : CSOUND) (I : String) :
    (FtGenOnce.init g csound hfgens this).g.bucket r c I = g.bucket r c I := by
  unfold FtGenOnce.init
  simp only
  split
  · rfl
  · split
    · split
      · rfl
      · split
        · cases r <;> rfl
        · rfl
    · rfl

theorem signalflowgraph_init_bucket (g : Globals) (csound : CSOUND)
    (r : Rate) (c : CSOUND) (I : String) :
    (SignalFlowGraph.init g csound).2.bucket r c I =
      if c = csound then [] else g.bucket r c I := by
  by_cases hc : c = csound
  · subst hc
    cases r <;> simp [SignalFlowGraph.init, Globals.bucket, Globals.outlets]
  · cases r <;>
      simp [SignalFlowGraph.init, Globals.bucket, Globals.outlets, hc,
        setFor_other _ _ _ _ hc]

theorem csoundModuleDestroy_bucket (g : Globals) (csound : CSOUND)
    (r : Rate) (c : CSOUND) (I : String) :
    (csoundModuleDestroy g csound).2.bucket r c I =
      if c = csound then [] else g.bucket r c I := by
  by_cases hc : c = csound
  · subst hc
    cases r <;> simp [csoundModuleDestroy, Globals.bucket, Globals.outlets]
  · cases r <;>
      simp [csoundModuleDestroy, Globals.bucket, Globals.outlets, hc,
        setFor_other _ _ _ _ hc]

/-- The effect of a call that does not clear on a bucket. -/
theorem apply_bucket (op : Op) (hop : op.clears = false) (g : Globals) (r : Rate)
    (c : CSOUND) (I : String) :
    (op.apply g).bucket r c I =
      match op.registers r c I with
      | some self => pushBackIfAbsent (g.bucket r c I) self
      | none => g.bucket r c I := by
  cases op with
  | signalflowgraph csound => simp [Op.clears] at hop
  | moduleDestroy csound => simp [Op.clears] at hop
  | outleta csound self this =>
    simp only [Op.apply, Op.registers, outleta_init_bucket]
    split <;> rename_i h <;> simp [h]
  | outletk csound self this =>
    simp only [Op.apply, Op.registers, outletk_init_bucket]
    split <;> rename_i h <;> simp [h]
  | outletf csound self this =>
    simp only [Op.apply, Op.registers, outletf_init_bucket]
    split <;> rename_i h <;> simp [h]
  | inleta csound GetKsmps fresh self this =>
    simp only [Op.apply, Op.registers, inleta_init_bucket]
  | inletk csound GetKsmps fresh self this =>
    simp only [Op.apply, Op.registers, inletk_init_bucket]
  | inletf csound GetKsmps fresh self this =>
    simp only [Op.apply, Op.registers, inletf_init_bucket]
  | connect csound this => simp only [Op.apply, Op.registers, connect_init_bucket]
  | ftgenonce csound hfgens this =>
    simp only [Op.apply, Op.registers, ftgenonce_init_bucket]

theorem pushBackIfAbsent_nodup (v : List Ref) (x : Ref) (h : v.Nodup) :
    (pushBackIfAbsent v x).Nodup := by
  unfold pushBackIfAbsent
  by_cases hx : x ∈ v
  · simp [hx, h]
  · simp only [hx, if_false]
    rw [List.nodup_append]
    refine ⟨h, List.nodup_singleton x, ?_⟩
    intro a ha hb
    simp at hb
    exact hx (hb ▸ ha)

theorem apply_bucket_nodup (op : Op) (g : Globals) (r : Rate) (c : CSOUND) (I : String)
    (h : (g.bucket r c I).Nodup) : ((op.apply g).bucket r c I).Nodup := by
  by_cases hop : op.clears = false
  · rw [apply_bucket op hop]
    split
    · exact pushBackIfAbsent_nodup _ _ h
    · exact h
  · cases op with
    | signalflowgraph csound =>
      simp only [Op.apply, signalflowgraph_init_bucket]
      split
      · exact List.nodup_nil
      · exact h
    | moduleDestroy csound =>
      simp only [Op.apply, csoundModuleDestroy_bucket]
      split
      · exact List.nodup_nil
      · exact h
    | _ => simp [Op.clears] at hop

theorem run_bucket_nodup (ops : List Op) (g : Globals) (r : Rate) (c : CSOUND) (I : String)
    (h : (g.bucket r c I).Nodup) : ((run g ops).bucket r c I).Nodup := by
  induction ops generalizing g with
  | nil => exact h
  | cons op rest ih =>
    simp only [run, List.foldl_cons]
    exact ih _ (apply_bucket_nodup op g r c I h)

theorem foldl_pushBackIfAbsent (regs : List Ref) (b : List Ref) :
    regs.foldl pushBackIfAbsent b = b ++ (firstOccurrences regs).filter (fun x => x ∉ b) := by
  induction regs generalizing b with
  | nil => simp [firstOccurrences]
  | cons x rest ih =>
    rw [List.foldl_cons, ih]
    unfold pushBackIfAbsent
    by_cases hx : x ∈ b
    · simp only [hx, if_true, firstOccurrences]
      congr 1
      rw [List.filter_cons]
      simp only [hx, not_true_eq_false, decide_False, Bool.false_eq_true, if_false]
      rw [List.filter_filter]
      apply List.filter_congr
      intro y _
      by_cases hy : y ∈ b
      · simp [hy]
      · have : y ≠ x := fun h => hy (h ▸ hx)
        simp [hy, this]
    · simp only [hx, if_false, firstOccurrences]
      rw [List.filter_cons]
      simp only [hx, not_false_eq_true, decide_True, if_true]
      rw [List.append_assoc, List.singleton_append, List.filter_filter]
      congr 2
      apply List.filter_congr
      intro y _
      by_cases hy : y ∈ b
      · simp [hy]
      · by_cases hyx : y = x
        · simp [hy, hyx]
        · simp [hy, hyx]

theorem run_bucket (ops : List Op) (hops : ∀ op ∈ ops, op.clears = false) (g : Globals)
    (r : Rate) (c : CSOUND) (I : String) :
    (run g ops).bucket r c I =
      (registrations r c I ops).foldl pushBackIfAbsent (g.bucket r c I) := by
  induction ops generalizing g with
  | nil => rfl
  | cons op rest ih =>
    have hop : op.clears = false := hops op (List.mem_cons_self _ _)
    have hrest : ∀ o ∈ rest, o.clears = false :=
      fun o ho => hops o (List.mem_cons_of_mem _ ho)
    simp only [run, List.foldl_cons] at ih ⊢
    rw [ih hrest, apply_bucket op hop]
    simp only [registrations, List.filterMap_cons]
    cases hreg : op.registers r c I with
    | none => rfl
    | some self => rfl

theorem bindSourceOutlets_nil (ids : List String) (outlets : StdMap (List Ref)) :
    (bindSourceOutlets outlets [] ids).2 = [] := by
  unfold bindSourceOutlets
  induction ids generalizing outlets with
  | nil => rfl
  | cons id rest ih =>
    simp only [List.foldl_cons, pushBackIfPresent, List.not_mem_nil, if_false]
    exact ih _

theorem inleta_init_sourceOutlets_nil (g : Globals) (csound : CSOUND) (GetKsmps : Nat)
    (fresh self : Ref) (this : Inleta)
    (h : this.sourceOutlets = [] ∨
      this.sourceOutletsPtr ∉ g.aoutletVectorsForCsounds csound) :
    (Inleta.init g csound GetKsmps fresh self this).2.2.sourceOutlets = [] := by
  unfold Inleta.init
  by_cases hr : this.sourceOutletsPtr ∈ g.aoutletVectorsForCsounds csound
  · have h0 : this.sourceOutlets = [] := by
      rcases h with h | h
      · exact h
      · exact absurd hr h
    simp [hr, h0, bindSourceOutlets_nil]
  · simp [hr, bindSourceOutlets_nil]

theorem inletk_init_sourceOutlets_nil (g : Globals) (csound : CSOUND) (GetKsmps : Nat)
    (fresh self : Ref) (this : Inletk)
    (h : this.sourceOutlets = [] ∨
      this.sourceOutletsPtr ∉ g.koutletVectorsForCsounds csound) :
    (Inletk.init g csound GetKsmps fresh self this).2.2.sourceOutlets = [] := by
  unfold Inletk.init
  by_cases hr : this.sourceOutletsPtr ∈ g.koutletVectorsForCsounds csound
  · have h0 : this.sourceOutlets = [] := by
      rcases h with h | h
      · exact h
      · exact absurd hr h
    simp [hr, h0, bindSourceOutlets_nil]
  · simp [hr, bindSourceOutlets_nil]

theorem inletf_init_sourceOutlets_nil (g : Globals) (csound : CSOUND) (GetKsmps : Nat)
    (fresh self : Ref) (this : Inletf)
    (h : this.sourceOutlets = [] ∨
      this.sourceOutletsPtr ∉ g.foutletVectorsForCsounds csound) :
    (Inletf.init g csound GetKsmps fresh self this).2.2.sourceOutlets = [] := by
  unfold Inletf.init
  by_cases hr : this.sourceOutletsPtr ∈ g.foutletVectorsForCsounds csound
  · have h0 : this.sourceOutlets = [] := by
      rcases h with h | h
      · exact h
      · exact absurd hr h
    simp [hr, h0, bindSourceOutlets_nil]
  · simp [hr, bindSourceOutlets_nil]

/-! ## Lemmas on the aggregation loops -/

theorem kontrol_instances (mem : Ref → Outletk) (refs : List Ref) (acc : MYFLT) :
    refs.foldl
      (fun ksignal instanceI =>
        if (mem instanceI).insdshead.actflg ≠ 0 then ksignal + (mem instanceI).ksignal
        else ksignal) acc = acc + activeSumK mem refs := by
  induction refs generalizing acc with
  | nil => simp [activeSumK]
  | cons r rest ih =>
    rw [List.foldl_cons, ih]
    by_cases h : (mem r).insdshead.actflg = 0
    · simp [activeSumK, h]
    · simp [activeSumK, h, add_assoc]

theorem activeSumK_append (mem : Ref → Outletk) (xs ys : List Ref) :
    activeSumK mem (xs ++ ys) = activeSumK mem xs + activeSumK mem ys := by
  simp [activeSumK]

theorem kontrol_buckets (mem : Ref → Outletk) (outlets : StdMap (List Ref))
    (buckets : List String) (acc : MYFLT) :
    buckets.foldl
      (fun ksignal bucket =>
        (outlets.value bucket).foldl
          (fun ksignal instanceI =>
            if (mem instanceI).insdshead.actflg ≠ 0 then ksignal + (mem instanceI).ksignal
            else ksignal) ksignal) acc
      = acc + activeSumK mem (boundInstances outlets buckets) := by
  induction buckets generalizing acc with
  | nil => simp [activeSumK, boundInstances]
  | cons b rest ih =>
    rw [List.foldl_cons, ih, kontrol_instances]
    simp [boundInstances, activeSumK_append, add_assoc] at *

theorem writeLoop_zero (n : Nat) (a : Nat → MYFLT) (j : Nat) :
    (List.range n).foldl (fun asignal signalI => writeAt asignal signalI 0) a j =
      if j < n then 0 else a j := by
  induction n with
  | zero => simp
  | succ n ih =>
    rw [List.range_succ, List.foldl_append]
    simp only [List.foldl_cons, List.foldl_nil, writeAt]
    by_cases hj : j = n
    · subst hj; simp
    · rw [if_neg hj, ih]
      by_cases hlt : j < n
      · simp [hlt, Nat.lt_succ_of_lt hlt]
      · have : ¬ j < n + 1 := by omega
        simp [hlt, this]

theorem writeLoop_add (n : Nat) (src a : Nat → MYFLT) (j : Nat) :
    (List.range n).foldl
      (fun asignal signalI => writeAt asignal signalI (asignal signalI + src signalI)) a j =
      if j < n then a j + src j else a j := by
  induction n with
  | zero => simp
  | succ n ih =>
    rw [List.range_succ, List.foldl_append]
    simp only [List.foldl_cons, List.foldl_nil, writeAt]
    by_cases hj : j = n
    · subst hj
      simp [ih]
    · rw [if_neg hj, ih]
      by_cases hlt : j < n
      · simp [hlt, Nat.lt_succ_of_lt hlt]
      · have : ¬ j < n + 1 := by omega
        simp [hlt, this]

theorem audio_instances (n : Nat) (mem : Ref → Outleta) (refs : List Ref)
    (a : Nat → MYFLT) (j : Nat) (hj : j < n) :
    refs.foldl
      (fun asignal instanceI =>
        if (mem instanceI).insdshead.actflg ≠ 0 then
          (List.range n).foldl
            (fun asignal signalI =>
              writeAt asignal signalI (asignal signalI + (mem instanceI).asignal signalI))
            asignal
        else asignal) a j = a j + activeSumA mem refs j := by
  induction refs generalizing a with
  | nil => simp [activeSumA]
  | cons r rest ih =>
    rw [List.foldl_cons, ih]
    by_cases h : (mem r).insdshead.actflg = 0
    · simp [activeSumA, h]
    · simp [activeSumA, h, writeLoop_add, hj, add_assoc]

theorem audio_buckets (n : Nat) (mem : Ref → Outleta) (outlets : StdMap (List Ref))
    (buckets : List String) (a : Nat → MYFLT) (j : Nat) (hj : j < n) :
    buckets.foldl
      (fun asignal bucket =>
        (outlets.value bucket).foldl
          (fun asignal instanceI =>
            if (mem instanceI).insdshead.actflg ≠ 0 then
              (List.range n).foldl
                (fun asignal signalI =>
                  writeAt asignal signalI (asignal signalI + (mem instanceI).asignal signalI))
                asignal
            else asignal) asignal) a j
      = a j + activeSumA mem (boundInstances outlets buckets) j := by
  induction buckets generalizing a with
  | nil => simp [activeSumA, boundInstances]
  | cons b rest ih =>
    rw [List.foldl_cons, ih, audio_instances n mem _ a j hj]
    simp [boundInstances, activeSumA, add_assoc]


/-! ## Lemmas on the table cache -/

theorem ltLoop_self (a : EVTBLK) (n i : Nat) : EVTBLK.ltLoop a a n i = none := by
  induction n generalizing i with
  | zero => rfl
  | succ n ih =>
    unfold EVTBLK.ltLoop
    by_cases h : a.p i = SSTRCOD
    · simp [h, ih]
    · simp [h, ih]

theorem lt_irrefl_evtblk (a : EVTBLK) : EVTBLK.lt a a = false := by
  simp [EVTBLK.lt, ltLoop_self]

theorem equiv_self_evtblk (a : EVTBLK) : EVTBLK.equiv a a = true := by
  simp [EVTBLK.equiv, lt_irrefl_evtblk]

/-! ## Link resolution and the end-to-end scenarios (C1, C2, C3) -/

/-- Claim C1, evaluated on the code: after `connect "A", "out", "C", "in"` the directory
lists the source `A:out` for the sink `C:in`, yet a new `inletk`, `inleta` or `inletf`
of instrument `C` named `in` ends its init with an empty bound-bucket list. The test
before `push_back` in the inlets is `!= end()`, so a bucket is pushed only when it is
already bound: in every state an inlet initialised from an empty bound-bucket list
ends with an empty one, whatever the directory declares. -/
theorem inlet_init_leaves_declared_source_unbound :
    ((Connect.init Globals.initial 0 ⟨"A", "out", "C", "in"⟩).2.connectionsForCsounds
        0).value "C:in" = ["A:out"] ∧
    (Inletk.init (Connect.init Globals.initial 0 ⟨"A", "out", "C", "in"⟩).2 0 4 100 1
      (newInletk "C" "in")).2.2.sourceOutlets = [] ∧
    (Inleta.init (Connect.init Globals.initial 0 ⟨"A", "out", "C", "in"⟩).2 0 4 100 1
      (newInleta "C" "in" (fun _ => 0))).2.2.sourceOutlets = [] ∧
    (Inletf.init (Connect.init Globals.initial 0 ⟨"A", "out", "C", "in"⟩).2 0 4 100 1
      (newInletf "C" "in")).2.2.sourceOutlets = [] ∧
    (∀ (g : Globals) (csound : CSOUND) (GetKsmps : Nat) (fresh self : Ref) (this : Inleta),
      (Inleta.init g csound GetKsmps fresh self
        { this with sourceOutlets := [] }).2.2.sourceOutlets = []) ∧
    (∀ (g : Globals) (csound : CSOUND) (GetKsmps : Nat) (fresh self : Ref) (this : Inletk),
      (Inletk.init g csound GetKsmps fresh self
        { this with sourceOutlets := [] }).2.2.sourceOutlets = []) ∧
    (∀ (g : Globals) (csound : CSOUND) (GetKsmps : Nat) (fresh self : Ref) (this : Inletf),
      (Inletf.init g csound GetKsmps fresh self
        { this with sourceOutlets := [] }).2.2.sourceOutlets = []) := by
  refine ⟨by decide, by decide, by decide, by decide, ?_, ?_, ?_⟩
  · intro g csound GetKsmps fresh self this
    exact inleta_init_sourceOutlets_nil g csound GetKsmps fresh self _ (Or.inl rfl)
  · intro g csound GetKsmps fresh self this
    exact inletk_init_sourceOutlets_nil g csound GetKsmps fresh self _ (Or.inl rfl)
  · intro g csound GetKsmps fresh self this
    exact inletf_init_sourceOutlets_nil g csound GetKsmps fresh self _ (Or.inl rfl)

/-- Claim C2, evaluated on the code: `A:out` and `B:out` are each declared once to feed
`C:in`, one active `outletk` is registered under each with the values 2 and 3, an
`inletk` is then initialised under `C:in` and run for one control cycle: the sink value
is 0, not 5. -/
theorem two_outlets_scenario_yields_zero :
    (Inletk.kontrol
      (Inletk.init
        (Outletk.init
          (Outletk.init
            (Connect.init (Connect.init Globals.initial 0 ⟨"A", "out", "C", "in"⟩).2 0
              ⟨"B", "out", "C", "in"⟩).2
            0 1 (newOutletk "A" "out" 2)).2.1
          0 2 (newOutletk "B" "out" 3)).2.1
        0 4 100 3 (newInletk "C" "in")).2.1
      0 (fun r => if r = 1 then newOutletk "A" "out" 2 else newOutletk "B" "out" 3)
      (Inletk.init
        (Outletk.init
          (Outletk.init
            (Connect.init (Connect.init Globals.initial 0 ⟨"A", "out", "C", "in"⟩).2 0
              ⟨"B", "out", "C", "in"⟩).2
            0 1 (newOutletk "A" "out" 2)).2.1
          0 2 (newOutletk "B" "out" 3)).2.1
        0 4 100 3 (newInletk "C" "in")).2.2).2.ksignal = 0
    ∧ (0 : MYFLT) ≠ 2 + 3 := by
  refine ⟨by decide, by norm_num⟩

/-- Claim C3, evaluated on the code: `Reverb:out` is declared once to feed `Master:in`,
an active `outleta` with the block `[1, 1, 1, 1]` is registered under `Reverb:out`, an
`inleta` is then initialised under `Master:in` with `ksmps = 4`: its audio cycle leaves
the sink block `[0, 0, 0, 0]` while the voice of the outlet is active, not the block of
the outlet. -/
theorem block_routing_scenario_yields_silence :
    (List.range 4).map
      (Inleta.audio
        (Inleta.init
          (Outleta.init (Connect.init Globals.initial 0 ⟨"Reverb", "out", "Master", "in"⟩).2
            0 1 (newOutleta "Reverb" "out" (fun _ => 1))).2.1
          0 4 100 2 (newInleta "Master" "in" (fun _ => 7))).2.1
        0 (fun _ => newOutleta "Reverb" "out" (fun _ => 1))
        (Inleta.init
          (Outleta.init (Connect.init Globals.initial 0 ⟨"Reverb", "out", "Master", "in"⟩).2
            0 1 (newOutleta "Reverb" "out" (fun _ => 1))).2.1
          0 4 100 2 (newInleta "Master" "in" (fun _ => 7))).2.2).2.asignal
      = [0, 0, 0, 0]
    ∧ (List.range 4).map (newOutleta "Reverb" "out" (fun _ => 1)).asignal = [1, 1, 1, 1]
    ∧ (newOutleta "Reverb" "out" (fun _ => 1)).insdshead.actflg ≠ 0 := by
  decide

/-! ## The per-cycle aggregation (C4, C5) -/

/-- Claim C4: for every `inletk`, whatever its bound-bucket list, and every registry
state, the sink value after `Inletk::kontrol` is the sum of the current values of the
outlet references in the bound buckets, with multiplicity, whose voice has a non-zero
active flag; it is 0 when no bound source is active. -/
theorem kontrol_sums_active_sources (g : Globals) (csound : CSOUND)
    (mem : Ref → Outletk) (this : Inletk) :
    (Inletk.kontrol g csound mem this).2.ksignal =
      activeSumK mem
        (boundInstances (g.koutletsForCsoundsForSourceOutletIds csound)
          this.sourceOutlets)
    ∧ ((∀ r ∈ boundInstances (g.koutletsForCsoundsForSourceOutletIds csound)
            this.sourceOutlets, (mem r).insdshead.actflg = 0) →
        (Inletk.kontrol g csound mem this).2.ksignal = 0) := by
  have h : (Inletk.kontrol g csound mem this).2.ksignal =
      activeSumK mem
        (boundInstances (g.koutletsForCsoundsForSourceOutletIds csound)
          this.sourceOutlets) := by
    simp only [Inletk.kontrol]
    rw [kontrol_buckets]
    simp
  refine ⟨h, fun hz => ?_⟩
  rw [h, activeSumK]
  have hnone : (boundInstances (g.koutletsForCsoundsForSourceOutletIds csound)
      this.sourceOutlets).filter (fun r => (mem r).insdshead.actflg ≠ 0) = [] := by
    rw [List.filter_eq_nil_iff]
    intro r hr
    simp [hz r hr]
  rw [hnone]; rfl

/-- Witness of C4: an inlet bound to `A:out`, whose only outlet belongs to a voice that
is not active, reads 0. -/
theorem kontrol_sums_active_sources_witness :
    (Inletk.kontrol (Outletk.init Globals.initial 0 1 (newOutletk "A" "out" 2)).2.1 0
      (fun _ => { newOutletk "A" "out" 2 with
        insdshead := { insname := "A", actflg := 0, p1 := 1 } })
      { newInletk "C" "in" with sourceOutlets := ["A:out"] }).2.ksignal = 0 :=
  (kontrol_sums_active_sources
    (Outletk.init Globals.initial 0 1 (newOutletk "A" "out" 2)).2.1 0
    (fun _ => { newOutletk "A" "out" 2 with
      insdshead := { insname := "A", actflg := 0, p1 := 1 } })
    { newInletk "C" "in" with sourceOutlets := ["A:out"] }).2 (by decide)

/-- Claim C5: for every `inleta`, whatever its bound-bucket list, its `ksmps` and the
previous contents of its sink buffer, after `Inleta::audio` every sample `j < ksmps` of
the sink buffer is the sum of sample `j` of the buffers of the outlet references in the
bound buckets, with multiplicity, whose voice is active; the right-hand side reads no
buffer of an inactive outlet and not the previous sink buffer. -/
theorem audio_sums_active_sources (g : Globals) (csound : CSOUND) (mem : Ref → Outleta)
    (this : Inleta) (j : Nat) (hj : j < this.ksmps) :
    (Inleta.audio g csound mem this).2.asignal j =
      activeSumA mem
        (boundInstances (g.aoutletsForCsoundsForSourceOutletIds csound)
          this.sourceOutlets) j := by
  simp only [Inleta.audio]
  rw [audio_buckets this.ksmps mem _ _ _ j hj, writeLoop_zero]
  simp [hj]

/-- Witness of C5: sample 2 of a block of 4, for an inlet bound to `Reverb:out` whose
sink buffer held 7 before the cycle. -/
theorem audio_sums_active_sources_witness :
    (2 < 4) ∧
    (Inleta.audio (Outleta.init Globals.initial 0 1
        (newOutleta "Reverb" "out" (fun _ => 1))).2.1 0
      (fun _ => newOutleta "Reverb" "out" (fun _ => 1))
      { newInleta "Master" "in" (fun _ => 7) with
        sourceOutlets := ["Reverb:out"], ksmps := 4 }).2.asignal 2 =
      activeSumA (fun _ => newOutleta "Reverb" "out" (fun _ => 1))
        (boundInstances
          ((Outleta.init Globals.initial 0 1
            (newOutleta "Reverb" "out" (fun _ => 1))).2.1.aoutletsForCsoundsForSourceOutletIds
            0)
          ["Reverb:out"]) 2 :=
  ⟨by decide,
   audio_sums_active_sources
    (Outleta.init Globals.initial 0 1 (newOutleta "Reverb" "out" (fun _ => 1))).2.1 0
    (fun _ => newOutleta "Reverb" "out" (fun _ => 1))
    { newInleta "Master" "in" (fun _ => 7) with
      sourceOutlets := ["Reverb:out"], ksmps := 4 } 2 (by decide)⟩

/-! ## Duplicate declarations (C6) -/

theorem inletk_init_connections (g : Globals) (csound : CSOUND) (GetKsmps : Nat)
    (fresh self : Ref) (this : Inletk) (c : CSOUND) (K : String) :
    ((Inletk.init g csound GetKsmps fresh self this).2.1.connectionsForCsounds c).value K =
      (g.connectionsForCsounds c).value K := by
  by_cases hr : this.sourceOutletsPtr ∈ g.koutletVectorsForCsounds csound <;>
    simp only [Inletk.init, hr] <;>
    by_cases hc : c = csound
  · subst hc; simp
  · simp [setFor_other _ _ _ _ hc]
  · subst hc; simp
  · simp [setFor_other _ _ _ _ hc]

/-- Claim C6 as stated fails on the code: `A:out` is declared twice to feed `C:in`, one
active `outletk` with the value 1 is registered under `A:out`, an `inletk` is then
initialised under `C:in`; one control cycle does not yield 2. -/
theorem duplicate_connect_scenario_not_doubled :
    (Inletk.kontrol
      (Inletk.init
        (Outletk.init
          (Connect.init (Connect.init Globals.initial 0 ⟨"A", "out", "C", "in"⟩).2 0
            ⟨"A", "out", "C", "in"⟩).2
          0 1 (newOutletk "A" "out" 1)).2.1
        0 4 100 3 (newInletk "C" "in")).2.1
      0 (fun _ => newOutletk "A" "out" 1)
      (Inletk.init
        (Outletk.init
          (Connect.init (Connect.init Globals.initial 0 ⟨"A", "out", "C", "in"⟩).2 0
            ⟨"A", "out", "C", "in"⟩).2
          0 1 (newOutletk "A" "out" 1)).2.1
        0 4 100 3 (newInletk "C" "in")).2.2).2.ksignal ≠ 2 * 1 := by
  have h : (Inletk.kontrol
      (Inletk.init
        (Outletk.init
          (Connect.init (Connect.init Globals.initial 0 ⟨"A", "out", "C", "in"⟩).2 0
            ⟨"A", "out", "C", "in"⟩).2
          0 1 (newOutletk "A" "out" 1)).2.1
        0 4 100 3 (newInletk "C" "in")).2.1
      0 (fun _ => newOutletk "A" "out" 1)
      (Inletk.init
        (Outletk.init
          (Connect.init (Connect.init Globals.initial 0 ⟨"A", "out", "C", "in"⟩).2 0
            ⟨"A", "out", "C", "in"⟩).2
          0 1 (newOutletk "A" "out" 1)).2.1
        0 4 100 3 (newInletk "C" "in")).2.2).2.ksignal = 0 := by decide
  rw [h]; norm_num

/-- Claim C6, amended: after `signalflowgraph`, two identical `connect`s of a source to
a sink, the init of one active `outletk` with the value `v` under the source and the
init of a new `inletk` under the sink, the directory lists the source twice, the bucket
of the source holds the one outlet, the bound-bucket list of the inlet holds that
bucket at most once, and one control cycle yields `v` times the number of times the
bucket is bound: for `v ≠ 0` never the doubled `2 * v`. -/
theorem duplicate_connect_bound_at_most_once (g0 : Globals) (csound : CSOUND)
    (Source Soutlet Sink Sinlet : String) (v : MYFLT) (r GetKsmps fresh self : Nat) :
    let g3 := (Connect.init
      (Connect.init (SignalFlowGraph.init g0 csound).2 csound
        ⟨Source, Soutlet, Sink, Sinlet⟩).2
      csound ⟨Source, Soutlet, Sink, Sinlet⟩).2
    let o := Outletk.init g3 csound r (newOutletk Source Soutlet v)
    let i := Inletk.init o.2.1 csound GetKsmps fresh self (newInletk Sink Sinlet)
    (i.2.1.connectionsForCsounds csound).value (portId Sink Sinlet) =
        [portId Source Soutlet, portId Source Soutlet]
    ∧ i.2.1.bucket Rate.k csound (portId Source Soutlet) = [r]
    ∧ i.2.2.sourceOutlets.count (portId Source Soutlet) ≤ 1
    ∧ (Inletk.kontrol i.2.1 csound (fun _ => o.2.2) i.2.2).2.ksignal =
        (i.2.2.sourceOutlets.count (portId Source Soutlet) : MYFLT) * v
    ∧ (v ≠ 0 → (Inletk.kontrol i.2.1 csound (fun _ => o.2.2) i.2.2).2.ksignal ≠ 2 * v) := by
  intro g3 o i
  have hso : i.2.2.sourceOutlets = [] :=
    inletk_init_sourceOutlets_nil o.2.1 csound GetKsmps fresh self (newInletk Sink Sinlet)
      (Or.inl rfl)
  have hk : (Inletk.kontrol i.2.1 csound (fun _ => o.2.2) i.2.2).2.ksignal = 0 := by
    simp [Inletk.kontrol, hso]
  refine ⟨?_, ?_, ?_, ?_, ?_⟩
  · show ((Inletk.init o.2.1 csound GetKsmps fresh self
        (newInletk Sink Sinlet)).2.1.connectionsForCsounds csound).value _ = _
    rw [inletk_init_connections]
    simp [o, g3, Outletk.init, Connect.init, SignalFlowGraph.init, portId]
  · show (Inletk.init o.2.1 csound GetKsmps fresh self
        (newInletk Sink Sinlet)).2.1.bucket Rate.k csound _ = _
    rw [inletk_init_bucket]
    simp only [o, outletk_init_bucket]
    simp [newOutletk, activeVoice, g3, connect_init_bucket, signalflowgraph_init_bucket,
      pushBackIfAbsent]
  · simp [hso]
  · rw [hk, hso]; simp
  · intro hv
    rw [hk]
    intro h0
    apply hv
    have h2 : 2 * v = 0 := h0.symm
    simpa using h2

/-- Witness of the amended C6 at `A:out`, `C:in` and `v = 1`. -/
theorem duplicate_connect_bound_at_most_once_witness :
    ((1 : MYFLT) ≠ 0) ∧
    (Inletk.kontrol
      (Inletk.init
        (Outletk.init
          (Connect.init
            (Connect.init (SignalFlowGraph.init Globals.initial 0).2 0
              ⟨"A", "out", "C", "in"⟩).2
            0 ⟨"A", "out", "C", "in"⟩).2
          0 1 (newOutletk "A" "out" 1)).2.1
        0 4 100 3 (newInletk "C" "in")).2.1
      0 (fun _ => (Outletk.init
          (Connect.init
            (Connect.init (SignalFlowGraph.init Globals.initial 0).2 0
              ⟨"A", "out", "C", "in"⟩).2
            0 ⟨"A", "out", "C", "in"⟩).2
          0 1 (newOutletk "A" "out" 1)).2.2)
      (Inletk.init
        (Outletk.init
          (Connect.init
            (Connect.init (SignalFlowGraph.init Globals.initial 0).2 0
              ⟨"A", "out", "C", "in"⟩).2
            0 ⟨"A", "out", "C", "in"⟩).2
          0 1 (newOutletk "A" "out" 1)).2.1
        0 4 100 3 (newInletk "C" "in")).2.2).2.ksignal ≠ 2 * 1 :=
  ⟨by norm_num,
   (duplicate_connect_bound_at_most_once Globals.initial 0 "A" "out" "C" "in" 1 1 4 100
    3).2.2.2.2 (by norm_num)⟩

/-! ## Outlet registration (C7, C8) -/

theorem mem_firstOccurrences (l : List Ref) (x : Ref) : x ∈ firstOccurrences l ↔ x ∈ l := by
  induction l with
  | nil => simp [firstOccurrences]
  | cons r rest ih =>
    simp only [firstOccurrences, List.mem_cons, List.mem_filter, ih]
    by_cases hx : x = r
    · simp [hx]
    · simp [hx]

theorem firstOccurrences_nodup (l : List Ref) : (firstOccurrences l).Nodup := by
  induction l with
  | nil => simp [firstOccurrences]
  | cons r rest ih =>
    simp only [firstOccurrences, List.nodup_cons]
    refine ⟨?_, ih.filter _⟩
    simp [List.mem_filter]

/-- Claim C7: for every engine state and outlet instance at address `self`, the init of
`outleta`, `outletk` and `outletf` leaves the bucket of its identifier unchanged when
`self` is already in the bucket and appends `self` at its end when it is absent; and
after any sequence of calls from the initial globals no bucket holds a reference twice. -/
theorem outlet_init_registers_once :
    (∀ (g : Globals) (csound : CSOUND) (self : Ref) (this : Outleta),
      (self ∈ g.bucket Rate.a csound (portId this.insdshead.insname this.Sname) →
        (Outleta.init g csound self this).2.1.bucket Rate.a csound
            (portId this.insdshead.insname this.Sname) =
          g.bucket Rate.a csound (portId this.insdshead.insname this.Sname)) ∧
      (self ∉ g.bucket Rate.a csound (portId this.insdshead.insname this.Sname) →
        (Outleta.init g csound self this).2.1.bucket Rate.a csound
            (portId this.insdshead.insname this.Sname) =
          g.bucket Rate.a csound (portId this.insdshead.insname this.Sname) ++ [self]))
    ∧ (∀ (g : Globals) (csound : CSOUND) (self : Ref) (this : Outletk),
      (self ∈ g.bucket Rate.k csound (portId this.insdshead.insname this.Sname) →
        (Outletk.init g csound self this).2.1.bucket Rate.k csound
            (portId this.insdshead.insname this.Sname) =
          g.bucket Rate.k csound (portId this.insdshead.insname this.Sname)) ∧
      (self ∉ g.bucket Rate.k csound (portId this.insdshead.insname this.Sname) →
        (Outletk.init g csound self this).2.1.bucket Rate.k csound
            (portId this.insdshead.insname this.Sname) =
          g.bucket Rate.k csound (portId this.insdshead.insname this.Sname) ++ [self]))
    ∧ (∀ (g : Globals) (csound : CSOUND) (self : Ref) (this : Outletf),
      (self ∈ g.bucket Rate.f csound (portId this.insdshead.insname this.Sname) →
        (Outletf.init g csound self this).2.1.bucket Rate.f csound
            (portId this.insdshead.insname this.Sname) =
          g.bucket Rate.f csound (portId this.insdshead.insname this.Sname)) ∧
      (self ∉ g.bucket Rate.f csound (portId this.insdshead.insname this.Sname) →
        (Outletf.init g csound self this).2.1.bucket Rate.f csound
            (portId this.insdshead.insname this.Sname) =
          g.bucket Rate.f csound (portId this.insdshead.insname this.Sname) ++ [self]))
    ∧ (∀ (ops : List Op) (r : Rate) (csound : CSOUND) (I : String),
      ((run Globals.initial ops).bucket r csound I).Nodup) := by
  refine ⟨?_, ?_, ?_, ?_⟩
  · intro g csound self this
    rw [outleta_init_bucket]
    constructor <;> intro h <;> simp [pushBackIfAbsent, h]
  · intro g csound self this
    rw [outletk_init_bucket]
    constructor <;> intro h <;> simp [pushBackIfAbsent, h]
  · intro g csound self this
    rw [outletf_init_bucket]
    constructor <;> intro h <;> simp [pushBackIfAbsent, h]
  · intro ops r csound I
    apply run_bucket_nodup
    cases r <;> exact List.nodup_nil

/-- Witness of C7: an `outletk` registered under `A:out` at address 7, first into the
empty bucket and then once more. -/
theorem outlet_init_registers_once_witness :
    (Outletk.init (Outletk.init Globals.initial 0 7 (newOutletk "A" "out" 2)).2.1 0 7
        (newOutletk "A" "out" 2)).2.1.bucket Rate.k 0 (portId "A" "out") =
      (Outletk.init Globals.initial 0 7 (newOutletk "A" "out" 2)).2.1.bucket Rate.k 0
        (portId "A" "out")
    ∧ (Outletk.init Globals.initial 0 7 (newOutletk "A" "out" 2)).2.1.bucket Rate.k 0
        (portId "A" "out") =
      Globals.initial.bucket Rate.k 0 (portId "A" "out") ++ [7] :=
  ⟨(outlet_init_registers_once.2.1
      (Outletk.init Globals.initial 0 7 (newOutletk "A" "out" 2)).2.1 0 7
      (newOutletk "A" "out" 2)).1 (by decide),
   (outlet_init_registers_once.2.1 Globals.initial 0 7 (newOutletk "A" "out" 2)).2
      (by decide)⟩

/-- Claim C8: for every sequence of calls without `signalflowgraph` and module teardown
(outlet inits, inlet inits, `connect`, `ftgenonce`, in any interleaving) from the
initial globals, the bucket of identifier `I` is the list of the distinct references
registered under `I`, in order of first registration; from any globals the registered
references missing from the bucket are appended in that order; and the init of an
inlet never changes the contents of a bucket. -/
theorem bucket_is_first_registrations (ops : List Op)
    (hops : ∀ op ∈ ops, op.clears = false) (r : Rate) (csound : CSOUND) (I : String) :
    (run Globals.initial ops).bucket r csound I =
        firstOccurrences (registrations r csound I ops)
    ∧ ((run Globals.initial ops).bucket r csound I).Nodup
    ∧ (∀ x, x ∈ (run Globals.initial ops).bucket r csound I ↔
        x ∈ registrations r csound I ops)
    ∧ (∀ g : Globals, (run g ops).bucket r csound I =
        g.bucket r csound I ++
          (firstOccurrences (registrations r csound I ops)).filter
            (fun x => x ∉ g.bucket r csound I))
    ∧ (∀ (g : Globals) (c : CSOUND) (GetKsmps : Nat) (fresh self : Ref) (this : Inleta),
        (Inleta.init g c GetKsmps fresh self this).2.1.bucket r csound I =
          g.bucket r csound I)
    ∧ (∀ (g : Globals) (c : CSOUND) (GetKsmps : Nat) (fresh self : Ref) (this : Inletk),
        (Inletk.init g c GetKsmps fresh self this).2.1.bucket r csound I =
          g.bucket r csound I)
    ∧ (∀ (g : Globals) (c : CSOUND) (GetKsmps : Nat) (fresh self : Ref) (this : Inletf),
        (Inletf.init g c GetKsmps fresh self this).2.1.bucket r csound I =
          g.bucket r csound I) := by
  have hgen : ∀ g : Globals, (run g ops).bucket r csound I =
      g.bucket r csound I ++
        (firstOccurrences (registrations r csound I ops)).filter
          (fun x => x ∉ g.bucket r csound I) := by
    intro g
    rw [run_bucket ops hops, foldl_pushBackIfAbsent]
  have hnil : Globals.initial.bucket r csound I = [] := by cases r <;> rfl
  have hinit : (run Globals.initial ops).bucket r csound I =
      firstOccurrences (registrations r csound I ops) := by
    rw [hgen, hnil]
    simp
  refine ⟨hinit, ?_, ?_, hgen, ?_, ?_, ?_⟩
  · rw [hinit]; exact firstOccurrences_nodup _
  · intro x; rw [hinit]; exact mem_firstOccurrences _ x
  · intro g c GetKsmps fresh self this; exact inleta_init_bucket _ _ _ _ _ _ _ _ _
  · intro g c GetKsmps fresh self this; exact inletk_init_bucket _ _ _ _ _ _ _ _ _
  · intro g c GetKsmps fresh self this; exact inletf_init_bucket _ _ _ _ _ _ _ _ _

/-- Witness of C8: two outlets registered under `A:out` around the init of an inlet fed
by `A:out`, the first of them registered again at the end. -/
theorem bucket_is_first_registrations_witness :
    (run Globals.initial
      [Op.connect 0 ⟨"A", "out", "C", "in"⟩,
       Op.outletk 0 1 (newOutletk "A" "out" 2),
       Op.inletk 0 4 100 9 (newInletk "C" "in"),
       Op.outletk 0 2 (newOutletk "A" "out" 3),
       Op.outletk 0 1 (newOutletk "A" "out" 2)]).bucket Rate.k 0 "A:out" =
      firstOccurrences (registrations Rate.k 0 "A:out"
        [Op.connect 0 ⟨"A", "out", "C", "in"⟩,
         Op.outletk 0 1 (newOutletk "A" "out" 2),
         Op.inletk 0 4 100 9 (newInletk "C" "in"),
         Op.outletk 0 2 (newOutletk "A" "out" 3),
         Op.outletk 0 1 (newOutletk "A" "out" 2)])
    ∧ firstOccurrences (registrations Rate.k 0 "A:out"
        [Op.connect 0 ⟨"A", "out", "C", "in"⟩,
         Op.outletk 0 1 (newOutletk "A" "out" 2),
         Op.inletk 0 4 100 9 (newInletk "C" "in"),
         Op.outletk 0 2 (newOutletk "A" "out" 3),
         Op.outletk 0 1 (newOutletk "A" "out" 2)]) = [1, 2] :=
  ⟨(bucket_is_first_registrations
      [Op.connect 0 ⟨"A", "out", "C", "in"⟩,
       Op.outletk 0 1 (newOutletk "A" "out" 2),
       Op.inletk 0 4 100 9 (newInletk "C" "in"),
       Op.outletk 0 2 (newOutletk "A" "out" 3),
       Op.outletk 0 1 (newOutletk "A" "out" 2)]
      (by decide) Rate.k 0 "A:out").1, by decide⟩


/-! ## Connection declarations (C9) -/

/-- Claim C9: after `Connect::init` the directory list of the sink identifier
`Sink:Sinlet` is its previous list with `Source:Soutlet` appended at the end, without
any deduplication; the entry of every other sink identifier and the directory of every
other engine are unchanged. -/
theorem connect_init_appends (g : Globals) (csound : CSOUND) (this : Connect) :
    ((Connect.init g csound this).2.connectionsForCsounds csound).value
        (portId this.Sink this.Sinlet) =
      (g.connectionsForCsounds csound).value (portId this.Sink this.Sinlet) ++
        [portId this.Source this.Soutlet]
    ∧ (∀ K : String, K ≠ portId this.Sink this.Sinlet →
        (Connect.init g csound this).2.connectionsForCsounds csound K =
          g.connectionsForCsounds csound K)
    ∧ (∀ c : CSOUND, c ≠ csound →
        (Connect.init g csound this).2.connectionsForCsounds c =
          g.connectionsForCsounds c) := by
  refine ⟨?_, ?_, ?_⟩
  · simp [Connect.init, portId]
  · intro K hK
    simp only [portId] at hK
    simp [Connect.init, StdMap.assign, hK]
  · intro c hc
    simp [Connect.init, setFor_other _ _ _ _ hc]

/-- Witness of C9: a second, identical declaration for `C:in` leaves the entry of
`D:in` as it was. -/
theorem connect_init_appends_witness :
    (Connect.init (Connect.init Globals.initial 0 ⟨"A", "out", "C", "in"⟩).2 0
        ⟨"A", "out", "C", "in"⟩).2.connectionsForCsounds 0 "D:in" =
      (Connect.init Globals.initial 0 ⟨"A", "out", "C", "in"⟩).2.connectionsForCsounds 0
        "D:in" :=
  (connect_init_appends (Connect.init Globals.initial 0 ⟨"A", "out", "C", "in"⟩).2 0
    ⟨"A", "out", "C", "in"⟩).2.1 "D:in" (by decide)

/-! ## Table memoisation (C10) -/

theorem sameRequest_eq (a b : FtGenOnce) (h : FtGenOnce.sameRequest a b) :
    b = { a with ifno := b.ifno } := by
  cases a; cases b
  simp only [FtGenOnce.sameRequest] at h
  obtain ⟨h1, h2, h3, h4, h5, h6, h7, h8⟩ := h
  subst h1 h2 h3 h4 h5 h6 h7 h8
  rfl

theorem ftgenonce_init_ifno (g : Globals) (csound : CSOUND)
    (hfgens : EVTBLK → Int × Option FUNC) (this : FtGenOnce) (x : MYFLT) :
    FtGenOnce.init g csound hfgens { this with ifno := x } =
      FtGenOnce.init g csound hfgens this := rfl

theorem cacheTree_singleton (k : EVTBLK) (v : Int) :
    cacheTree [(k, v)] = some
      { headerRed := true, root := NodePtr.node 0, leftmost := NodePtr.node 0,
        rightmost := NodePtr.node 0, count := 1,
        nodes := [{ red := false, parent := NodePtr.header, left := NodePtr.null,
                    right := NodePtr.null, key := k, value := v }] } := rfl

theorem findEvtblk_singleton (k : EVTBLK) (v : Int) :
    findEvtblk [(k, v)] k = some (k, v) := by
  unfold findEvtblk
  rw [cacheTree_singleton]
  simp [RbTree.find, RbTree.lowerBound, RbTree.lowerBoundLoop, RbTree.fuel, RbTree.keyOf,
    RbTree.leftOf, RbTree.rightOf, lt_irrefl_evtblk]

theorem ftgenonce_repeat_from_empty_cache (g : Globals) (csound : CSOUND)
    (hfgens hfgens' : EVTBLK → Int × Option FUNC) (this this' : FtGenOnce) (f : Int)
    (hempty : g.functionTablesForCsoundsForEvtblks csound = [])
    (hsame : FtGenOnce.sameRequest this this')
    (hgen : (FtGenOnce.init g csound hfgens this).hfgensCalls.map hfgens = [(0, some ⟨f⟩)]) :
    (FtGenOnce.init g csound hfgens this).status = OK ∧
    (FtGenOnce.init g csound hfgens this).this.ifno = (f : MYFLT) ∧
    (FtGenOnce.init (FtGenOnce.init g csound hfgens this).g csound hfgens' this').status = OK ∧
    (FtGenOnce.init (FtGenOnce.init g csound hfgens this).g csound hfgens' this').this.ifno
      = (narrowInt f : MYFLT) ∧
    (FtGenOnce.init (FtGenOnce.init g csound hfgens this).g csound hfgens' this').hfgensCalls
      = [] := by
  rw [sameRequest_eq this this' hsame, ftgenonce_init_ifno]
  clear hsame
  unfold FtGenOnce.init at hgen ⊢
  cases hk : FtGenOnce.key { this with ifno := 0 } with
  | none => simp [hk] at hgen
  | some evtblk =>
    have hf : findEvtblk (g.functionTablesForCsoundsForEvtblks csound) evtblk = none := by
      rw [hempty]; rfl
    simp only [hk, hf] at hgen ⊢
    by_cases hs : (hfgens evtblk).1 = 0
    · cases hfunc : (hfgens evtblk).2 with
      | none =>
        simp [hs, hfunc] at hgen
        rw [hgen] at hfunc
        simp at hfunc
      | some func =>
        simp [hs, hfunc] at hgen
        have hfno : func = ⟨f⟩ := by
          rw [hgen] at hfunc
          simpa using hfunc.symm
        subst hfno
        have hf2 : findEvtblk (assignEvtblk (g.functionTablesForCsoundsForEvtblks csound)
            evtblk (narrowInt f)) evtblk = some (evtblk, narrowInt f) := by
          rw [hempty]
          exact findEvtblk_singleton evtblk (narrowInt f)
        simp [hs, hfunc, hk, hf2, OK]
    · simp [hs] at hgen
      rw [hgen] at hs
      simp at hs

theorem narrowInt_of_int_range (x : Int) (h1 : -2147483648 ≤ x) (h2 : x < 2147483648) :
    narrowInt x = x := by
  unfold narrowInt
  omega

/-- Claim C10, evaluated on the code: on the initial globals `ftgenonce 2, 0, 1024, 9, 1`
is answered with table 101, then `ftgenonce 1, 0, 1024, 10, 1, 0, 3` is requested twice.
The first of the two misses and is answered with table 102; the second, identical
request misses again, invokes the generation collaborator a second time and returns
table 103, with the tree of the cache still defined. The keys `a` of the first and `b`
of the other requests have `a < b` and `b < a`: `operator[]` hangs `b` to the left of
`a`, and `find` goes to the right of `a`. From an empty cache the same request
repeated does hit, for every request and every table number, but the table number
comes back as the `int` the map stores: unchanged inside the range of `int`, changed
outside it. -/
theorem repeated_request_misses_after_other_key :
    (FtGenOnce.init
      (FtGenOnce.init Globals.initial 0 (fun _ => (0, some ⟨101⟩))
        ⟨0, 2, 0, 1024, 9, 1, "", [], 0⟩).g 0 (fun _ => (0, some ⟨102⟩))
      ⟨0, 1, 0, 1024, 10, 1, "", [0, 3], 0⟩).hfgensCalls.length = 1
    ∧ (FtGenOnce.init
      (FtGenOnce.init Globals.initial 0 (fun _ => (0, some ⟨101⟩))
        ⟨0, 2, 0, 1024, 9, 1, "", [], 0⟩).g 0 (fun _ => (0, some ⟨102⟩))
      ⟨0, 1, 0, 1024, 10, 1, "", [0, 3], 0⟩).this.ifno = ((102 : Int) : MYFLT)
    ∧ (FtGenOnce.init
      (FtGenOnce.init
        (FtGenOnce.init Globals.initial 0 (fun _ => (0, some ⟨101⟩))
          ⟨0, 2, 0, 1024, 9, 1, "", [], 0⟩).g 0 (fun _ => (0, some ⟨102⟩))
        ⟨0, 1, 0, 1024, 10, 1, "", [0, 3], 0⟩).g 0 (fun _ => (0, some ⟨103⟩))
      ⟨0, 1, 0, 1024, 10, 1, "", [0, 3], 0⟩).hfgensCalls.length = 1
    ∧ (FtGenOnce.init
      (FtGenOnce.init
        (FtGenOnce.init Globals.initial 0 (fun _ => (0, some ⟨101⟩))
          ⟨0, 2, 0, 1024, 9, 1, "", [], 0⟩).g 0 (fun _ => (0, some ⟨102⟩))
        ⟨0, 1, 0, 1024, 10, 1, "", [0, 3], 0⟩).g 0 (fun _ => (0, some ⟨103⟩))
      ⟨0, 1, 0, 1024, 10, 1, "", [0, 3], 0⟩).this.ifno = ((103 : Int) : MYFLT)
    ∧ cacheDefined ((FtGenOnce.init
      (FtGenOnce.init
        (FtGenOnce.init Globals.initial 0 (fun _ => (0, some ⟨101⟩))
          ⟨0, 2, 0, 1024, 9, 1, "", [], 0⟩).g 0 (fun _ => (0, some ⟨102⟩))
        ⟨0, 1, 0, 1024, 10, 1, "", [0, 3], 0⟩).g 0 (fun _ => (0, some ⟨103⟩))
      ⟨0, 1, 0, 1024, 10, 1, "", [0, 3], 0⟩).g.functionTablesForCsoundsForEvtblks 0) = true
    ∧ FtGenOnce.keyLt ⟨0, 2, 0, 1024, 9, 1, "", [], 0⟩
        ⟨0, 1, 0, 1024, 10, 1, "", [0, 3], 0⟩ = some true
    ∧ FtGenOnce.keyLt ⟨0, 1, 0, 1024, 10, 1, "", [0, 3], 0⟩
        ⟨0, 2, 0, 1024, 9, 1, "", [], 0⟩ = some true
    ∧ (FtGenOnce.init
      (FtGenOnce.init Globals.initial 0 (fun _ => (0, some ⟨101⟩))
        ⟨0, 1, 0, 1024, 10, 1, "", [0, 3], 0⟩).g 0 (fun _ => (0, some ⟨102⟩))
      ⟨0, 1, 0, 1024, 10, 1, "", [0, 3], 0⟩).hfgensCalls.length = 0
    ∧ (FtGenOnce.init
      (FtGenOnce.init Globals.initial 0 (fun _ => (0, some ⟨101⟩))
        ⟨0, 1, 0, 1024, 10, 1, "", [0, 3], 0⟩).g 0 (fun _ => (0, some ⟨102⟩))
      ⟨0, 1, 0, 1024, 10, 1, "", [0, 3], 0⟩).this.ifno = ((101 : Int) : MYFLT)
    ∧ (FtGenOnce.init Globals.initial 0 (fun _ => (0, some ⟨2147483648⟩))
        ⟨0, 1, 0, 1024, 10, 1, "", [0, 3], 0⟩).this.ifno = ((2147483648 : Int) : MYFLT)
    ∧ (FtGenOnce.init
      (FtGenOnce.init Globals.initial 0 (fun _ => (0, some ⟨2147483648⟩))
        ⟨0, 1, 0, 1024, 10, 1, "", [0, 3], 0⟩).g 0 (fun _ => (0, some ⟨102⟩))
      ⟨0, 1, 0, 1024, 10, 1, "", [0, 3], 0⟩).this.ifno = ((-2147483648 : Int) : MYFLT)
    ∧ (∀ (g : Globals) (csound : CSOUND) (hfgens hfgens' : EVTBLK → Int × Option FUNC)
        (this this' : FtGenOnce) (f : Int),
      g.functionTablesForCsoundsForEvtblks csound = [] →
      FtGenOnce.sameRequest this this' →
      (FtGenOnce.init g csound hfgens this).hfgensCalls.map hfgens = [(0, some ⟨f⟩)] →
      (FtGenOnce.init g csound hfgens this).this.ifno = (f : MYFLT) ∧
      (FtGenOnce.init (FtGenOnce.init g csound hfgens this).g csound hfgens'
        this').hfgensCalls = [] ∧
      (FtGenOnce.init (FtGenOnce.init g csound hfgens this).g csound hfgens'
        this').this.ifno = (narrowInt f : MYFLT) ∧
      (-2147483648 ≤ f → f < 2147483648 → narrowInt f = f)) := by
  refine ⟨by decide, by decide, by decide, by decide, by decide, by decide, by decide,
    by decide, by decide, by decide, by decide, ?_⟩
  intro g csound hfgens hfgens' this this' f hempty hsame hgen
  obtain ⟨_, h2, _, h4, h5⟩ :=
    ftgenonce_repeat_from_empty_cache g csound hfgens hfgens' this this' f hempty hsame hgen
  exact ⟨h2, h5, h4, narrowInt_of_int_range f⟩

/-! ## Lemmas on request keys -/

theorem ftgenonce_key_ifno (this : FtGenOnce) (x : MYFLT) :
    FtGenOnce.key { this with ifno := x } = FtGenOnce.key this := rfl

theorem foldl_setP_fields {ι : Type} (l : List ι) (idx : ι → Nat) (val : ι → MYFLT)
    (e : EVTBLK) :
    (l.foldl (fun evtblk i => evtblk.setP (idx i) (val i)) e).strarg = e.strarg ∧
    (l.foldl (fun evtblk i => evtblk.setP (idx i) (val i)) e).opcod = e.opcod ∧
    (l.foldl (fun evtblk i => evtblk.setP (idx i) (val i)) e).pcnt = e.pcnt ∧
    (l.foldl (fun evtblk i => evtblk.setP (idx i) (val i)) e).p2orig = e.p2orig ∧
    (l.foldl (fun evtblk i => evtblk.setP (idx i) (val i)) e).p3orig = e.p3orig := by
  induction l generalizing e with
  | nil => simp
  | cons x rest ih =>
    simp only [List.foldl_cons]
    obtain ⟨h1, h2, h3, h4, h5⟩ := ih (e.setP (idx x) (val x))
    exact ⟨h1, h2, h3, h4, h5⟩

theorem foldl_setP_untouched {ι : Type} (l : List ι) (idx : ι → Nat) (val : ι → MYFLT)
    (e : EVTBLK) (j : Nat) (hj : ∀ i ∈ l, idx i ≠ j) :
    (l.foldl (fun evtblk i => evtblk.setP (idx i) (val i)) e).p j = e.p j := by
  induction l generalizing e with
  | nil => rfl
  | cons x rest ih =>
    simp only [List.foldl_cons]
    rw [ih _ (fun i hi => hj i (List.mem_cons_of_mem _ hi))]
    have hx : j ≠ idx x := fun h => hj x (List.mem_cons_self _ _) h.symm
    simp [EVTBLK.setP, writeAt, hx]

theorem ftgenonce_copyArgums_fields (this : FtGenOnce) (e : EVTBLK) :
    (FtGenOnce.copyArgums this e).strarg = e.strarg ∧
    (FtGenOnce.copyArgums this e).opcod = e.opcod ∧
    (FtGenOnce.copyArgums this e).pcnt = 5 + this.argums.length ∧
    (∀ j, j < 6 → (FtGenOnce.copyArgums this e).p j = e.p j) := by
  unfold FtGenOnce.copyArgums
  simp only
  obtain ⟨h1, h2, h3, _, _⟩ :=
    foldl_setP_fields (List.range' 6 (5 + this.argums.length - 6)) (fun i => i)
      (fun pfieldI => this.argums.getD (pfieldI - 5) 0)
      { e with pcnt := 5 + this.argums.length }
  refine ⟨h1, h2, h3, ?_⟩
  intro j hj
  rw [foldl_setP_untouched (List.range' 6 (5 + this.argums.length - 6)) (fun i => i)
    (fun pfieldI => this.argums.getD (pfieldI - 5) 0)]
  intro i hi
  simp only [List.mem_range'_1] at hi
  omega

theorem ftgenonce_withP5_string (this : FtGenOnce) (hs : this.smask ≠ 0) :
    FtGenOnce.withP5 this (FtGenOnce.fixedFields this) =
      if |truncToInt this.p4| = 1 ∨ |truncToInt this.p4| = 23 ∨
          |truncToInt this.p4| = 28 ∨ |truncToInt this.p4| = 43 then
        some { (FtGenOnce.fixedFields this).setP 5 SSTRCOD with strarg := this.p5string }
      else none := by
  have hp4 : (FtGenOnce.fixedFields this).p 4 = this.p4 := by
    simp [FtGenOnce.fixedFields, EVTBLK.setP, writeAt]
  have habs : (if truncToInt this.p4 < 0 then -truncToInt this.p4 else truncToInt this.p4)
      = |truncToInt this.p4| := by
    by_cases h : truncToInt this.p4 < 0
    · simp [h, abs_of_neg h]
    · simp [h, abs_of_nonneg (not_lt.mp h)]
  unfold FtGenOnce.withP5
  simp only [hs, ne_eq, not_false_eq_true, if_true, hp4, habs]

theorem ltLoop_none_of_agree (a b : EVTBLK) (n i : Nat)
    (h : ∀ j, i ≤ j → j < i + n →
      a.p j = b.p j ∧ (a.p j = SSTRCOD → a.strarg = b.strarg)) :
    EVTBLK.ltLoop a b n i = none := by
  induction n generalizing i with
  | zero => rfl
  | succ n ih =>
    have hi := h i (Nat.le_refl i) (by omega)
    have hrest : EVTBLK.ltLoop a b n (i + 1) = none :=
      ih (i + 1) (fun j h1 h2 => h j (by omega) (by omega))
    unfold EVTBLK.ltLoop
    by_cases hs : a.p i = SSTRCOD
    · have hb : b.p i = SSTRCOD := hi.1 ▸ hs
      have hstr := hi.2 hs
      simp [hs, hb, hstr, hrest]
    · have hb : ¬ b.p i = SSTRCOD := fun hb => hs (hi.1.trans hb)
      simp [hs, hb, hi.1, hrest]

theorem agree_of_ltLoop (a b : EVTBLK) (n i : Nat)
    (hab : EVTBLK.ltLoop a b n i ≠ some true) (hba : EVTBLK.ltLoop b a n i ≠ some true) :
    ∀ j, i ≤ j → j < i + n →
      a.p j = b.p j ∧ (a.p j = SSTRCOD → a.strarg = b.strarg) := by
  induction n generalizing i with
  | zero => intro j h1 h2; omega
  | succ n ih =>
    unfold EVTBLK.ltLoop at hab hba
    by_cases hsa : a.p i = SSTRCOD
    · by_cases hsb : b.p i = SSTRCOD
      · by_cases h1 : a.strarg < b.strarg
        · simp [hsa, hsb, h1] at hab
        · by_cases h2 : b.strarg < a.strarg
          · simp [hsa, hsb, h2] at hba
          · have hstr : a.strarg = b.strarg := by
              rcases lt_trichotomy a.strarg b.strarg with h | h | h
              · exact absurd h h1
              · exact h
              · exact absurd h h2
            simp only [hsa, hsb, h1, h2, and_self, if_true, if_false] at hab hba
            intro j hj1 hj2
            by_cases hji : j = i
            · subst hji
              exact ⟨hsa.trans hsb.symm, fun _ => hstr⟩
            · exact ih (i + 1) hab hba j (by omega) (by omega)
      · simp [hsa, hsb] at hab
    · by_cases hsb : b.p i = SSTRCOD
      · simp [hsa, hsb] at hba
      · by_cases h1 : a.p i < b.p i
        · simp [hsa, hsb, h1] at hab
        · by_cases h2 : b.p i < a.p i
          · simp [hsa, hsb, h2] at hba
          · have heq : a.p i = b.p i := by
              rcases lt_trichotomy (a.p i) (b.p i) with h | h | h
              · exact absurd h h1
              · exact h
              · exact absurd h h2
            simp only [hsa, hsb, h1, h2, and_self, if_false] at hab hba
            intro j hj1 hj2
            by_cases hji : j = i
            · subst hji
              exact ⟨heq, fun h => absurd h hsa⟩
            · exact ih (i + 1) hab hba j (by omega) (by omega)

theorem lt_false_parts (a b : EVTBLK) (h : EVTBLK.lt a b = false) :
    ¬ a.opcod < b.opcod ∧
    EVTBLK.ltLoop a b (min a.pcnt b.pcnt) 0 ≠ some true ∧
    (EVTBLK.ltLoop a b (min a.pcnt b.pcnt) 0 = none → ¬ a.pcnt < b.pcnt) := by
  unfold EVTBLK.lt at h
  by_cases ho : a.opcod < b.opcod
  · simp [ho] at h
  · simp only [ho, if_false] at h
    refine ⟨ho, ?_, ?_⟩
    · intro hl
      rw [hl] at h
      simp at h
    · intro hl
      rw [hl] at h
      intro hp
      simp [hp] at h


/-! ## Table memoisation: misses, failures and the string check (C11, C12, C13, C14) -/

/-- Claim C11, evaluated on the code: `ftgenonce 1, 0, 1024, 10, 1, 5` followed by
`ftgenonce 1, 0, 1024, 10, 1, 7` (one variadic argument, the trailing one, changed):
the second request does not invoke the generation collaborator and returns the table
101 of the first; the same happens for `ftgenonce 1, 0, 1024, 10, 1` followed by
`ftgenonce 1, 0, 1024, 10, 2` (no variadic argument, trailing `p5` changed). With
exactly one variadic argument the key does not depend on it at all: the copy loop
starts at `p[6]` and reads `argums[pfieldI - 5]`, so `argums[0]` is never copied. -/
theorem trailing_field_change_still_hits :
    (FtGenOnce.init
      (FtGenOnce.init Globals.initial 0 (fun _ => (0, some ⟨101⟩))
        ⟨0, 1, 0, 1024, 10, 1, "", [5], 0⟩).g 0 (fun _ => (0, some ⟨102⟩))
      ⟨0, 1, 0, 1024, 10, 1, "", [7], 0⟩).hfgensCalls.length = 0
    ∧ (FtGenOnce.init
      (FtGenOnce.init Globals.initial 0 (fun _ => (0, some ⟨101⟩))
        ⟨0, 1, 0, 1024, 10, 1, "", [5], 0⟩).g 0 (fun _ => (0, some ⟨102⟩))
      ⟨0, 1, 0, 1024, 10, 1, "", [7], 0⟩).this.ifno = 101
    ∧ (FtGenOnce.init
      (FtGenOnce.init Globals.initial 0 (fun _ => (0, some ⟨101⟩))
        ⟨0, 1, 0, 1024, 10, 1, "", [], 0⟩).g 0 (fun _ => (0, some ⟨102⟩))
      ⟨0, 1, 0, 1024, 10, 2, "", [], 0⟩).hfgensCalls.length = 0
    ∧ (∀ (this : FtGenOnce) (x y : MYFLT),
        FtGenOnce.key { this with argums := [x] } =
          FtGenOnce.key { this with argums := [y] }) := by
  refine ⟨by decide, ?_, by decide, ?_⟩
  · have h : (FtGenOnce.init
      (FtGenOnce.init Globals.initial 0 (fun _ => (0, some ⟨101⟩))
        ⟨0, 1, 0, 1024, 10, 1, "", [5], 0⟩).g 0 (fun _ => (0, some ⟨102⟩))
      ⟨0, 1, 0, 1024, 10, 1, "", [7], 0⟩).this.ifno = ((101 : Int) : MYFLT) := by decide
    rw [h]; norm_num
  · intro this x y
    rfl

/-- Claim C12, evaluated on the code: `ftgenonce 1, 0, 1024, 10, 1` followed by
`ftgenonce 1, 0, 2048, 10, 1` (the size argument changed): the second request does not
invoke the generation collaborator and returns the table 101 of the first. The key
never depends on the second and third arguments: `p[2]` is set to 0 and `p[3]` to -1. -/
theorem size_change_still_hits :
    (FtGenOnce.init
      (FtGenOnce.init Globals.initial 0 (fun _ => (0, some ⟨101⟩))
        ⟨0, 1, 0, 1024, 10, 1, "", [], 0⟩).g 0 (fun _ => (0, some ⟨102⟩))
      ⟨0, 1, 0, 2048, 10, 1, "", [], 0⟩).hfgensCalls.length = 0
    ∧ (FtGenOnce.init
      (FtGenOnce.init Globals.initial 0 (fun _ => (0, some ⟨101⟩))
        ⟨0, 1, 0, 1024, 10, 1, "", [], 0⟩).g 0 (fun _ => (0, some ⟨102⟩))
      ⟨0, 1, 0, 2048, 10, 1, "", [], 0⟩).this.ifno = 101
    ∧ (∀ (this : FtGenOnce) (x y : MYFLT),
        FtGenOnce.key { this with p2 := x, p3 := y } = FtGenOnce.key this) := by
  refine ⟨by decide, ?_, ?_⟩
  · have h : (FtGenOnce.init
      (FtGenOnce.init Globals.initial 0 (fun _ => (0, some ⟨101⟩))
        ⟨0, 1, 0, 1024, 10, 1, "", [], 0⟩).g 0 (fun _ => (0, some ⟨102⟩))
      ⟨0, 1, 0, 2048, 10, 1, "", [], 0⟩).this.ifno = ((101 : Int) : MYFLT) := by decide
    rw [h]; norm_num
  · intro this x y
    rfl

/-- Claim C13: for every `ftgenonce` request that misses the cache, so that the
generation collaborator is invoked, and for which the collaborator answers a non-zero
status, `FtGenOnce::init` returns the initialization error, leaves the globals (the
table cache among them) exactly as they were, and leaves the output `ifno` at 0. -/
theorem generation_failure_is_atomic (g : Globals) (csound : CSOUND)
    (hfgens : EVTBLK → Int × Option FUNC) (this : FtGenOnce)
    (hmiss : (FtGenOnce.init g csound hfgens this).hfgensCalls.length = 1)
    (hfail : ∀ e ∈ (FtGenOnce.init g csound hfgens this).hfgensCalls, (hfgens e).1 ≠ 0) :
    (FtGenOnce.init g csound hfgens this).status = NOTOK ∧
    (FtGenOnce.init g csound hfgens this).g = g ∧
    (FtGenOnce.init g csound hfgens this).this.ifno = 0 := by
  unfold FtGenOnce.init at hmiss hfail ⊢
  cases hk : FtGenOnce.key { this with ifno := 0 } with
  | none => simp [hk] at hmiss
  | some evtblk =>
    simp only [hk] at hmiss hfail ⊢
    cases hf : findEvtblk (g.functionTablesForCsoundsForEvtblks csound) evtblk with
    | some entry => simp [hf] at hmiss
    | none =>
      simp only [hf] at hmiss hfail ⊢
      by_cases hs : (hfgens evtblk).1 = 0
      · exfalso
        cases hfunc : (hfgens evtblk).2 with
        | none =>
          simp [hs, hfunc] at hfail
        | some func =>
          simp [hs, hfunc] at hfail
      · simp [hs]

/-- Witness of C13: a request on the initial globals whose generation fails with -1. -/
theorem generation_failure_is_atomic_witness :
    (FtGenOnce.init Globals.initial 0 (fun _ => (-1, none))
      ⟨7, 1, 0, 1024, 10, 1, "", [0, 3], 0⟩).status = NOTOK ∧
    (FtGenOnce.init Globals.initial 0 (fun _ => (-1, none))
      ⟨7, 1, 0, 1024, 10, 1, "", [0, 3], 0⟩).g = Globals.initial ∧
    (FtGenOnce.init Globals.initial 0 (fun _ => (-1, none))
      ⟨7, 1, 0, 1024, 10, 1, "", [0, 3], 0⟩).this.ifno = 0 :=
  generation_failure_is_atomic Globals.initial 0 (fun _ => (-1, none))
    ⟨7, 1, 0, 1024, 10, 1, "", [0, 3], 0⟩ (by decide) (by decide)

/-- Claim C14: for every `ftgenonce` request with a non-zero string mask,
`FtGenOnce::init` returns the initialization error without a call of the generation
collaborator and with unchanged globals if and only if `|trunc(igen)|` is none of 1,
23, 28 and 43; and when it is one of the four, the key carries `SSTRCOD` in `p[5]` and
the string argument in `strarg`. -/
theorem string_argument_rejected_iff (g : Globals) (csound : CSOUND)
    (hfgens : EVTBLK → Int × Option FUNC) (this : FtGenOnce) (hs : this.smask ≠ 0) :
    (((FtGenOnce.init g csound hfgens this).status = NOTOK ∧
        (FtGenOnce.init g csound hfgens this).hfgensCalls = [] ∧
        (FtGenOnce.init g csound hfgens this).g = g) ↔
      ¬ (|truncToInt this.p4| = 1 ∨ |truncToInt this.p4| = 23 ∨
          |truncToInt this.p4| = 28 ∨ |truncToInt this.p4| = 43))
    ∧ ((|truncToInt this.p4| = 1 ∨ |truncToInt this.p4| = 23 ∨
          |truncToInt this.p4| = 28 ∨ |truncToInt this.p4| = 43) →
        ∃ k, FtGenOnce.key this = some k ∧ k.p 5 = SSTRCOD ∧
          k.strarg = this.p5string) := by
  have hkey : FtGenOnce.key { this with ifno := 0 } = FtGenOnce.key this := rfl
  have hkeyval : FtGenOnce.key this =
      (if |truncToInt this.p4| = 1 ∨ |truncToInt this.p4| = 23 ∨
          |truncToInt this.p4| = 28 ∨ |truncToInt this.p4| = 43 then
        some { (FtGenOnce.fixedFields this).setP 5 SSTRCOD with strarg := this.p5string }
      else none).map (FtGenOnce.copyArgums this) := by
    rw [FtGenOnce.key, ftgenonce_withP5_string this hs]
  by_cases hin : |truncToInt this.p4| = 1 ∨ |truncToInt this.p4| = 23 ∨
      |truncToInt this.p4| = 28 ∨ |truncToInt this.p4| = 43
  · rw [if_pos hin] at hkeyval
    simp only [Option.map_some'] at hkeyval
    obtain ⟨h1, _, _, h4⟩ := ftgenonce_copyArgums_fields this
      { (FtGenOnce.fixedFields this).setP 5 SSTRCOD with strarg := this.p5string }
    refine ⟨?_, fun _ => ⟨_, hkeyval, ?_, ?_⟩⟩
    · constructor
      · rintro ⟨hst, hcalls, _⟩
        exfalso
        unfold FtGenOnce.init at hst hcalls
        simp only [hkey, hkeyval] at hst hcalls
        cases hf : findEvtblk (g.functionTablesForCsoundsForEvtblks csound)
            (FtGenOnce.copyArgums this
              { (FtGenOnce.fixedFields this).setP 5 SSTRCOD with
                strarg := this.p5string }) with
        | some entry =>
          simp [hf, OK, NOTOK] at hst
        | none =>
          simp only [hf] at hst hcalls
          split at hcalls
          · simp at hcalls
          · split at hcalls <;> simp at hcalls
      · intro hnot
        exact absurd hin hnot
    · rw [h4 5 (by norm_num)]
      simp [EVTBLK.setP, writeAt]
    · rw [h1]
  · rw [if_neg hin] at hkeyval
    simp only [Option.map_none'] at hkeyval
    refine ⟨?_, fun h => absurd h hin⟩
    constructor
    · intro _; exact hin
    · intro _
      unfold FtGenOnce.init
      simp [hkey, hkeyval]

/-- Witness of C14: GEN 23 with the string argument `points.txt`. -/
theorem string_argument_rejected_iff_witness :
    ∃ k, FtGenOnce.key ⟨0, 1, 0, 1024, 23, 0, "points.txt", [], 1⟩ = some k ∧
      k.p 5 = SSTRCOD ∧ k.strarg = "points.txt" :=
  (string_argument_rejected_iff Globals.initial 0 (fun _ => (0, none))
    ⟨0, 1, 0, 1024, 23, 0, "points.txt", [], 1⟩ (by decide)).2
    (Or.inr (Or.inl (by simp [truncToInt, Rat.floor])))

/-! ## Equivalence of request keys (C15) -/

/-- Claim C15: for all keys `a` and `b`, neither `a < b` nor `b < a` holds under
`operator<` if and only if the two have the same `opcod`, the same `pcnt`, the same
`p[i]` for every `i < pcnt`, and the same string argument whenever some compared field
carries `SSTRCOD` in both; keys with different counts are never equivalent; and
`EVTBLK.equiv` is this relation. -/
theorem key_equivalence_is_structural_equality (a b : EVTBLK) :
    ((EVTBLK.lt a b = false ∧ EVTBLK.lt b a = false) ↔
      (a.opcod = b.opcod ∧ a.pcnt = b.pcnt ∧ (∀ i, i < a.pcnt → a.p i = b.p i) ∧
        ((∃ i, i < a.pcnt ∧ a.p i = SSTRCOD ∧ b.p i = SSTRCOD) → a.strarg = b.strarg)))
    ∧ (a.pcnt ≠ b.pcnt → ¬ (EVTBLK.lt a b = false ∧ EVTBLK.lt b a = false))
    ∧ (EVTBLK.equiv a b = true ↔ (EVTBLK.lt a b = false ∧ EVTBLK.lt b a = false)) := by
  have hiff : (EVTBLK.lt a b = false ∧ EVTBLK.lt b a = false) ↔
      (a.opcod = b.opcod ∧ a.pcnt = b.pcnt ∧ (∀ i, i < a.pcnt → a.p i = b.p i) ∧
        ((∃ i, i < a.pcnt ∧ a.p i = SSTRCOD ∧ b.p i = SSTRCOD) →
          a.strarg = b.strarg)) := by
    constructor
    · rintro ⟨hab, hba⟩
      obtain ⟨ho1, hl1, hp1⟩ := lt_false_parts a b hab
      obtain ⟨ho2, hl2, hp2⟩ := lt_false_parts b a hba
      have hopcod : a.opcod = b.opcod := by
        rcases lt_trichotomy a.opcod b.opcod with h | h | h
        · exact absurd h ho1
        · exact h
        · exact absurd h ho2
      rw [Nat.min_comm] at hl2 hp2
      have hagree := agree_of_ltLoop a b (min a.pcnt b.pcnt) 0 hl1 hl2
      have hagree' : ∀ j, 0 ≤ j → j < 0 + min a.pcnt b.pcnt →
          b.p j = a.p j ∧ (b.p j = SSTRCOD → b.strarg = a.strarg) := by
        intro j h1 h2
        obtain ⟨e1, e2⟩ := hagree j h1 h2
        exact ⟨e1.symm, fun hb => (e2 (e1.trans hb)).symm⟩
      have hn1 := ltLoop_none_of_agree a b _ 0 hagree
      have hn2 := ltLoop_none_of_agree b a _ 0 hagree'
      have hpcnt : a.pcnt = b.pcnt := by
        have := hp1 hn1
        have := hp2 hn2
        omega
      refine ⟨hopcod, hpcnt, ?_, ?_⟩
      · intro i hi
        exact (hagree i (Nat.zero_le _) (by rw [← hpcnt]; simpa using hi)).1
      · rintro ⟨i, hi, hsa, _⟩
        exact (hagree i (Nat.zero_le _) (by rw [← hpcnt]; simpa using hi)).2 hsa
    · rintro ⟨hopcod, hpcnt, hfields, hstr⟩
      have hagree : ∀ j, 0 ≤ j → j < 0 + min a.pcnt b.pcnt →
          a.p j = b.p j ∧ (a.p j = SSTRCOD → a.strarg = b.strarg) := by
        intro j _ h2
        have hj : j < a.pcnt := by
          rw [← hpcnt] at h2; simpa using h2
        exact ⟨hfields j hj, fun hs => hstr ⟨j, hj, hs, (hfields j hj) ▸ hs⟩⟩
      have hagree' : ∀ j, 0 ≤ j → j < 0 + min b.pcnt a.pcnt →
          b.p j = a.p j ∧ (b.p j = SSTRCOD → b.strarg = a.strarg) := by
        intro j h1 h2
        rw [Nat.min_comm] at h2
        obtain ⟨e1, e2⟩ := hagree j h1 h2
        exact ⟨e1.symm, fun hb => (e2 (e1.trans hb)).symm⟩
      have hn1 := ltLoop_none_of_agree a b _ 0 hagree
      have hn2 := ltLoop_none_of_agree b a _ 0 hagree'
      have hn1' : EVTBLK.ltLoop a b b.pcnt 0 = none := by simpa [hpcnt] using hn1
      have hn2' : EVTBLK.ltLoop b a b.pcnt 0 = none := by simpa [hpcnt] using hn2
      constructor
      · simp [EVTBLK.lt, hopcod, hn1', hpcnt]
      · simp [EVTBLK.lt, hopcod, hn2', hpcnt]
  refine ⟨hiff, ?_, ?_⟩
  · intro hne heq
    exact hne (hiff.mp heq).2.1
  · simp [EVTBLK.equiv]

/-- Witness of C15: two zeroed keys with the counts 0 and 1 are not equivalent. -/
theorem key_equivalence_is_structural_equality_witness :
    ¬ (EVTBLK.lt EVTBLK.zero { EVTBLK.zero with pcnt := 1 } = false ∧
      EVTBLK.lt { EVTBLK.zero with pcnt := 1 } EVTBLK.zero = false) :=
  (key_equivalence_is_structural_equality EVTBLK.zero
    { EVTBLK.zero with pcnt := 1 }).2.1 (by decide)

/-! ## `alwayson` (C16, C17, C18, C19) -/

theorem foldlM_setP_eq (l : List Nat) (idx : Nat → Nat) (val : Nat → Option MYFLT)
    (e : EVTBLK) :
    l.foldlM (fun evtblk i => (val i).map (fun v => evtblk.setP (idx i) v)) e =
      if ∀ i ∈ l, (val i).isSome = true then
        some (l.foldl (fun evtblk i => evtblk.setP (idx i) ((val i).getD 0)) e)
      else none := by
  induction l generalizing e with
  | nil => simp
  | cons x rest ih =>
    simp only [List.foldlM_cons, List.foldl_cons, List.mem_cons, forall_eq_or_imp]
    cases hx : val x with
    | none => simp
    | some v =>
      simp only [Option.map_some', Option.some_bind, Option.bind_eq_bind, Option.isSome_some,
        true_and, Option.getD_some]
      exact ih _

theorem alwayson_copyArgums_eq (this : AlwaysOn) (e : EVTBLK) :
    AlwaysOn.copyArgums this e =
      if ∀ j, j < this.inputArgCnt → (this.argums j).isSome = true then
        some ((List.range this.inputArgCnt).foldl
          (fun evtblk i => evtblk.setP (4 + i) ((this.argums i).getD 0))
          { e with pcnt := this.inputArgCnt })
      else none := by
  unfold AlwaysOn.copyArgums
  simp only
  rw [foldlM_setP_eq (List.range this.inputArgCnt) (fun i => 4 + i) this.argums]
  simp only [List.mem_range]

theorem alwayson_copyArgums_fields (this : AlwaysOn) (e e1 : EVTBLK)
    (h : AlwaysOn.copyArgums this e = some e1) :
    e1.strarg = e.strarg ∧
    e1.opcod = e.opcod ∧
    e1.pcnt = this.inputArgCnt ∧
    e1.p2orig = e.p2orig ∧
    e1.p3orig = e.p3orig ∧
    (∀ j, j < 4 → e1.p j = e.p j) := by
  rw [alwayson_copyArgums_eq] at h
  split at h
  · simp only [Option.some.injEq] at h
    subst h
    obtain ⟨h1, h2, h3, h4, h5⟩ :=
      foldl_setP_fields (List.range this.inputArgCnt) (fun i => 4 + i)
        (fun i => (this.argums i).getD 0) { e with pcnt := this.inputArgCnt }
    refine ⟨h1, h2, h3, h4, h5, ?_⟩
    intro j hj
    rw [foldl_setP_untouched (List.range this.inputArgCnt) (fun i => 4 + i)
      (fun i => (this.argums i).getD 0)]
    intro i _
    omega
  · simp at h

theorem foldl_range_setP (argums : Nat → MYFLT) (n : Nat) (e : EVTBLK) (j : Nat)
    (hj : j < n) :
    ((List.range n).foldl (fun evtblk i => evtblk.setP (4 + i) (argums i)) e).p (4 + j) =
      argums j := by
  induction n with
  | zero => omega
  | succ n ih =>
    rw [List.range_succ, List.foldl_append]
    simp only [List.foldl_cons, List.foldl_nil, EVTBLK.setP, writeAt]
    by_cases hjn : j = n
    · subst hjn; simp
    · have hne : ¬ (4 + j = 4 + n) := by omega
      simp only [hne, if_false]
      exact ih (by omega)

theorem alwayson_copyArgums_copied (this : AlwaysOn) (e e1 : EVTBLK)
    (h : AlwaysOn.copyArgums this e = some e1) (j : Nat) (hj : j < this.inputArgCnt) :
    some (e1.p (4 + j)) = this.argums j := by
  rw [alwayson_copyArgums_eq] at h
  split at h
  · rename_i hread
    simp only [Option.some.injEq] at h
    subst h
    rw [foldl_range_setP (fun i => (this.argums i).getD 0) this.inputArgCnt _ j hj]
    obtain ⟨v, hv⟩ := Option.isSome_iff_exists.mp (hread j hj)
    rw [hv]
    rfl
  · simp at h

theorem alwayson_fixedFields_values (this : AlwaysOn) :
    (AlwaysOn.fixedFields this).opcod = 'i' ∧
    (AlwaysOn.fixedFields this).p 2 = 0 ∧
    (AlwaysOn.fixedFields this).p2orig = 0 ∧
    (AlwaysOn.fixedFields this).p 3 = -1 ∧
    (AlwaysOn.fixedFields this).p3orig = -1 ∧
    (AlwaysOn.fixedFields this).p 1 =
      (if this.smask ≠ 0 then SSTRCOD else this.insdshead.p1) ∧
    (AlwaysOn.fixedFields this).strarg =
      (if this.smask ≠ 0 then this.Sinstrument else "") := by
  unfold AlwaysOn.fixedFields
  by_cases hs : this.smask = 0
  · simp [hs, EVTBLK.setP, writeAt]
  · simp [hs, EVTBLK.setP, writeAt]

theorem alwayson_init_returns_iff (insert_score_event : EVTBLK → MYFLT → Int)
    (this : AlwaysOn) :
    (AlwaysOn.init insert_score_event this).isSome = true ↔
      ∀ j, j < this.inputArgCnt → (this.argums j).isSome = true := by
  unfold AlwaysOn.init
  rw [alwayson_copyArgums_eq]
  by_cases h : ∀ j, j < this.inputArgCnt → (this.argums j).isSome = true
  · simp [h]
  · simp [h]

theorem alwayson_init_some (insert_score_event : EVTBLK → MYFLT → Int) (this : AlwaysOn)
    (r : AlwaysOnResult) (h : AlwaysOn.init insert_score_event this = some r) :
    ∃ evtblk, AlwaysOn.copyArgums this (AlwaysOn.fixedFields this) = some evtblk ∧
      r = { status := OK, this := { this with evtblk := evtblk },
            insertCalls := [(evtblk, 0)] } := by
  unfold AlwaysOn.init at h
  cases hc : AlwaysOn.copyArgums this (AlwaysOn.fixedFields this) with
  | none => rw [hc] at h; simp at h
  | some evtblk =>
    rw [hc] at h
    simp only [Option.map_some', Option.some.injEq] at h
    exact ⟨evtblk, rfl, h.symm⟩

/-- Claim C16, evaluated on the code: `alwayson "Reverb"` in zeroed opcode memory does
not return and inserts no event: with `n = GetInputArgCnt = 1` the copy loop reads
`*argums[0]`, a slot the caller did not supply, before `insert_score_event` is
reached. A call returns exactly when every slot `argums[j]`, `j < n`, can be read;
when it returns, it has invoked `insert_score_event` once, at the time 0, with a
record of type `'i'` whose `p[2]` and `p2orig` are 0 and whose `p[3]` and `p3orig` are
-1, as it does in memory whose slots can be read. -/
theorem alwayson_faults_on_zeroed_memory :
    (AlwaysOn.init (fun _ _ => 0) (newAlwaysOn "Master" 1 "Reverb" 1 [])).isNone = true
    ∧ (∀ (insert_score_event : EVTBLK → MYFLT → Int) (this : AlwaysOn),
        (AlwaysOn.init insert_score_event this).isSome = true ↔
          ∀ j, j < this.inputArgCnt → (this.argums j).isSome = true)
    ∧ (∀ (insert_score_event : EVTBLK → MYFLT → Int) (this : AlwaysOn)
        (r : AlwaysOnResult), AlwaysOn.init insert_score_event this = some r →
        ∃ evtblk : EVTBLK,
          r.insertCalls = [(evtblk, 0)] ∧ r.insertCalls.length = 1 ∧
          evtblk.opcod = 'i' ∧ evtblk.p 2 = 0 ∧ evtblk.p2orig = 0 ∧
          evtblk.p 3 = -1 ∧ evtblk.p3orig = -1)
    ∧ ((AlwaysOn.init (fun _ _ => 0)
        (newAlwaysOnReadable "Master" 1 "Reverb" 1 [] 0)).map
          (fun r => r.insertCalls.map (fun call => (call.1.opcod, call.1.p 2, call.1.p 3,
            call.2)))) = some [('i', 0, -1, 0)] := by
  refine ⟨by decide, ?_, ?_, by decide⟩
  · intro ins this
    exact alwayson_init_returns_iff ins this
  · intro ins this r h
    obtain ⟨evtblk, hc, rfl⟩ := alwayson_init_some ins this r h
    obtain ⟨h1, h2, h3, h4, h5, _, _⟩ := alwayson_fixedFields_values this
    obtain ⟨_, c2, _, c4, c5, c6⟩ :=
      alwayson_copyArgums_fields this (AlwaysOn.fixedFields this) evtblk hc
    refine ⟨evtblk, rfl, rfl, ?_, ?_, ?_, ?_, ?_⟩
    · rw [c2, h1]
    · rw [c6 2 (by norm_num), h2]
    · rw [c4, h3]
    · rw [c6 3 (by norm_num), h4]
    · rw [c5, h5]

/-- Claim C17, evaluated on the code: `alwayson "Reverb", 7, 9` in zeroed opcode memory
does not return, so no record is submitted: the copy loop runs `argumsI < 1 + m` and
reads the slot `argums[m]` after the `m` supplied ones. When a call with `m` extra
p-fields returns, its record has `p[4 + j] = *argums[j]` for every `j < m`, and
`p[1]`, `p[2]` and `p[3]` keep the values set before the copy, as for
`alwayson "Reverb", 7, 9` in memory whose slots can be read. -/
theorem alwayson_extra_fields_need_readable_slot :
    (AlwaysOn.init (fun _ _ => 0) (newAlwaysOn "Master" 1 "Reverb" 1 [7, 9])).isNone = true
    ∧ (newAlwaysOn "Master" 1 "Reverb" 1 [7, 9]).argums 2 = none
    ∧ (∀ (insert_score_event : EVTBLK → MYFLT → Int) (this : AlwaysOn) (m : Nat)
        (r : AlwaysOnResult), this.inputArgCnt = 1 + m →
        AlwaysOn.init insert_score_event this = some r →
        (∀ j, j < m → some (r.this.evtblk.p (4 + j)) = this.argums j)
        ∧ r.this.evtblk.p 1 = (AlwaysOn.fixedFields this).p 1
        ∧ r.this.evtblk.p 2 = 0
        ∧ r.this.evtblk.p 3 = -1
        ∧ r.insertCalls = [(r.this.evtblk, 0)])
    ∧ ((AlwaysOn.init (fun _ _ => 0)
        (newAlwaysOnReadable "Master" 1 "Reverb" 1 [7, 9] 0)).map
          (fun r => (r.this.evtblk.p 4, r.this.evtblk.p 5))) = some (7, 9) := by
  refine ⟨by decide, by decide, ?_, by decide⟩
  intro ins this m r hm h
  obtain ⟨evtblk, hc, rfl⟩ := alwayson_init_some ins this r h
  obtain ⟨_, h2, _, h4, _, _, _⟩ := alwayson_fixedFields_values this
  obtain ⟨_, _, _, _, _, c6⟩ :=
    alwayson_copyArgums_fields this (AlwaysOn.fixedFields this) evtblk hc
  refine ⟨?_, ?_, ?_, ?_, rfl⟩
  · intro j hj
    exact alwayson_copyArgums_copied this _ evtblk hc j (by omega)
  · exact c6 1 (by norm_num)
  · show evtblk.p 2 = 0
    rw [c6 2 (by norm_num), h2]
  · show evtblk.p 3 = -1
    rw [c6 3 (by norm_num), h4]

/-- Claim C20: after `SignalFlowGraph::init` for an engine, its six port registries
and its connection directory have no entry and its table cache is empty; an inlet
initialised afterwards binds nothing (its bound-bucket list is the one it had, empty
for a new inlet), and every table request with a valid key invokes the generation
collaborator. -/
theorem signalflowgraph_init_clears_engine (g : Globals) (csound : CSOUND) :
    (∀ I : String,
      (SignalFlowGraph.init g csound).2.aoutletsForCsoundsForSourceOutletIds csound I = none ∧
      (SignalFlowGraph.init g csound).2.koutletsForCsoundsForSourceOutletIds csound I = none ∧
      (SignalFlowGraph.init g csound).2.foutletsForCsoundsForSourceOutletIds csound I = none ∧
      (SignalFlowGraph.init g csound).2.ainletsForCsoundsForSinkInletIds csound I = none ∧
      (SignalFlowGraph.init g csound).2.kinletsForCsoundsForSinkInletIds csound I = none ∧
      (SignalFlowGraph.init g csound).2.finletsForCsoundsForSinkInletIds csound I = none ∧
      (SignalFlowGraph.init g csound).2.connectionsForCsounds csound I = none)
    ∧ (SignalFlowGraph.init g csound).2.functionTablesForCsoundsForEvtblks csound = []
    ∧ (∀ (GetKsmps : Nat) (fresh self : Ref) (this : Inleta),
        (Inleta.init (SignalFlowGraph.init g csound).2 csound GetKsmps fresh self
            this).2.2.sourceOutlets =
          if this.sourceOutletsPtr ∈ g.aoutletVectorsForCsounds csound then
            this.sourceOutlets
          else [])
    ∧ (∀ (GetKsmps : Nat) (fresh self : Ref) (this : Inletk),
        (Inletk.init (SignalFlowGraph.init g csound).2 csound GetKsmps fresh self
            this).2.2.sourceOutlets =
          if this.sourceOutletsPtr ∈ g.koutletVectorsForCsounds csound then
            this.sourceOutlets
          else [])
    ∧ (∀ (GetKsmps : Nat) (fresh self : Ref) (this : Inletf),
        (Inletf.init (SignalFlowGraph.init g csound).2 csound GetKsmps fresh self
            this).2.2.sourceOutlets =
          if this.sourceOutletsPtr ∈ g.foutletVectorsForCsounds csound then
            this.sourceOutlets
          else [])
    ∧ (∀ (hfgens : EVTBLK → Int × Option FUNC) (this : FtGenOnce) (k : EVTBLK),
        FtGenOnce.key this = some k →
        (FtGenOnce.init (SignalFlowGraph.init g csound).2 csound hfgens this).hfgensCalls
          = [k]) := by
  refine ⟨?_, ?_, ?_, ?_, ?_, ?_⟩
  · intro I
    simp [SignalFlowGraph.init, StdMap.clear]
  · simp [SignalFlowGraph.init]
  · intro GetKsmps fresh self this
    by_cases hr : this.sourceOutletsPtr ∈ g.aoutletVectorsForCsounds csound <;>
      simp [Inleta.init, SignalFlowGraph.init, hr, StdMap.assign, StdMap.value,
        StdMap.clear, bindSourceOutlets]
  · intro GetKsmps fresh self this
    by_cases hr : this.sourceOutletsPtr ∈ g.koutletVectorsForCsounds csound <;>
      simp [Inletk.init, SignalFlowGraph.init, hr, StdMap.assign, StdMap.value,
        StdMap.clear, bindSourceOutlets]
  · intro GetKsmps fresh self this
    by_cases hr : this.sourceOutletsPtr ∈ g.foutletVectorsForCsounds csound <;>
      simp [Inletf.init, SignalFlowGraph.init, hr, StdMap.assign, StdMap.value,
        StdMap.clear, bindSourceOutlets]
  · intro hfgens this k hk
    have hkey : FtGenOnce.key { this with ifno := 0 } = some k := hk
    unfold FtGenOnce.init
    simp only [hkey]
    have hf : findEvtblk
        ((SignalFlowGraph.init g csound).2.functionTablesForCsoundsForEvtblks csound) k
        = none := by
      simp only [SignalFlowGraph.init, setFor_same]
      rfl
    simp only [hf]
    split
    · rfl
    · split <;> rfl

/-- Witness of C20: a table is cached, the engine is cleared, and the same request
invokes the generation collaborator again. -/
theorem signalflowgraph_init_clears_engine_witness :
    (FtGenOnce.init
      (SignalFlowGraph.init
        (FtGenOnce.init Globals.initial 0 (fun _ => (0, some ⟨101⟩))
          ⟨0, 1, 0, 1024, 10, 1, "", [], 0⟩).g 0).2
      0 (fun _ => (0, some ⟨102⟩)) ⟨0, 1, 0, 1024, 10, 1, "", [], 0⟩).hfgensCalls =
      [FtGenOnce.copyArgums ⟨0, 1, 0, 1024, 10, 1, "", [], 0⟩
        ((FtGenOnce.fixedFields ⟨0, 1, 0, 1024, 10, 1, "", [], 0⟩).setP 5 1)] :=
  (signalflowgraph_init_clears_engine
    (FtGenOnce.init Globals.initial 0 (fun _ => (0, some ⟨101⟩))
      ⟨0, 1, 0, 1024, 10, 1, "", [], 0⟩).g 0).2.2.2.2.2
    (fun _ => (0, some ⟨102⟩)) ⟨0, 1, 0, 1024, 10, 1, "", [], 0⟩ _ rfl

/-! ## Engine isolation (C21) -/

theorem ftgenonce_init_frame (g : Globals) (csound : CSOUND)
    (hfgens : EVTBLK → Int × Option FUNC) (this : FtGenOnce) (e2 : CSOUND)
    (h : csound ≠ e2) :
    (FtGenOnce.init g csound hfgens this).g.aoutletsForCsoundsForSourceOutletIds =
        g.aoutletsForCsoundsForSourceOutletIds ∧
    (FtGenOnce.init g csound hfgens this).g.koutletsForCsoundsForSourceOutletIds =
        g.koutletsForCsoundsForSourceOutletIds ∧
    (FtGenOnce.init g csound hfgens this).g.foutletsForCsoundsForSourceOutletIds =
        g.foutletsForCsoundsForSourceOutletIds ∧
    (FtGenOnce.init g csound hfgens this).g.ainletsForCsoundsForSinkInletIds =
        g.ainletsForCsoundsForSinkInletIds ∧
    (FtGenOnce.init g csound hfgens this).g.kinletsForCsoundsForSinkInletIds =
        g.kinletsForCsoundsForSinkInletIds ∧
    (FtGenOnce.init g csound hfgens this).g.finletsForCsoundsForSinkInletIds =
        g.finletsForCsoundsForSinkInletIds ∧
    (FtGenOnce.init g csound hfgens this).g.connectionsForCsounds =
        g.connectionsForCsounds ∧
    (FtGenOnce.init g csound hfgens this).g.functionTablesForCsoundsForEvtblks e2 =
        g.functionTablesForCsoundsForEvtblks e2 ∧
    (FtGenOnce.init g csound hfgens this).g.aoutletVectorsForCsounds =
        g.aoutletVectorsForCsounds ∧
    (FtGenOnce.init g csound hfgens this).g.koutletVectorsForCsounds =
        g.koutletVectorsForCsounds ∧
    (FtGenOnce.init g csound hfgens this).g.foutletVectorsForCsounds =
        g.foutletVectorsForCsounds ∧
    (FtGenOnce.init g csound hfgens this).g.stdStringsForCsounds =
        g.stdStringsForCsounds := by
  have h' : e2 ≠ csound := fun e => h e.symm
  unfold FtGenOnce.init
  simp only
  split
  · simp
  · split
    · split
      · simp
      · split
        · simp [setFor, h']
        · simp
    · simp

/-- Claim C21: every call executed for an engine (`signalflowgraph`, the init of an
outlet or inlet of any rate, `connect`, `ftgenonce`, the module teardown) leaves the
registries, the connection directory, the table cache and the other globals of every
other engine unchanged. -/
theorem engine_isolation (g : Globals) (op : Op) (e2 : CSOUND) (h : op.engine ≠ e2) :
    (op.apply g).aoutletsForCsoundsForSourceOutletIds e2 =
        g.aoutletsForCsoundsForSourceOutletIds e2 ∧
    (op.apply g).koutletsForCsoundsForSourceOutletIds e2 =
        g.koutletsForCsoundsForSourceOutletIds e2 ∧
    (op.apply g).foutletsForCsoundsForSourceOutletIds e2 =
        g.foutletsForCsoundsForSourceOutletIds e2 ∧
    (op.apply g).ainletsForCsoundsForSinkInletIds e2 =
        g.ainletsForCsoundsForSinkInletIds e2 ∧
    (op.apply g).kinletsForCsoundsForSinkInletIds e2 =
        g.kinletsForCsoundsForSinkInletIds e2 ∧
    (op.apply g).finletsForCsoundsForSinkInletIds e2 =
        g.finletsForCsoundsForSinkInletIds e2 ∧
    (op.apply g).connectionsForCsounds e2 = g.connectionsForCsounds e2 ∧
    (op.apply g).functionTablesForCsoundsForEvtblks e2 =
        g.functionTablesForCsoundsForEvtblks e2 ∧
    (op.apply g).aoutletVectorsForCsounds e2 = g.aoutletVectorsForCsounds e2 ∧
    (op.apply g).koutletVectorsForCsounds e2 = g.koutletVectorsForCsounds e2 ∧
    (op.apply g).foutletVectorsForCsounds e2 = g.foutletVectorsForCsounds e2 ∧
    (op.apply g).stdStringsForCsounds e2 = g.stdStringsForCsounds e2 := by
  cases op with
  | signalflowgraph csound =>
    have h' : e2 ≠ csound := fun e => h e.symm
    simp [Op.apply, SignalFlowGraph.init, setFor, h']
  | moduleDestroy csound =>
    have h' : e2 ≠ csound := fun e => h e.symm
    simp [Op.apply, csoundModuleDestroy, setFor, h']
  | outleta csound self this =>
    have h' : e2 ≠ csound := fun e => h e.symm
    simp [Op.apply, Outleta.init, setFor, h']
  | outletk csound self this =>
    have h' : e2 ≠ csound := fun e => h e.symm
    simp [Op.apply, Outletk.init, setFor, h']
  | outletf csound self this =>
    have h' : e2 ≠ csound := fun e => h e.symm
    simp [Op.apply, Outletf.init, setFor, h']
  | inleta csound GetKsmps fresh self this =>
    have h' : e2 ≠ csound := fun e => h e.symm
    by_cases hr : this.sourceOutletsPtr ∈ g.aoutletVectorsForCsounds csound <;>
      simp [Op.apply, Inleta.init, setFor, h', hr]
  | inletk csound GetKsmps fresh self this =>
    have h' : e2 ≠ csound := fun e => h e.symm
    by_cases hr : this.sourceOutletsPtr ∈ g.koutletVectorsForCsounds csound <;>
      simp [Op.apply, Inletk.init, setFor, h', hr]
  | inletf csound GetKsmps fresh self this =>
    have h' : e2 ≠ csound := fun e => h e.symm
    by_cases hr : this.sourceOutletsPtr ∈ g.foutletVectorsForCsounds csound <;>
      simp [Op.apply, Inletf.init, setFor, h', hr]
  | connect csound this =>
    have h' : e2 ≠ csound := fun e => h e.symm
    simp [Op.apply, Connect.init, setFor, h']
  | ftgenonce csound hfgens this =>
    obtain ⟨h1, h2, h3, h4, h5, h6, h7, h8, h9, h10, h11, h12⟩ :=
      ftgenonce_init_frame g csound hfgens this e2 h
    simp only [Op.apply]
    rw [h1, h2, h3, h4, h5, h6, h7, h8, h9, h10, h11, h12]
    simp

/-- Witness of C21: `signalflowgraph` for engine 0 leaves the directory of engine 1. -/
theorem engine_isolation_witness :
    (Op.apply (Connect.init Globals.initial 1 ⟨"A", "out", "C", "in"⟩).2
      (Op.signalflowgraph 0)).connectionsForCsounds 1 =
      (Connect.init Globals.initial 1 ⟨"A", "out", "C", "in"⟩).2.connectionsForCsounds 1 :=
  (engine_isolation (Connect.init Globals.initial 1 ⟨"A", "out", "C", "in"⟩).2
    (Op.signalflowgraph 0) 1 (by decide)).2.2.2.2.2.2.1

/-! ## Canonical identifiers (C22, C23) -/

theorem portId_data (owner port : String) :
    (portId owner port).data = owner.data ++ ':' :: port.data := by
  simp [portId, String.data_append]

theorem append_cons_inj_of_not_mem {α : Type} (a : α) (l1 l2 r1 r2 : List α)
    (h1 : a ∉ l1) (h2 : a ∉ l2) (h : l1 ++ a :: r1 = l2 ++ a :: r2) :
    l1 = l2 ∧ r1 = r2 := by
  induction l1 generalizing l2 with
  | nil =>
    cases l2 with
    | nil => simpa using h
    | cons y ys =>
      simp at h
      exact absurd (h.1 ▸ List.mem_cons_self _ _) h2
  | cons x xs ih =>
    cases l2 with
    | nil =>
      simp at h
      exact absurd (h.1 ▸ List.mem_cons_self _ _) h1
    | cons y ys =>
      simp only [List.cons_append, List.cons.injEq] at h
      have hx : a ∉ xs := fun hm => h1 (List.mem_cons_of_mem _ hm)
      have hy : a ∉ ys := fun hm => h2 (List.mem_cons_of_mem _ hm)
      obtain ⟨e1, e2⟩ := ih ys hx hy h.2
      exact ⟨by rw [h.1, e1], e2⟩

/-- Claim C22 as stated fails on the code: the owner `a:b` with the port `c` and the
owner `a` with the port `b:c` give the same identifier. -/
theorem identifiers_collide_on_colons :
    portId "a:b" "c" = portId "a" "b:c" ∧ ("a:b" : String) ≠ "a" := by
  decide

/-- Claim C22, amended: for owner names without a colon (as the names of instrument
templates are), and any port names, the identifier of `(o1, p1)` equals the identifier
of `(o2, p2)` if and only if `o1 = o2` and `p1 = p2`. -/
theorem identifier_unique_without_colon (o1 o2 p1 p2 : String)
    (h1 : ':' ∉ o1.data) (h2 : ':' ∉ o2.data) :
    portId o1 p1 = portId o2 p2 ↔ (o1 = o2 ∧ p1 = p2) := by
  constructor
  · intro h
    have hd : o1.data ++ ':' :: p1.data = o2.data ++ ':' :: p2.data := by
      rw [← portId_data, ← portId_data, h]
    obtain ⟨e1, e2⟩ := append_cons_inj_of_not_mem ':' _ _ _ _ h1 h2 hd
    exact ⟨String.ext e1, String.ext e2⟩
  · rintro ⟨e1, e2⟩
    rw [e1, e2]

/-- Witness of the amended C22: `Reverb:out` and `Reverb:in` are different, although
a port name with a colon is allowed. -/
theorem identifier_unique_without_colon_witness :
    portId "Reverb" "out" ≠ portId "Reverb" "in:1" :=
  fun h =>
    absurd ((identifier_unique_without_colon "Reverb" "Reverb" "out" "in:1" (by decide)
      (by decide)).mp h).2 (by decide)

/-- Claim C23: for different instrument names and the same port name the identifiers
are different, identical owner and port give the identical identifier, and an
`outletk` of one instrument never changes the bucket of the same port name of another
instrument. -/
theorem same_port_in_two_instruments (o1 o2 p : String) :
    (o1 ≠ o2 → portId o1 p ≠ portId o2 p)
    ∧ (∀ q1 q2 : String, o1 = o2 → q1 = q2 → portId o1 q1 = portId o2 q2)
    ∧ (o1 ≠ o2 → ∀ (g : Globals) (csound : CSOUND) (self : Ref) (this : Outletk),
        this.insdshead.insname = o1 → this.Sname = p →
        (Outletk.init g csound self this).2.1.bucket Rate.k csound (portId o2 p) =
          g.bucket Rate.k csound (portId o2 p)) := by
  have hne : o1 ≠ o2 → portId o1 p ≠ portId o2 p := by
    intro hne h
    apply hne
    have hd : o1.data ++ ':' :: p.data = o2.data ++ ':' :: p.data := by
      rw [← portId_data, ← portId_data, h]
    exact String.ext (List.append_cancel_right hd)
  refine ⟨hne, ?_, ?_⟩
  · intro q1 q2 ho hq
    rw [ho, hq]
  · intro h g csound self this hi hs
    rw [outletk_init_bucket]
    have : ¬ (portId this.insdshead.insname this.Sname = portId o2 p) := by
      rw [hi, hs]; exact hne h
    simp [this]

/-- Witness of C23: the port `out` of the instruments `A` and `B`. -/
theorem same_port_in_two_instruments_witness :
    portId "A" "out" ≠ portId "B" "out" :=
  (same_port_in_two_instruments "A" "B" "out").1 (by decide)

/-! ## Frame-rate aggregation (C24, C25, C26) -/

theorem lazyInit_fails_iff (sizeofMYFLT : Nat) (AuxAlloc : Int → AUXCH → AUXCH)
    (source : PVSDAT) (this : Inletf) :
    ((Inletf.lazyInit sizeofMYFLT AuxAlloc source this).2 = true ↔
      source.format ≠ PVS_AMP_FREQ) ∧
    ((Inletf.lazyInit sizeofMYFLT AuxAlloc source this).1.fsignalInitialized = true ↔
      (this.fsignalInitialized = true ∨ source.format = PVS_AMP_FREQ)) := by
  have hne : ¬ PVS_AMP_FREQ = PVS_AMP_PHASE := by decide
  by_cases hc : ¬ (source.format = PVS_AMP_FREQ) ∨ source.format = PVS_AMP_PHASE
  · have hf : source.format ≠ PVS_AMP_FREQ := by
      rcases hc with h | h
      · exact h
      · rw [h]; exact fun h' => hne h'.symm
    simp only [Inletf.lazyInit, hc, if_true]
    simp [hf]
  · have hf : source.format = PVS_AMP_FREQ := by
      by_contra h
      exact hc (Or.inl h)
    simp only [Inletf.lazyInit, hc, if_false]
    simp [hf]

theorem visit_initialised_next (sizeofMYFLT : Nat) (AuxAlloc : Int → AUXCH → AUXCH)
    (mem : Ref → Outletf) (this : Inletf) (r : Ref)
    (hi : this.fsignalInitialized = true) (mem1 : Ref → Outletf) (this1 : Inletf)
    (h : Inletf.visit sizeofMYFLT AuxAlloc mem this r = AudioStep.next mem1 this1) :
    this1.fsignalInitialized = true := by
  unfold Inletf.visit at h
  simp only [hi, if_true] at h
  repeat' split at h
  all_goals first
    | (simp at h; done)
    | (simp only [AudioStep.next.injEq] at h
       obtain ⟨_, rfl⟩ := h
       simp [hi])

theorem visit_initialised_not_returned (sizeofMYFLT : Nat) (AuxAlloc : Int → AUXCH → AUXCH)
    (mem : Ref → Outletf) (this : Inletf) (r : Ref)
    (hi : this.fsignalInitialized = true) (s : Int) (m : Ref → Outletf) (t : Inletf) :
    Inletf.visit sizeofMYFLT AuxAlloc mem this r ≠
      AudioStep.stop (AudioOutcome.returned s m t) := by
  intro h
  unfold Inletf.visit at h
  simp only [hi, if_true] at h
  repeat' split at h
  all_goals first
    | (simp at h; done)
    | (exfalso; simp_all)

/-- Claim C24, evaluated on the code: a new `inletf` bound to `A:out`, whose one outlet
is active and has the format `PVS_AMP_PHASE`, returns the initialization error from
its audio cycle and is not marked initialised, while the same outlet with the format
`PVS_AMP_FREQ` gives `OK`. The test reads
`!(format == PVS_AMP_FREQ) || (format == PVS_AMP_PHASE)`: the lazy initialisation
fails exactly when the format is not `PVS_AMP_FREQ`. -/
theorem amp_phase_source_is_rejected :
    (Inletf.audio (Outletf.init Globals.initial 0 1
        (newOutletf "A" "out" 1 (framesOf 0 PVS_AMP_PHASE 1 (fun _ => 0)))).2.1 0 8
      zeroAlloc (fun _ => newOutletf "A" "out" 1 (framesOf 0 PVS_AMP_PHASE 1 (fun _ => 0)))
      { newInletf "C" "in" with sourceOutlets := ["A:out"] }).status = some NOTOK
    ∧ ((Inletf.audio (Outletf.init Globals.initial 0 1
        (newOutletf "A" "out" 1 (framesOf 0 PVS_AMP_PHASE 1 (fun _ => 0)))).2.1 0 8
      zeroAlloc (fun _ => newOutletf "A" "out" 1 (framesOf 0 PVS_AMP_PHASE 1 (fun _ => 0)))
      { newInletf "C" "in" with sourceOutlets := ["A:out"] }).inlet.map
        (fun this => this.fsignalInitialized)) = some false
    ∧ (Inletf.audio (Outletf.init Globals.initial 0 1
        (newOutletf "A" "out" 1 (framesOf 0 PVS_AMP_FREQ 1 (fun _ => 0)))).2.1 0 8
      zeroAlloc (fun _ => newOutletf "A" "out" 1 (framesOf 0 PVS_AMP_FREQ 1 (fun _ => 0)))
      { newInletf "C" "in" with sourceOutlets := ["A:out"] }).status = some OK
    ∧ (∀ (sizeofMYFLT : Nat) (AuxAlloc : Int → AUXCH → AUXCH) (source : PVSDAT)
        (this : Inletf),
        (Inletf.lazyInit sizeofMYFLT AuxAlloc source this).2 = true ↔
          source.format ≠ PVS_AMP_FREQ) := by
  refine ⟨by decide, by decide, by decide, ?_⟩
  intro sizeofMYFLT AuxAlloc source this
  exact (lazyInit_fails_iff sizeofMYFLT AuxAlloc source this).1

/-- Claim C25, evaluated on the code (build without `OLPC`): an initialised,
non-sliding `inletf` with `N = 0`, sink bins `(1, 1)`, frame counter 1 and last-merged
counter 0, bound to `A:out` whose one outlet has the bins `(5, 5)` and the frame
counter 2. With the outlet active the sink bins stay `(1, 1)`, not `(5, 5)`: the block
after `else` belongs to `if (actflg)`. With the outlet inactive that block runs, the
sink bins stay `(1, 1)` and the bins of the outlet become `(1, 1)`: the assignments are
`source[binI] = sink[binI]`. -/
theorem active_source_is_not_merged :
    ((Inletf.audio (Outletf.init Globals.initial 0 1
        (newOutletf "A" "out" 1 (framesOf 0 PVS_AMP_FREQ 2 (fun _ => 5)))).2.1 0 8 zeroAlloc
      (fun _ => newOutletf "A" "out" 1 (framesOf 0 PVS_AMP_FREQ 2 (fun _ => 5)))
      (boundInletf ["A:out"] (framesOf 0 PVS_AMP_FREQ 1 (fun _ => 1)) 0)).inlet.map
        (fun this => (this.fsignal.bin 0, this.fsignal.bin 1))) = some (some 1, some 1)
    ∧ ((Inletf.audio (Outletf.init Globals.initial 0 1
        (newOutletf "A" "out" 0 (framesOf 0 PVS_AMP_FREQ 2 (fun _ => 5)))).2.1 0 8 zeroAlloc
      (fun _ => newOutletf "A" "out" 0 (framesOf 0 PVS_AMP_FREQ 2 (fun _ => 5)))
      (boundInletf ["A:out"] (framesOf 0 PVS_AMP_FREQ 1 (fun _ => 1)) 0)).inlet.map
        (fun this => (this.fsignal.bin 0, this.fsignal.bin 1))) = some (some 1, some 1)
    ∧ ((Inletf.audio (Outletf.init Globals.initial 0 1
        (newOutletf "A" "out" 0 (framesOf 0 PVS_AMP_FREQ 2 (fun _ => 5)))).2.1 0 8 zeroAlloc
      (fun _ => newOutletf "A" "out" 0 (framesOf 0 PVS_AMP_FREQ 2 (fun _ => 5)))
      (boundInletf ["A:out"] (framesOf 0 PVS_AMP_FREQ 1 (fun _ => 1)) 0)).outlet 1).map
        (fun o => (o.fsignal.bin 0, o.fsignal.bin 1)) = some (some 1, some 1) := by
  decide

theorem touch_entry {α : Type} (m : StdMap (List α)) (k I : String) :
    m.touch k I = m I ∨ (m I = none ∧ m.touch k I = some []) := by
  unfold StdMap.touch StdMap.value
  by_cases h : I = k
  · subst h
    cases hm : m I with
    | none => right; simp
    | some v => left; simp
  · left; simp [h]

theorem bindSourceOutlets_entry (ids : List String) (outlets : StdMap (List Ref))
    (so : List String) (I : String) :
    (bindSourceOutlets outlets so ids).1 I = outlets I ∨
      (outlets I = none ∧ (bindSourceOutlets outlets so ids).1 I = some []) := by
  unfold bindSourceOutlets
  induction ids generalizing outlets so with
  | nil => left; rfl
  | cons id rest ih =>
    simp only [List.foldl_cons]
    rcases ih (outlets.touch id) (pushBackIfPresent so id) with h | ⟨h1, h2⟩
    · rcases touch_entry outlets id I with h' | ⟨h1', h2'⟩
      · left; rw [h, h']
      · right; exact ⟨h1', by rw [h, h2']⟩
    · rcases touch_entry outlets id I with h' | ⟨h1', h2'⟩
      · right; exact ⟨by rw [← h', h1], h2⟩
      · right; exact ⟨h1', h2⟩

/-- Claim C27: the init of an outlet of one rate class leaves the outlet and inlet
registries of the other two rate classes unchanged; so does the init of an inlet,
which in the outlet registry of its own rate class changes an entry only by creating
an empty bucket where there was none. -/
theorem rate_classes_are_independent :
    (∀ (g : Globals) (csound : CSOUND) (self : Ref) (this : Outleta),
      (Outleta.init g csound self this).2.1.koutletsForCsoundsForSourceOutletIds =
          g.koutletsForCsoundsForSourceOutletIds ∧
      (Outleta.init g csound self this).2.1.foutletsForCsoundsForSourceOutletIds =
          g.foutletsForCsoundsForSourceOutletIds ∧
      (Outleta.init g csound self this).2.1.kinletsForCsoundsForSinkInletIds =
          g.kinletsForCsoundsForSinkInletIds ∧
      (Outleta.init g csound self this).2.1.finletsForCsoundsForSinkInletIds =
          g.finletsForCsoundsForSinkInletIds)
    ∧ (∀ (g : Globals) (csound : CSOUND) (self : Ref) (this : Outletk),
      (Outletk.init g csound self this).2.1.aoutletsForCsoundsForSourceOutletIds =
          g.aoutletsForCsoundsForSourceOutletIds ∧
      (Outletk.init g csound self this).2.1.foutletsForCsoundsForSourceOutletIds =
          g.foutletsForCsoundsForSourceOutletIds ∧
      (Outletk.init g csound self this).2.1.ainletsForCsoundsForSinkInletIds =
          g.ainletsForCsoundsForSinkInletIds ∧
      (Outletk.init g csound self this).2.1.finletsForCsoundsForSinkInletIds =
          g.finletsForCsoundsForSinkInletIds)
    ∧ (∀ (g : Globals) (csound : CSOUND) (self : Ref) (this : Outletf),
      (Outletf.init g csound self this).2.1.aoutletsForCsoundsForSourceOutletIds =
          g.aoutletsForCsoundsForSourceOutletIds ∧
      (Outletf.init g csound self this).2.1.koutletsForCsoundsForSourceOutletIds =
          g.koutletsForCsoundsForSourceOutletIds ∧
      (Outletf.init g csound self this).2.1.ainletsForCsoundsForSinkInletIds =
          g.ainletsForCsoundsForSinkInletIds ∧
      (Outletf.init g csound self this).2.1.kinletsForCsoundsForSinkInletIds =
          g.kinletsForCsoundsForSinkInletIds)
    ∧ (∀ (g : Globals) (csound : CSOUND) (GetKsmps : Nat) (fresh self : Ref)
        (this : Inleta),
      (Inleta.init g csound GetKsmps fresh self this).2.1.koutletsForCsoundsForSourceOutletIds
          = g.koutletsForCsoundsForSourceOutletIds ∧
      (Inleta.init g csound GetKsmps fresh self this).2.1.foutletsForCsoundsForSourceOutletIds
          = g.foutletsForCsoundsForSourceOutletIds ∧
      (Inleta.init g csound GetKsmps fresh self this).2.1.kinletsForCsoundsForSinkInletIds
          = g.kinletsForCsoundsForSinkInletIds ∧
      (Inleta.init g csound GetKsmps fresh self this).2.1.finletsForCsoundsForSinkInletIds
          = g.finletsForCsoundsForSinkInletIds ∧
      (∀ (c : CSOUND) (I : String),
        (Inleta.init g csound GetKsmps fresh self
            this).2.1.aoutletsForCsoundsForSourceOutletIds c I =
          g.aoutletsForCsoundsForSourceOutletIds c I ∨
        (g.aoutletsForCsoundsForSourceOutletIds c I = none ∧
          (Inleta.init g csound GetKsmps fresh self
            this).2.1.aoutletsForCsoundsForSourceOutletIds c I = some [])))
    ∧ (∀ (g : Globals) (csound : CSOUND) (GetKsmps : Nat) (fresh self : Ref)
        (this : Inletk),
      (Inletk.init g csound GetKsmps fresh self this).2.1.aoutletsForCsoundsForSourceOutletIds
          = g.aoutletsForCsoundsForSourceOutletIds ∧
      (Inletk.init g csound GetKsmps fresh self this).2.1.foutletsForCsoundsForSourceOutletIds
          = g.foutletsForCsoundsForSourceOutletIds ∧
      (Inletk.init g csound GetKsmps fresh self this).2.1.ainletsForCsoundsForSinkInletIds
          = g.ainletsForCsoundsForSinkInletIds ∧
      (Inletk.init g csound GetKsmps fresh self this).2.1.finletsForCsoundsForSinkInletIds
          = g.finletsForCsoundsForSinkInletIds ∧
      (∀ (c : CSOUND) (I : String),
        (Inletk.init g csound GetKsmps fresh self
            this).2.1.koutletsForCsoundsForSourceOutletIds c I =
          g.koutletsForCsoundsForSourceOutletIds c I ∨
        (g.koutletsForCsoundsForSourceOutletIds c I = none ∧
          (Inletk.init g csound GetKsmps fresh self
            this).2.1.koutletsForCsoundsForSourceOutletIds c I = some [])))
    ∧ (∀ (g : Globals) (csound : CSOUND) (GetKsmps : Nat) (fresh self : Ref)
        (this : Inletf),
      (Inletf.init g csound GetKsmps fresh self this).2.1.aoutletsForCsoundsForSourceOutletIds
          = g.aoutletsForCsoundsForSourceOutletIds ∧
      (Inletf.init g csound GetKsmps fresh self this).2.1.koutletsForCsoundsForSourceOutletIds
          = g.koutletsForCsoundsForSourceOutletIds ∧
      (Inletf.init g csound GetKsmps fresh self this).2.1.ainletsForCsoundsForSinkInletIds
          = g.ainletsForCsoundsForSinkInletIds ∧
      (Inletf.init g csound GetKsmps fresh self this).2.1.kinletsForCsoundsForSinkInletIds
          = g.kinletsForCsoundsForSinkInletIds ∧
      (∀ (c : CSOUND) (I : String),
        (Inletf.init g csound GetKsmps fresh self
            this).2.1.foutletsForCsoundsForSourceOutletIds c I =
          g.foutletsForCsoundsForSourceOutletIds c I ∨
        (g.foutletsForCsoundsForSourceOutletIds c I = none ∧
          (Inletf.init g csound GetKsmps fresh self
            this).2.1.foutletsForCsoundsForSourceOutletIds c I = some []))) := by
  refine ⟨?_, ?_, ?_, ?_, ?_, ?_⟩
  · intro g csound self this; exact ⟨rfl, rfl, rfl, rfl⟩
  · intro g csound self this; exact ⟨rfl, rfl, rfl, rfl⟩
  · intro g csound self this; exact ⟨rfl, rfl, rfl, rfl⟩
  · intro g csound GetKsmps fresh self this
    refine ⟨?_, ?_, ?_, ?_, ?_⟩
    · simp only [Inleta.init]; split <;> rfl
    · simp only [Inleta.init]; split <;> rfl
    · simp only [Inleta.init]; split <;> rfl
    · simp only [Inleta.init]; split <;> rfl
    · intro c I
      by_cases hr : this.sourceOutletsPtr ∈ g.aoutletVectorsForCsounds csound <;>
        simp only [Inleta.init, hr, if_true, if_false, not_false_eq_true,
          not_true_eq_false] <;>
        by_cases hc : c = csound
      · subst hc; simp only [setFor_same]; exact bindSourceOutlets_entry _ _ _ _
      · left; simp [setFor, hc]
      · subst hc; simp only [setFor_same]; exact bindSourceOutlets_entry _ _ _ _
      · left; simp [setFor, hc]
  · intro g csound GetKsmps fresh self this
    refine ⟨?_, ?_, ?_, ?_, ?_⟩
    · simp only [Inletk.init]; split <;> rfl
    · simp only [Inletk.init]; split <;> rfl
    · simp only [Inletk.init]; split <;> rfl
    · simp only [Inletk.init]; split <;> rfl
    · intro c I
      by_cases hr : this.sourceOutletsPtr ∈ g.koutletVectorsForCsounds csound <;>
        simp only [Inletk.init, hr, if_true, if_false, not_false_eq_true,
          not_true_eq_false] <;>
        by_cases hc : c = csound
      · subst hc; simp only [setFor_same]; exact bindSourceOutlets_entry _ _ _ _
      · left; simp [setFor, hc]
      · subst hc; simp only [setFor_same]; exact bindSourceOutlets_entry _ _ _ _
      · left; simp [setFor, hc]
  · intro g csound GetKsmps fresh self this
    refine ⟨?_, ?_, ?_, ?_, ?_⟩
    · simp only [Inletf.init]; split <;> rfl
    · simp only [Inletf.init]; split <;> rfl
    · simp only [Inletf.init]; split <;> rfl
    · simp only [Inletf.init]; split <;> rfl
    · intro c I
      by_cases hr : this.sourceOutletsPtr ∈ g.foutletVectorsForCsounds csound <;>
        simp only [Inletf.init, hr, if_true, if_false, not_false_eq_true,
          not_true_eq_false] <;>
        by_cases hc : c = csound
      · subst hc; simp only [setFor_same]; exact bindSourceOutlets_entry _ _ _ _
      · left; simp [setFor, hc]
      · subst hc; simp only [setFor_same]; exact bindSourceOutlets_entry _ _ _ _
      · left; simp [setFor, hc]

/-! ## Bound-bucket lists (C28) -/

/-- Claim C28, evaluated on the code: an `inletk` whose vector is registered and holds
the bucket `A:out` once, initialised while the directory declares `A:out` for its
identifier, ends with the bucket bound twice: the test before `push_back` is
`!= end()`, so exactly the buckets that are already bound are pushed again. -/
theorem reinit_duplicates_bound_bucket :
    (Inletk.init
      { (Connect.init Globals.initial 0 ⟨"A", "out", "C", "in"⟩).2 with
        koutletVectorsForCsounds := fun _ => [5] }
      0 4 100 1
      { newInletk "C" "in" with sourceOutlets := ["A:out"], sourceOutletsPtr := 5 }
      ).2.2.sourceOutlets = ["A:out", "A:out"]
    ∧ (["A:out"] : List String).Nodup
    ∧ ¬ (["A:out", "A:out"] : List String).Nodup := by
  decide

/-! ## Order of summation (C29) -/

theorem boundInstances_perm (outlets outlets' : StdMap (List Ref)) (l l' : List String)
    (hl : l.Perm l') (hb : ∀ I, (outlets.value I).Perm (outlets'.value I)) :
    (boundInstances outlets l).Perm (boundInstances outlets' l') := by
  unfold boundInstances
  exact (List.Perm.flatMap_right _ hl).trans (List.Perm.flatMap_left l' (fun I _ => hb I))

theorem activeSumK_perm (mem : Ref → Outletk) (xs ys : List Ref) (h : xs.Perm ys) :
    activeSumK mem xs = activeSumK mem ys := by
  unfold activeSumK
  exact ((h.filter _).map _).sum_eq

theorem activeSumA_perm (mem : Ref → Outleta) (xs ys : List Ref) (j : Nat)
    (h : xs.Perm ys) : activeSumA mem xs j = activeSumA mem ys j := by
  unfold activeSumA
  exact ((h.filter _).map _).sum_eq

theorem kontrol_value (g : Globals) (csound : CSOUND) (mem : Ref → Outletk)
    (this : Inletk) :
    (Inletk.kontrol g csound mem this).2.ksignal =
      activeSumK mem
        (boundInstances (g.koutletsForCsoundsForSourceOutletIds csound)
          this.sourceOutlets) := by
  simp only [Inletk.kontrol]
  rw [kontrol_buckets]
  simp

theorem audio_value (g : Globals) (csound : CSOUND) (mem : Ref → Outleta)
    (this : Inleta) (j : Nat) (hj : j < this.ksmps) :
    (Inleta.audio g csound mem this).2.asignal j =
      activeSumA mem
        (boundInstances (g.aoutletsForCsoundsForSourceOutletIds csound)
          this.sourceOutlets) j := by
  simp only [Inleta.audio]
  rw [audio_buckets this.ksmps mem _ _ _ j hj, writeLoop_zero]
  simp [hj]

/-- Claim C29: permuting the bound-bucket list of an inlet, or permuting the outlet
references inside the buckets of the registry, does not change the sink value of
`Inletk::kontrol` nor any sample `j < ksmps` of the sink buffer of `Inleta::audio`. -/
theorem summation_is_order_independent :
    (∀ (g g' : Globals) (csound : CSOUND) (mem : Ref → Outletk) (this : Inletk)
        (permuted : List String),
      this.sourceOutlets.Perm permuted →
      (∀ I, (g.bucket Rate.k csound I).Perm (g'.bucket Rate.k csound I)) →
      (Inletk.kontrol g' csound mem { this with sourceOutlets := permuted }).2.ksignal =
        (Inletk.kontrol g csound mem this).2.ksignal)
    ∧ (∀ (g g' : Globals) (csound : CSOUND) (mem : Ref → Outleta) (this : Inleta)
        (permuted : List String),
      this.sourceOutlets.Perm permuted →
      (∀ I, (g.bucket Rate.a csound I).Perm (g'.bucket Rate.a csound I)) →
      ∀ j, j < this.ksmps →
        (Inleta.audio g' csound mem { this with sourceOutlets := permuted }).2.asignal j =
          (Inleta.audio g csound mem this).2.asignal j) := by
  constructor
  · intro g g' csound mem this permuted hl hb
    rw [kontrol_value, kontrol_value]
    exact (activeSumK_perm mem _ _ (boundInstances_perm _ _ _ _ hl hb)).symm
  · intro g g' csound mem this permuted hl hb j hj
    rw [audio_value g csound mem this j hj,
      audio_value g' csound mem { this with sourceOutlets := permuted } j hj]
    exact (activeSumA_perm mem _ _ j (boundInstances_perm _ _ _ _ hl hb)).symm

/-- Witness of C29: the bound buckets `A:out` and `B:out` in the two orders. -/
theorem summation_is_order_independent_witness :
    (Inletk.kontrol
      (Outletk.init (Outletk.init Globals.initial 0 1 (newOutletk "A" "out" 2)).2.1 0 2
        (newOutletk "B" "out" 3)).2.1 0
      (fun r => if r = 1 then newOutletk "A" "out" 2 else newOutletk "B" "out" 3)
      { { newInletk "C" "in" with sourceOutlets := ["A:out", "B:out"] } with
        sourceOutlets := ["B:out", "A:out"] }).2.ksignal =
    (Inletk.kontrol
      (Outletk.init (Outletk.init Globals.initial 0 1 (newOutletk "A" "out" 2)).2.1 0 2
        (newOutletk "B" "out" 3)).2.1 0
      (fun r => if r = 1 then newOutletk "A" "out" 2 else newOutletk "B" "out" 3)
      { newInletk "C" "in" with sourceOutlets := ["A:out", "B:out"] }).2.ksignal :=
  summation_is_order_independent.1
    (Outletk.init (Outletk.init Globals.initial 0 1 (newOutletk "A" "out" 2)).2.1 0 2
      (newOutletk "B" "out" 3)).2.1
    (Outletk.init (Outletk.init Globals.initial 0 1 (newOutletk "A" "out" 2)).2.1 0 2
      (newOutletk "B" "out" 3)).2.1 0
    (fun r => if r = 1 then newOutletk "A" "out" 2 else newOutletk "B" "out" 3)
    { newInletk "C" "in" with sourceOutlets := ["A:out", "B:out"] }
    ["B:out", "A:out"] (by decide) (fun _ => List.Perm.refl _)

/-! ## Order of request keys by count (C30) -/

/-- Claim C30: for keys `a` and `b` with the same `opcod` whose fields `p[i]` agree
for every `i < min(a.pcnt, b.pcnt)`, and whose string arguments agree where a compared
field carries `SSTRCOD` in both, `a < b` holds if and only if `a.pcnt < b.pcnt`. -/
theorem shorter_key_orders_first (a b : EVTBLK) (hop : a.opcod = b.opcod)
    (hf : ∀ i, i < min a.pcnt b.pcnt → a.p i = b.p i)
    (hs : ∀ i, i < min a.pcnt b.pcnt → a.p i = SSTRCOD → b.p i = SSTRCOD →
      a.strarg = b.strarg) :
    EVTBLK.lt a b = true ↔ a.pcnt < b.pcnt := by
  have hloop : EVTBLK.ltLoop a b (min a.pcnt b.pcnt) 0 = none := by
    apply ltLoop_none_of_agree
    intro j _ hj
    have hj' : j < min a.pcnt b.pcnt := by simpa using hj
    exact ⟨hf j hj', fun h => hs j hj' h ((hf j hj') ▸ h)⟩
  unfold EVTBLK.lt
  rw [hloop, hop]
  simp

/-- Witness of C30: two keys of type `'f'` with the counts 6 and 7 that agree in the
six compared fields, `p[4] = 1` and the string marker in `p[5]` with the same string
among them, and differ in `p[6]`: the shorter is ordered before the longer, and the
longer is not ordered before the shorter. -/
theorem shorter_key_orders_first_witness :
    (EVTBLK.lt
        { (EVTBLK.zero.setP 4 1).setP 5 SSTRCOD with
          opcod := 'f', pcnt := 6, strarg := "snd.wav" }
        { ((EVTBLK.zero.setP 4 1).setP 5 SSTRCOD).setP 6 3 with
          opcod := 'f', pcnt := 7, strarg := "snd.wav" } = true ↔ (6 : Nat) < 7)
    ∧ (EVTBLK.lt
        { ((EVTBLK.zero.setP 4 1).setP 5 SSTRCOD).setP 6 3 with
          opcod := 'f', pcnt := 7, strarg := "snd.wav" }
        { (EVTBLK.zero.setP 4 1).setP 5 SSTRCOD with
          opcod := 'f', pcnt := 6, strarg := "snd.wav" } = true ↔ (7 : Nat) < 6) :=
  ⟨shorter_key_orders_first
      { (EVTBLK.zero.setP 4 1).setP 5 SSTRCOD with
        opcod := 'f', pcnt := 6, strarg := "snd.wav" }
      { ((EVTBLK.zero.setP 4 1).setP 5 SSTRCOD).setP 6 3 with
        opcod := 'f', pcnt := 7, strarg := "snd.wav" }
      rfl (by decide) (by decide),
   shorter_key_orders_first
      { ((EVTBLK.zero.setP 4 1).setP 5 SSTRCOD).setP 6 3 with
        opcod := 'f', pcnt := 7, strarg := "snd.wav" }
      { (EVTBLK.zero.setP 4 1).setP 5 SSTRCOD with
        opcod := 'f', pcnt := 6, strarg := "snd.wav" }
      rfl (by decide) (by decide)⟩

/-! ## The comparator as an order (C31) -/

/-- Claim C31, evaluated on the code: for the keys of the requests
`ftgenonce 0, 0, 1024, 10, 1, 0` (`a`), `ftgenonce 0, 0, 1024, 9, 2, 0` (`b`) and
`ftgenonce 0, 0, 1024, 10, 0, 0` (`c`) the comparator answers `a < b` and `b < a`
(no asymmetry), and `a < b`, `b < c` but not `a < c` (no transitivity): the loop of
`operator<` returns on `a.p[i] < b.p[i]` and goes on to the next field on
`a.p[i] > b.p[i]`. -/
theorem comparator_is_not_a_strict_order :
    FtGenOnce.keyLt ⟨0, 0, 0, 1024, 10, 1, "", [0], 0⟩ ⟨0, 0, 0, 1024, 9, 2, "", [0], 0⟩
      = some true
    ∧ FtGenOnce.keyLt ⟨0, 0, 0, 1024, 9, 2, "", [0], 0⟩ ⟨0, 0, 0, 1024, 10, 1, "", [0], 0⟩
      = some true
    ∧ FtGenOnce.keyLt ⟨0, 0, 0, 1024, 9, 2, "", [0], 0⟩ ⟨0, 0, 0, 1024, 10, 0, "", [0], 0⟩
      = some true
    ∧ FtGenOnce.keyLt ⟨0, 0, 0, 1024, 10, 1, "", [0], 0⟩ ⟨0, 0, 0, 1024, 10, 0, "", [0], 0⟩
      = some false := by
  decide

/-! ## The variadic arguments in the request key (C32) -/

theorem foldl_range'_setP (val : Nat → MYFLT) (s n : Nat) (e : EVTBLK) (k : Nat)
    (h1 : s ≤ k) (h2 : k < s + n) :
    ((List.range' s n).foldl (fun evtblk i => evtblk.setP i (val i)) e).p k = val k := by
  induction n generalizing s e with
  | zero => omega
  | succ n ih =>
    rw [List.range'_succ, List.foldl_cons]
    by_cases hk : k = s
    · subst hk
      rw [foldl_setP_untouched (List.range' (k + 1) n) (fun i => i) val]
      · simp [EVTBLK.setP, writeAt]
      · intro i hi
        simp only [List.mem_range'_1] at hi
        omega
    · exact ih (s + 1) _ (by omega) (by omega)

theorem ftgenonce_copyArgums_shifted (this : FtGenOnce) (e : EVTBLK) (j : Nat)
    (hj : j + 1 < this.argums.length) :
    (FtGenOnce.copyArgums this e).p (6 + j) = this.argums.getD (j + 1) 0 := by
  unfold FtGenOnce.copyArgums
  simp only
  rw [foldl_range'_setP (fun pfieldI => this.argums.getD (pfieldI - 5) 0) 6
    (5 + this.argums.length - 6) _ (6 + j) (by omega) (by omega)]
  have : 6 + j - 5 = j + 1 := by omega
  simp only [this]

theorem ftgenonce_copyArgums_last (this : FtGenOnce) (e : EVTBLK) :
    (FtGenOnce.copyArgums this e).p (5 + this.argums.length) =
      e.p (5 + this.argums.length) := by
  unfold FtGenOnce.copyArgums
  simp only
  rw [foldl_setP_untouched (List.range' 6 (5 + this.argums.length - 6)) (fun i => i)
    (fun pfieldI => this.argums.getD (pfieldI - 5) 0)]
  intro i hi
  simp only [List.mem_range'_1] at hi
  omega

theorem ftgenonce_key_first_variadic (this : FtGenOnce) (x y : MYFLT) (rest : List MYFLT) :
    FtGenOnce.key { this with argums := x :: rest } =
      FtGenOnce.key { this with argums := y :: rest } := by
  unfold FtGenOnce.key
  have hw : FtGenOnce.withP5 { this with argums := x :: rest }
      (FtGenOnce.fixedFields { this with argums := x :: rest }) =
      FtGenOnce.withP5 { this with argums := y :: rest }
      (FtGenOnce.fixedFields { this with argums := y :: rest }) := rfl
  rw [hw]
  congr 1
  funext e
  unfold FtGenOnce.copyArgums
  simp only [List.length_cons]
  apply List.foldl_ext
  intro a b hb
  simp only [List.mem_range'_1] at hb
  obtain ⟨k, hk⟩ : ∃ k, b - 5 = k + 1 := ⟨b - 6, by omega⟩
  rw [hk]
  rfl

theorem ftgenonce_withP5_untouched (this : FtGenOnce) (e e0 : EVTBLK)
    (h : FtGenOnce.withP5 this e = some e0) (k : Nat) (hk : k ≠ 5) :
    e0.p k = e.p k := by
  unfold FtGenOnce.withP5 at h
  by_cases hs : this.smask ≠ 0
  · rw [if_pos hs] at h
    by_cases hc : (if truncToInt (e.p 4) < 0 then -truncToInt (e.p 4)
        else truncToInt (e.p 4)) = 1 ∨
      (if truncToInt (e.p 4) < 0 then -truncToInt (e.p 4) else truncToInt (e.p 4)) = 23 ∨
      (if truncToInt (e.p 4) < 0 then -truncToInt (e.p 4) else truncToInt (e.p 4)) = 28 ∨
      (if truncToInt (e.p 4) < 0 then -truncToInt (e.p 4) else truncToInt (e.p 4)) = 43
    · rw [if_pos hc] at h
      simp only [Option.some.injEq] at h
      subst h
      simp [EVTBLK.setP, writeAt, hk]
    · rw [if_neg hc] at h
      simp at h
  · rw [if_neg hs] at h
    simp only [Option.some.injEq] at h
    subst h
    simp [EVTBLK.setP, writeAt, hk]

theorem ftgenonce_fixedFields_zero (this : FtGenOnce) (k : Nat) (hk : 5 ≤ k) :
    (FtGenOnce.fixedFields this).p k = 0 := by
  have h0 : ¬ k = 0 := by omega
  have h1 : ¬ k = 1 := by omega
  have h2 : ¬ k = 2 := by omega
  have h3 : ¬ k = 3 := by omega
  have h4 : ¬ k = 4 := by omega
  simp [FtGenOnce.fixedFields, EVTBLK.setP, writeAt, EVTBLK.zero, h0, h1, h2, h3, h4]

/-- Claim C32, evaluated on the code: the key of `ftgenonce 1, 0, 1024, 10, 1, 7, 8`
(variadic arguments 7 and 8) has `pcnt = 7`, `p[6] = 8` and `p[7] = 0`, where the claim
has `p[6] = 7` and `p[7] = 8`, and `p[7]` is outside the compared range `i < pcnt`. For
every request whose key is built, `pcnt = 5 + m`, `p[6 + j]` is the variadic argument
`j + 1` for `j + 1 < m`, the field `p[5 + m]` keeps the 0 of `memset`, and the key does
not depend on the first variadic argument. -/
theorem key_drops_first_variadic_argument :
    ((FtGenOnce.key ⟨0, 1, 0, 1024, 10, 1, "", [7, 8], 0⟩).map
      (fun e => (e.pcnt, e.p 6, e.p 7))) = some (7, 8, 0)
    ∧ (∀ (this : FtGenOnce) (e : EVTBLK), FtGenOnce.key this = some e →
        e.pcnt = 5 + this.argums.length ∧
        (∀ j, j + 1 < this.argums.length → e.p (6 + j) = this.argums.getD (j + 1) 0) ∧
        (1 ≤ this.argums.length → e.p (5 + this.argums.length) = 0))
    ∧ (∀ (this : FtGenOnce) (x y : MYFLT) (rest : List MYFLT),
        FtGenOnce.key { this with argums := x :: rest } =
          FtGenOnce.key { this with argums := y :: rest }) := by
  refine ⟨by decide, ?_, ?_⟩
  · intro this e h
    unfold FtGenOnce.key at h
    cases hw : FtGenOnce.withP5 this (FtGenOnce.fixedFields this) with
    | none => rw [hw] at h; simp at h
    | some e0 =>
      rw [hw] at h
      simp only [Option.map_some', Option.some.injEq] at h
      subst h
      refine ⟨(ftgenonce_copyArgums_fields this e0).2.2.1,
        fun j hj => ftgenonce_copyArgums_shifted this e0 j hj, ?_⟩
      intro hm
      rw [ftgenonce_copyArgums_last,
        ftgenonce_withP5_untouched this _ e0 hw (5 + this.argums.length) (by omega)]
      exact ftgenonce_fixedFields_zero this (5 + this.argums.length) (by omega)
  · intro this x y rest
    exact ftgenonce_key_first_variadic this x y rest

/-! ## The field count of the always-on record (C33) -/

/-- Claim C33, evaluated on the code: `alwayson "Reverb", 5` (one extra p-field, the
slot after it pointing to memory that holds 99) submits a record with `pcnt = 2`,
where the claim has 4, with `p[4] = 5` and `p[5] = 99`, the number behind `argums[1]`,
which the caller did not supply; in zeroed opcode memory, where that slot is null, the
call does not return. For every call that returns, `pcnt` is `GetInputArgCnt`, that is
`1 + m`, and the copy loop has read `argums[j]` into `p[4 + j]` for every `j < 1 + m`;
a call returns only if all these slots can be read. -/
theorem alwayson_count_and_overread :
    ((AlwaysOn.init (fun _ _ => 0)
        (newAlwaysOnReadable "Master" 1 "Reverb" 1 [5] 99)).map
      (fun r => r.insertCalls.map (fun call => (call.1.pcnt, call.1.p 4, call.1.p 5))))
      = some [(2, 5, 99)]
    ∧ (newAlwaysOn "Master" 1 "Reverb" 1 [5]).inputArgCnt = 1 + 1
    ∧ (AlwaysOn.init (fun _ _ => 0) (newAlwaysOn "Master" 1 "Reverb" 1 [5])).isNone = true
    ∧ (∀ (insert_score_event : EVTBLK → MYFLT → Int) (this : AlwaysOn)
        (r : AlwaysOnResult), AlwaysOn.init insert_score_event this = some r →
        r.this.evtblk.pcnt = this.inputArgCnt ∧
        ∀ j, j < this.inputArgCnt → some (r.this.evtblk.p (4 + j)) = this.argums j) := by
  refine ⟨by decide, by decide, by decide, ?_⟩
  intro ins this r h
  obtain ⟨evtblk, hc, rfl⟩ := alwayson_init_some ins this r h
  refine ⟨?_, ?_⟩
  · exact (alwayson_copyArgums_fields this (AlwaysOn.fixedFields this) evtblk hc).2.2.1
  · intro j hj
    exact alwayson_copyArgums_copied this (AlwaysOn.fixedFields this) evtblk hc j hj

/-! ## Inactive sources and termination of the frame-rate aggregation (C34, C35) -/

theorem slidingBins_never_left (binN offset : Nat) (source : Nat → MYFLT) (fuel binI : Nat)
    (i : Int) (sink : Nat → MYFLT) (h : binI < binN) :
    Inletf.slidingBins binN offset source fuel binI i sink = none := by
  induction fuel generalizing i sink with
  | zero => rfl
  | succ fuel ih =>
    unfold Inletf.slidingBins
    simp only [h, if_true]
    exact ih _ _

/-- Claim C34, evaluated on the code (build without `OLPC`): an initialised,
non-sliding `inletf` with `N = 0`, sink bins `(1, 1)`, frame counter 1 and last-merged
counter 0, bound to `A:out` whose one outlet is not active and has the bins `(5, 5)`
and the frame counter 7. After `Inletf::audio` the frame of the outlet holds `(1, 1)`,
and the frame counter of the sink and the last-merged counter are 7: the block after
`else` runs for the outlet that is not active and writes `source[binI]`. -/
theorem inactive_source_is_written :
    ((Inletf.audio (Outletf.init Globals.initial 0 1
        (newOutletf "A" "out" 0 (framesOf 0 PVS_AMP_FREQ 7 (fun _ => 5)))).2.1 0 8 zeroAlloc
      (fun _ => newOutletf "A" "out" 0 (framesOf 0 PVS_AMP_FREQ 7 (fun _ => 5)))
      (boundInletf ["A:out"] (framesOf 0 PVS_AMP_FREQ 1 (fun _ => 1)) 0)).outlet 1).map
        (fun o => (o.insdshead.actflg, o.fsignal.bin 0, o.fsignal.bin 1))
      = some (0, some 1, some 1)
    ∧ ((Inletf.audio (Outletf.init Globals.initial 0 1
        (newOutletf "A" "out" 0 (framesOf 0 PVS_AMP_FREQ 7 (fun _ => 5)))).2.1 0 8 zeroAlloc
      (fun _ => newOutletf "A" "out" 0 (framesOf 0 PVS_AMP_FREQ 7 (fun _ => 5)))
      (boundInletf ["A:out"] (framesOf 0 PVS_AMP_FREQ 1 (fun _ => 1)) 0)).inlet.map
        (fun this => (this.fsignal.framecount, this.lastframe))) = some (7, 7) := by
  decide

/-- Claim C35, evaluated on the code: a new `inletf` with `ksmps = 1`, bound to
`A:out` whose one outlet is active, sliding, in the format `PVS_AMP_FREQ` and with
`NB = 1`, never leaves `Inletf::audio`. The inner loop of the sliding branch
increments `i` and not `binI`: with at least one bin it is not left within any
number of tests of its condition, whatever the frames hold; with no bin it is left at
the first test. -/
theorem sliding_source_never_completes :
    (Inletf.audio (Outletf.init Globals.initial 0 1
        (newOutletf "A" "out" 1 (slidingFramesOf 1))).2.1 0 8 zeroAlloc
      (fun _ => newOutletf "A" "out" 1 (slidingFramesOf 1))
      { newInletf "C" "in" with sourceOutlets := ["A:out"], ksmps := 1 }).diverged = true
    ∧ (∀ (binN offset : Nat) (source : Nat → MYFLT) (fuel : Nat) (i : Int)
        (sink : Nat → MYFLT),
        Inletf.slidingBins (binN + 1) offset source fuel 0 i sink = none)
    ∧ (∀ (offset : Nat) (source : Nat → MYFLT) (i : Int) (sink : Nat → MYFLT),
        (Inletf.slidingBins 0 offset source 1 0 i sink).isSome = true) := by
  refine ⟨?_, ?_, ?_⟩
  · decide
  · intro binN offset source fuel i sink
    exact slidingBins_never_left (binN + 1) offset source fuel 0 i sink (by omega)
  · intro offset source i sink
    rfl

/-! ## The lazy initialisation of the sink (C36) -/

theorem lazyInit_copies (sizeofMYFLT : Nat) (AuxAlloc : Int → AUXCH → AUXCH)
    (source : PVSDAT) (this : Inletf) :
    (Inletf.lazyInit sizeofMYFLT AuxAlloc source this).1.fsignal.shape = source.shape ∧
    (Inletf.lazyInit sizeofMYFLT AuxAlloc source this).1.fsignal.framecount = 1 ∧
    (Inletf.lazyInit sizeofMYFLT AuxAlloc source this).1.lastframe = 0 := by
  unfold Inletf.lazyInit PVSDAT.shape
  simp only
  split <;> exact ⟨rfl, rfl, rfl⟩

theorem visit_inactive (sizeofMYFLT : Nat) (AuxAlloc : Int → AUXCH → AUXCH)
    (mem : Ref → Outletf) (this : Inletf) (r : Ref)
    (ha : (mem r).insdshead.actflg = 0) :
    (∀ mem1 this1, Inletf.visit sizeofMYFLT AuxAlloc mem this r = AudioStep.next mem1 this1 →
      this1.fsignalInitialized = this.fsignalInitialized ∧
      this1.fsignal.shape = this.fsignal.shape ∧
      ∀ y, (mem1 y).insdshead = (mem y).insdshead ∧
        (mem1 y).fsignal.shape = (mem y).fsignal.shape) ∧
    (∀ s m t, Inletf.visit sizeofMYFLT AuxAlloc mem this r ≠
      AudioStep.stop (AudioOutcome.returned s m t)) := by
  refine ⟨?_, ?_⟩
  · intro mem1 this1 h
    unfold Inletf.visit at h
    simp only [ha, ne_eq, not_true_eq_false, if_false] at h
    repeat' split at h
    all_goals first
      | (simp at h; done)
      | (simp only [AudioStep.next.injEq] at h
         obtain ⟨rfl, rfl⟩ := h
         refine ⟨rfl, rfl, fun y => ?_⟩
         first
           | exact ⟨rfl, rfl⟩
           | (by_cases hy : y = r
              · subst hy; simp [PVSDAT.shape]
              · simp [hy]))
  · intro s m t h
    unfold Inletf.visit at h
    simp only [ha, ne_eq, not_true_eq_false, if_false] at h
    repeat' split at h
    all_goals simp at h

theorem visit_active_uninitialised (sizeofMYFLT : Nat) (AuxAlloc : Int → AUXCH → AUXCH)
    (mem : Ref → Outletf) (this : Inletf) (r : Ref)
    (ha : (mem r).insdshead.actflg ≠ 0) (hi : this.fsignalInitialized = false) :
    (∀ mem1 this1, Inletf.visit sizeofMYFLT AuxAlloc mem this r = AudioStep.next mem1 this1 →
      mem1 = mem ∧ this1 = (Inletf.lazyInit sizeofMYFLT AuxAlloc (mem r).fsignal this).1 ∧
      this1.fsignalInitialized = true) ∧
    (∀ s m t, Inletf.visit sizeofMYFLT AuxAlloc mem this r =
        AudioStep.stop (AudioOutcome.returned s m t) →
      t = (Inletf.lazyInit sizeofMYFLT AuxAlloc (mem r).fsignal this).1) := by
  refine ⟨?_, ?_⟩
  · intro mem1 this1 h
    have h2 := lazyInit_fails_iff sizeofMYFLT AuxAlloc (mem r).fsignal this
    by_cases hfail : (Inletf.lazyInit sizeofMYFLT AuxAlloc (mem r).fsignal this).2 = true
    · unfold Inletf.visit at h
      simp [ha, hi, hfail] at h
    · have hA : (mem r).fsignal.format = PVS_AMP_FREQ := by
        by_contra hne
        exact hfail (h2.1.2 hne)
      have hB := h2.2.2 (Or.inr hA)
      unfold Inletf.visit at h
      simp only [ha, ne_eq, not_false_eq_true, if_true, hi, Bool.false_eq_true,
        if_false, hfail] at h
      repeat' split at h
      all_goals first
        | (simp at h; done)
        | (simp only [AudioStep.next.injEq] at h
           obtain ⟨rfl, rfl⟩ := h
           exact ⟨rfl, rfl, hB⟩)
  · intro s m t h
    unfold Inletf.visit at h
    simp only [ha, ne_eq, not_false_eq_true, if_true, hi, Bool.false_eq_true,
      if_false] at h
    repeat' split at h
    all_goals first
      | (simp at h; done)
      | (simp only [AudioStep.stop.injEq, AudioOutcome.returned.injEq] at h
         exact h.2.2.symm)

theorem visit_initialised_shape (sizeofMYFLT : Nat) (AuxAlloc : Int → AUXCH → AUXCH)
    (mem : Ref → Outletf) (this : Inletf) (r : Ref)
    (hi : this.fsignalInitialized = true) (mem1 : Ref → Outletf) (this1 : Inletf)
    (h : Inletf.visit sizeofMYFLT AuxAlloc mem this r = AudioStep.next mem1 this1) :
    this1.fsignal.shape = this.fsignal.shape ∧
    ∀ y, (mem1 y).insdshead = (mem y).insdshead ∧
      (mem1 y).fsignal.shape = (mem y).fsignal.shape := by
  by_cases ha : (mem r).insdshead.actflg = 0
  · have := (visit_inactive sizeofMYFLT AuxAlloc mem this r ha).1 mem1 this1 h
    exact ⟨this.2.1, this.2.2⟩
  · unfold Inletf.visit at h
    simp only [ha, ne_eq, not_false_eq_true, if_true, hi] at h
    repeat' split at h
    all_goals first
      | (simp at h; done)
      | (simp only [AudioStep.next.injEq] at h
         obtain ⟨rfl, rfl⟩ := h
         exact ⟨rfl, fun y => ⟨rfl, rfl⟩⟩)

theorem audioLoop_initialised_shape (sizeofMYFLT : Nat) (AuxAlloc : Int → AUXCH → AUXCH)
    (refs : List Ref) (mem : Ref → Outletf) (this : Inletf)
    (hi : this.fsignalInitialized = true) (s : Int) (mem1 : Ref → Outletf) (this1 : Inletf)
    (h : Inletf.audioLoop sizeofMYFLT AuxAlloc refs mem this =
      AudioOutcome.returned s mem1 this1) :
    this1.fsignal.shape = this.fsignal.shape ∧ this1.fsignalInitialized = true := by
  induction refs generalizing mem this with
  | nil =>
    simp only [Inletf.audioLoop, AudioOutcome.returned.injEq] at h
    obtain ⟨_, _, rfl⟩ := h
    exact ⟨rfl, hi⟩
  | cons r rest ih =>
    unfold Inletf.audioLoop at h
    cases hv : Inletf.visit sizeofMYFLT AuxAlloc mem this r with
    | next mem2 this2 =>
      rw [hv] at h
      simp only at h
      have h1 := visit_initialised_next sizeofMYFLT AuxAlloc mem this r hi mem2 this2 hv
      have h2 := visit_initialised_shape sizeofMYFLT AuxAlloc mem this r hi mem2 this2 hv
      obtain ⟨h3, h4⟩ := ih mem2 this2 h1 h
      exact ⟨h3.trans h2.1, h4⟩
    | stop outcome =>
      rw [hv] at h
      simp only at h
      subst h
      exact absurd hv (visit_initialised_not_returned sizeofMYFLT AuxAlloc mem this r hi _ _ _)

theorem audioLoop_first_active (sizeofMYFLT : Nat) (AuxAlloc : Int → AUXCH → AUXCH)
    (pre : List Ref) (r : Ref) (post : List Ref) (mem : Ref → Outletf) (this : Inletf)
    (hpre : ∀ x ∈ pre, (mem x).insdshead.actflg = 0)
    (ha : (mem r).insdshead.actflg ≠ 0) (hi : this.fsignalInitialized = false)
    (s : Int) (mem1 : Ref → Outletf) (this1 : Inletf)
    (h : Inletf.audioLoop sizeofMYFLT AuxAlloc (pre ++ r :: post) mem this =
      AudioOutcome.returned s mem1 this1) :
    this1.fsignal.shape = (mem r).fsignal.shape := by
  induction pre generalizing mem this with
  | nil =>
    simp only [List.nil_append] at h
    unfold Inletf.audioLoop at h
    have hv2 := visit_active_uninitialised sizeofMYFLT AuxAlloc mem this r ha hi
    cases hv : Inletf.visit sizeofMYFLT AuxAlloc mem this r with
    | next mem2 this2 =>
      rw [hv] at h
      simp only at h
      obtain ⟨_, h2, h3⟩ := hv2.1 mem2 this2 hv
      have h4 := (audioLoop_initialised_shape sizeofMYFLT AuxAlloc post mem2 this2 h3 s mem1
        this1 h).1
      rw [h4, h2]
      exact (lazyInit_copies sizeofMYFLT AuxAlloc (mem r).fsignal this).1
    | stop outcome =>
      rw [hv] at h
      simp only at h
      subst h
      rw [hv2.2 _ _ _ hv]
      exact (lazyInit_copies sizeofMYFLT AuxAlloc (mem r).fsignal this).1
  | cons x pre ih =>
    simp only [List.cons_append] at h
    unfold Inletf.audioLoop at h
    have hx : (mem x).insdshead.actflg = 0 := hpre x (List.mem_cons_self _ _)
    have hv2 := visit_inactive sizeofMYFLT AuxAlloc mem this x hx
    cases hv : Inletf.visit sizeofMYFLT AuxAlloc mem this x with
    | next mem2 this2 =>
      rw [hv] at h
      simp only at h
      obtain ⟨h1, _, h3⟩ := hv2.1 mem2 this2 hv
      have := ih mem2 this2
        (fun y hy => by rw [(h3 y).1]; exact hpre y (List.mem_cons_of_mem _ hy))
        (by rw [(h3 r).1]; exact ha) (h1.trans hi) h
      rw [this, (h3 r).2]
    | stop outcome =>
      rw [hv] at h
      simp only at h
      subst h
      exact absurd hv (hv2.2 _ _ _)

/-- Claim C36: the lazy initialisation sets `N`, `overlap`, `winsize`, `wintype` and
`format` of the sink to those of the source, the frame counter to 1 and the
last-merged counter to 0; a visit of an active outlet by a sink that is not
initialised, when the loop goes on, leaves exactly the lazily initialised sink, marked
initialised; when `Inletf::audio` returns from a call in which the sink was not
initialised and the first active outlet of the bound buckets is `r`, the five fields of
the sink are those of `r`; and when it returns from a call in which the sink was
initialised, the five fields are unchanged and the sink is still initialised. -/
theorem lazy_initialisation_copies_format :
    (∀ (sizeofMYFLT : Nat) (AuxAlloc : Int → AUXCH → AUXCH) (source : PVSDAT)
        (this : Inletf),
      (Inletf.lazyInit sizeofMYFLT AuxAlloc source this).1.fsignal.shape = source.shape ∧
      (Inletf.lazyInit sizeofMYFLT AuxAlloc source this).1.fsignal.framecount = 1 ∧
      (Inletf.lazyInit sizeofMYFLT AuxAlloc source this).1.lastframe = 0)
    ∧ (∀ (sizeofMYFLT : Nat) (AuxAlloc : Int → AUXCH → AUXCH) (mem : Ref → Outletf)
        (this : Inletf) (r : Ref) (mem1 : Ref → Outletf) (this1 : Inletf),
      (mem r).insdshead.actflg ≠ 0 → this.fsignalInitialized = false →
      Inletf.visit sizeofMYFLT AuxAlloc mem this r = AudioStep.next mem1 this1 →
      this1 = (Inletf.lazyInit sizeofMYFLT AuxAlloc (mem r).fsignal this).1 ∧
      this1.fsignalInitialized = true)
    ∧ (∀ (g : Globals) (csound : CSOUND) (sizeofMYFLT : Nat)
        (AuxAlloc : Int → AUXCH → AUXCH) (mem : Ref → Outletf) (this : Inletf)
        (pre : List Ref) (r : Ref) (post : List Ref) (s : Int) (mem1 : Ref → Outletf)
        (this1 : Inletf),
      this.sourceOutlets.flatMap
        (fun bucket => (g.foutletsForCsoundsForSourceOutletIds csound).value bucket)
        = pre ++ r :: post →
      (∀ x ∈ pre, (mem x).insdshead.actflg = 0) → (mem r).insdshead.actflg ≠ 0 →
      this.fsignalInitialized = false →
      Inletf.audio g csound sizeofMYFLT AuxAlloc mem this =
        AudioOutcome.returned s mem1 this1 →
      this1.fsignal.shape = (mem r).fsignal.shape)
    ∧ (∀ (g : Globals) (csound : CSOUND) (sizeofMYFLT : Nat)
        (AuxAlloc : Int → AUXCH → AUXCH) (mem : Ref → Outletf) (this : Inletf)
        (s : Int) (mem1 : Ref → Outletf) (this1 : Inletf),
      this.fsignalInitialized = true →
      Inletf.audio g csound sizeofMYFLT AuxAlloc mem this =
        AudioOutcome.returned s mem1 this1 →
      this1.fsignal.shape = this.fsignal.shape ∧ this1.fsignalInitialized = true) := by
  refine ⟨?_, ?_, ?_, ?_⟩
  · intro sizeofMYFLT AuxAlloc source this
    exact lazyInit_copies sizeofMYFLT AuxAlloc source this
  · intro sizeofMYFLT AuxAlloc mem this r mem1 this1 ha hi hv
    exact ((visit_active_uninitialised sizeofMYFLT AuxAlloc mem this r ha hi).1 mem1 this1
      hv).2
  · intro g csound sizeofMYFLT AuxAlloc mem this pre r post s mem1 this1 hl hpre ha hi h
    unfold Inletf.audio at h
    rw [hl] at h
    exact audioLoop_first_active sizeofMYFLT AuxAlloc pre r post mem this hpre ha hi s mem1
      this1 h
  · intro g csound sizeofMYFLT AuxAlloc mem this s mem1 this1 hi h
    exact audioLoop_initialised_shape sizeofMYFLT AuxAlloc _ mem this hi s mem1 this1 h

/-- Witness of C36: a new `inletf` bound to `A:out`, whose one outlet is active with
`N = 4`, `overlap = 1`, `winsize = 2`, `wintype = 0` in the format `PVS_AMP_FREQ`. -/
theorem lazy_initialisation_copies_format_witness :
    (Inletf.lazyInit 8 zeroAlloc (framesOf 4 PVS_AMP_FREQ 3 (fun _ => 5))
      { newInletf "C" "in" with sourceOutlets := ["A:out"] }).1.fsignal.shape
      = (4, 1, 2, 0, 0) :=
  lazy_initialisation_copies_format.2.2.1
    (Outletf.init Globals.initial 0 1
      (newOutletf "A" "out" 1 (framesOf 4 PVS_AMP_FREQ 3 (fun _ => 5)))).2.1 0 8 zeroAlloc
    (fun _ => newOutletf "A" "out" 1 (framesOf 4 PVS_AMP_FREQ 3 (fun _ => 5)))
    { newInletf "C" "in" with sourceOutlets := ["A:out"] }
    [] 1 [] OK
    (fun _ => newOutletf "A" "out" 1 (framesOf 4 PVS_AMP_FREQ 3 (fun _ => 5)))
    (Inletf.lazyInit 8 zeroAlloc (framesOf 4 PVS_AMP_FREQ 3 (fun _ => 5))
      { newInletf "C" "in" with sourceOutlets := ["A:out"] }).1
    (by decide) (fun _ h => absurd h (List.not_mem_nil _)) (by decide) rfl rfl

end Csound
